import Mathlib

/-! # Portacount graph: axis range computation, series ingestion and cross-instance axis merge

A shallow embedding of `src/graph.cpp`.

Modelling conventions
* In the main layer a C++ `double` is an exact rational number (`ℚ`): every finite double
  is a rational, and `floor`, `ceil`, comparison, `+ 1.0` and `*= 2.0` are taken exactly.
  This layer covers the finite values on which the arithmetic of the program is exact.
* Rounding, the infinities and NaN are in a second layer (`Double`, `Double.round`,
  `compute_y_axis_double`, `timer_func_mask_double`), in which the functions whose
  behaviour differs there are written again in double arithmetic.
* `std::vector<double>` is a `List ℚ`; `push_back v` is `l ++ [v]`, `size()` is `length`,
  `clear()` is `[]`; `reserve` and `shrink_to_fit` only change capacity and are not modelled.
* The array of mapped shared-memory records `shared_memory_ptrs[i]` is a function
  `Nat → SharedMemoryBuffer`; a store through `shared_memory_ptrs[k]->...` is a
  `Function.update` at `k`. One redraw cycle is run against one snapshot of the records.
* `log10` of `<math.h>` is a parameter `log10 : ℚ → ℚ` of the functions that call it.
* A byte of a buffer is a `Char`; `sscanf` is modelled for the directives of the program's
  formats, and the system call `write` is a parameter giving its return values.
* The calls on the semaphores and the accesses of the shared records are listed in program
  order as sequences of `Action`, every call succeeding.
* The values a polling loop loads from a peer's record and the way each `shm_unlink` ends
  are parameters of `remove_shared_memory`; a loop that may not end takes a bound on its
  iterations.
* The conversion of a double to `unsigned int` is that of the x86-64 build where C++ leaves
  it undefined; a `long int` is an `Int`, its conversion to `unsigned int` is modulo 2^32.
-/

namespace Portacount

/-! ## Data model -/

/-- The largest finite double, `std::numeric_limits<double>::max()` = (2^53 - 1) * 2^971. -/
def DBL_MAX : ℚ := (((2 ^ 53 - 1) * 2 ^ 971 : ℕ) : ℚ)

/-- The library function `floor` of `<math.h>` on a (finite) double. -/
def floor (x : ℚ) : ℚ := ((Int.floor x : ℤ) : ℚ)

/-- The library function `ceil` of `<math.h>` on a (finite) double. -/
def ceil (x : ℚ) : ℚ := ((Int.ceil x : ℤ) : ℚ)

/-- The enumeration `ModeType` (graph.cpp 111-115). -/
inductive ModeType
  | COUNT_MODE
  | FIT_TEST_MODE
  deriving DecidableEq

/-- The record `CountModeData` (graph.cpp 118-124). -/
structure CountModeData where
  count_mode_x_axis_max : ℚ
  count_array_max : ℚ
  count_array_min : ℚ
  count_array : List ℚ
  deriving DecidableEq

/-- The initial value of the global `count_mode_data` (graph.cpp 125-130). -/
def count_mode_data : CountModeData :=
  { count_mode_x_axis_max := 18
    count_array_max := -DBL_MAX
    count_array_min := DBL_MAX
    count_array := [] }

/-- The record `FitTestModeData` (graph.cpp 132-142). -/
structure FitTestModeData where
  fit_test_mode_x_axis_max : ℚ
  sample_array_max : ℚ
  sample_array_min : ℚ
  ambient_array_max : ℚ
  ambient_array_min : ℚ
  fit_factor_array_max : ℚ
  fit_factor_array_min : ℚ
  sample_array : List ℚ
  ambient_array : List ℚ
  fit_factor_array : List ℚ
  deriving DecidableEq

/-- The initial value of the global `fit_test_mode_data` (graph.cpp 143-154). -/
def fit_test_mode_data : FitTestModeData :=
  { fit_test_mode_x_axis_max := 18
    sample_array_max := -DBL_MAX
    sample_array_min := DBL_MAX
    ambient_array_max := -DBL_MAX
    ambient_array_min := DBL_MAX
    fit_factor_array_max := -DBL_MAX
    fit_factor_array_min := DBL_MAX
    sample_array := []
    ambient_array := []
    fit_factor_array := [] }

/-- The nested record `SharedMemoryBuffer::CountMode` (graph.cpp 170-175). -/
structure CountMode where
  y_axis_valid : Bool
  y_axis_min : ℚ
  y_axis_max : ℚ
  deriving DecidableEq

/-- The nested record `SharedMemoryBuffer::FitTestMode` (graph.cpp 176-187). -/
structure FitTestMode where
  sample_y_axis_valid : Bool
  ambient_y_axis_valid : Bool
  fit_factor_y_axis_valid : Bool
  sample_y_axis_min : ℚ
  sample_y_axis_max : ℚ
  ambient_y_axis_min : ℚ
  ambient_y_axis_max : ℚ
  fit_factor_y_axis_min : ℚ
  fit_factor_y_axis_max : ℚ
  deriving DecidableEq

/-- The shared record `SharedMemoryBuffer` (graph.cpp 164-190), one per instance. -/
structure SharedMemoryBuffer where
  initialized : Bool
  quit : Bool
  valid : Bool
  mode : ModeType
  count_mode : CountMode
  fit_test_mode : FitTestMode
  deriving DecidableEq

/-- The record `InstanceData` (graph.cpp 194-198). -/
structure InstanceData where
  total_instances : Nat
  instance_index : Nat
  deriving DecidableEq

/-- The process-local globals the handlers read and write: `mode` (graph.cpp 116),
`count_mode_data` and `fit_test_mode_data`. -/
structure State where
  mode : ModeType
  count_mode_data : CountModeData
  fit_test_mode_data : FitTestModeData
  deriving DecidableEq

/-- The globals at process start (graph.cpp 116, 125-154). -/
def State.initial : State :=
  { mode := ModeType.COUNT_MODE
    count_mode_data := Portacount.count_mode_data
    fit_test_mode_data := Portacount.fit_test_mode_data }

/-- The own record after `memset(..., 0, ...)` and the store of `initialized = true` in
`init_shared_memory` (graph.cpp 902-903): every flag but `initialized` is false, the mode
tag is the enumerator of value 0 and every bound is 0. -/
def SharedMemoryBuffer.initial : SharedMemoryBuffer :=
  { initialized := true
    quit := false
    valid := false
    mode := ModeType.COUNT_MODE
    count_mode := { y_axis_valid := false, y_axis_min := 0, y_axis_max := 0 }
    fit_test_mode :=
      { sample_y_axis_valid := false
        ambient_y_axis_valid := false
        fit_factor_y_axis_valid := false
        sample_y_axis_min := 0
        sample_y_axis_max := 0
        ambient_y_axis_min := 0
        ambient_y_axis_max := 0
        fit_factor_y_axis_min := 0
        fit_factor_y_axis_max := 0 } }

/-! ## Axis range computation -/

/-- The function `compute_y_axis` (graph.cpp 337-353) on finite values in exact arithmetic:
the tuple `(y_axis_min, y_axis_max, default_used)`. The function in double arithmetic, with
rounding, infinities and NaN, is `compute_y_axis_double`. -/
def compute_y_axis (min max default_min default_max : ℚ) : ℚ × ℚ × Bool :=
  let y_axis_min := floor min
  let y_axis_max := ceil max
  let default_used := false
  let (y_axis_min, y_axis_max, default_used) :=
    if y_axis_max < y_axis_min then (default_min, default_max, true)
    else (y_axis_min, y_axis_max, default_used)
  let y_axis_max := if y_axis_max - y_axis_min < 1 then y_axis_min + 1 else y_axis_max
  (y_axis_min, y_axis_max, default_used)

/-! ## Ingestion: the append blocks of `timer_func` and the key handler -/

/-- The count append block of `timer_func` (graph.cpp 709-721), `val` being the value
after `log10`. -/
def timer_func_count_append (d : CountModeData) (val : ℚ) : CountModeData :=
  let count_array := d.count_array ++ [val]
  let x_axis_max :=
    if (count_array.length : ℚ) > d.count_mode_x_axis_max then d.count_mode_x_axis_max * 2
    else d.count_mode_x_axis_max
  let array_min := if val < d.count_array_min then val else d.count_array_min
  let array_max := if val > d.count_array_max then val else d.count_array_max
  { count_mode_x_axis_max := x_axis_max
    count_array_max := array_max
    count_array_min := array_min
    count_array := count_array }

/-- The sample (`Mask`) append block of `timer_func` (graph.cpp 729-741) for a finite value
`val`. The branch with the value `log10` returns at zero, at a negative argument or at an
infinity is `timer_func_mask_double`. -/
def timer_func_sample_append (d : FitTestModeData) (val : ℚ) : FitTestModeData :=
  let sample_array := d.sample_array ++ [val]
  let x_axis_max :=
    if (sample_array.length : ℚ) > d.fit_test_mode_x_axis_max
    then d.fit_test_mode_x_axis_max * 2 else d.fit_test_mode_x_axis_max
  let array_min := if val < d.sample_array_min then val else d.sample_array_min
  let array_max := if val > d.sample_array_max then val else d.sample_array_max
  { d with
    sample_array := sample_array
    fit_test_mode_x_axis_max := x_axis_max
    sample_array_min := array_min
    sample_array_max := array_max }

/-- The ambient append block of `timer_func` (graph.cpp 746-758). -/
def timer_func_ambient_append (d : FitTestModeData) (val : ℚ) : FitTestModeData :=
  let ambient_array := d.ambient_array ++ [val]
  let x_axis_max :=
    if (ambient_array.length : ℚ) > d.fit_test_mode_x_axis_max
    then d.fit_test_mode_x_axis_max * 2 else d.fit_test_mode_x_axis_max
  let array_min := if val < d.ambient_array_min then val else d.ambient_array_min
  let array_max := if val > d.ambient_array_max then val else d.ambient_array_max
  { d with
    ambient_array := ambient_array
    fit_test_mode_x_axis_max := x_axis_max
    ambient_array_min := array_min
    ambient_array_max := array_max }

/-- The fit-factor append block of `timer_func` (graph.cpp 763-775). -/
def timer_func_fit_factor_append (d : FitTestModeData) (val : ℚ) : FitTestModeData :=
  let fit_factor_array := d.fit_factor_array ++ [val]
  let x_axis_max :=
    if (fit_factor_array.length : ℚ) > d.fit_test_mode_x_axis_max
    then d.fit_test_mode_x_axis_max * 2 else d.fit_test_mode_x_axis_max
  let array_min := if val < d.fit_factor_array_min then val else d.fit_factor_array_min
  let array_max := if val > d.fit_factor_array_max then val else d.fit_factor_array_max
  { d with
    fit_factor_array := fit_factor_array
    fit_test_mode_x_axis_max := x_axis_max
    fit_factor_array_min := array_min
    fit_factor_array_max := array_max }

/-- The outcome of the `sscanf` calls of `timer_func` on the bytes read: for each format,
`some v` when the call returns 1 having stored `v` in `val`, and `none` otherwise. -/
structure Scan where
  conc : Option ℚ
  mask : Option ℚ
  ambient : Option ℚ
  ff_pass : Option ℚ
  ff_fail : Option ℚ
  deriving DecidableEq

/-- The series update of `timer_func` (graph.cpp 699-777) for a chunk of `ret > 0` bytes,
given the outcomes of its `sscanf` calls. -/
def timer_func (log10 : ℚ → ℚ) (st : State) (scan : Scan) : State :=
  match st.mode with
  | ModeType.COUNT_MODE =>
    match scan.conc with
    | some val =>
      let val := if val = 0 then 1 / 1000 else val
      let val := log10 val
      { st with count_mode_data := timer_func_count_append st.count_mode_data val }
    | none => st
  | ModeType.FIT_TEST_MODE =>
    match scan.mask with
    | some val =>
      { st with
        fit_test_mode_data := timer_func_sample_append st.fit_test_mode_data (log10 val) }
    | none =>
      match scan.ambient with
      | some val =>
        { st with
          fit_test_mode_data := timer_func_ambient_append st.fit_test_mode_data (log10 val) }
      | none =>
        match scan.ff_pass with
        | some val =>
          { st with
            fit_test_mode_data :=
              timer_func_fit_factor_append st.fit_test_mode_data (log10 val) }
        | none =>
          match scan.ff_fail with
          | some val =>
            { st with
              fit_test_mode_data :=
                timer_func_fit_factor_append st.fit_test_mode_data (log10 val) }
          | none => st

/-- The reset block of `keyboard_func` for COUNT_MODE (graph.cpp 242-247). -/
def keyboard_func_count_reset (d : CountModeData) : CountModeData :=
  { d with
    count_array := []
    count_mode_x_axis_max := 18
    count_array_max := -DBL_MAX
    count_array_min := DBL_MAX }

/-- The reset block of `keyboard_func` for FIT_TEST_MODE (graph.cpp 251-266). -/
def keyboard_func_fit_test_reset (d : FitTestModeData) : FitTestModeData :=
  { d with
    sample_array := []
    ambient_array := []
    fit_factor_array := []
    fit_test_mode_x_axis_max := 18
    sample_array_max := -DBL_MAX
    sample_array_min := DBL_MAX
    ambient_array_max := -DBL_MAX
    ambient_array_min := DBL_MAX
    fit_factor_array_max := -DBL_MAX
    fit_factor_array_min := DBL_MAX }

/-- The key handler `keyboard_func` (graph.cpp 212-272) on the process-local globals. -/
def keyboard_func (st : State) (key : Char) : State :=
  if key = 'q' ∨ key = 'Q' then st
  else if key = 'c' ∨ key = 'C' then { st with mode := ModeType.COUNT_MODE }
  else if key = 'f' ∨ key = 'F' then { st with mode := ModeType.FIT_TEST_MODE }
  else if key = 'x' ∨ key = 'X' then
    match st.mode with
    | ModeType.COUNT_MODE =>
      { st with count_mode_data := keyboard_func_count_reset st.count_mode_data }
    | ModeType.FIT_TEST_MODE =>
      { st with fit_test_mode_data := keyboard_func_fit_test_reset st.fit_test_mode_data }
  else st

/-! ## Redraw cycle: compute, publish, merge (`display`) -/

/-- The local variables `ambient_y_axis_min`, ..., `fit_factor_y_axis_max` of the
FIT_TEST_MODE branch of `display` (graph.cpp 498-508). -/
structure FitTestAxes where
  ambient_y_axis_min : ℚ
  ambient_y_axis_max : ℚ
  sample_y_axis_min : ℚ
  sample_y_axis_max : ℚ
  fit_factor_y_axis_min : ℚ
  fit_factor_y_axis_max : ℚ
  deriving DecidableEq

/-- The local variables `y_axis_min`, `y_axis_max` of the COUNT_MODE branch of `display`
(graph.cpp 394). -/
structure CountAxes where
  y_axis_min : ℚ
  y_axis_max : ℚ
  deriving DecidableEq

/-- The axis ranges after the merge loop of the branch of `display` that ran. -/
inductive Axes
  | count_mode (a : CountAxes)
  | fit_test_mode (a : FitTestAxes)
  deriving DecidableEq

/-- The COUNT_MODE publish step of `display` on the own record (graph.cpp 401-408). -/
def display_count_publish (own : SharedMemoryBuffer) (y_axis_min y_axis_max : ℚ)
    (default_y_axis : Bool) : SharedMemoryBuffer :=
  if default_y_axis = false then
    { own with
      mode := ModeType.COUNT_MODE
      count_mode := { y_axis_min := y_axis_min, y_axis_max := y_axis_max, y_axis_valid := true }
      valid := true }
  else own

/-- The body of the COUNT_MODE merge loop of `display` for one peer record
(graph.cpp 420-433). -/
def display_count_merge_body (a : CountAxes) (peer : SharedMemoryBuffer) : CountAxes :=
  if peer.valid = true ∧ peer.mode = ModeType.COUNT_MODE then
    if peer.count_mode.y_axis_valid = true then
      let y_axis_min :=
        if peer.count_mode.y_axis_min < a.y_axis_min then peer.count_mode.y_axis_min
        else a.y_axis_min
      let y_axis_max :=
        if peer.count_mode.y_axis_max > a.y_axis_max then peer.count_mode.y_axis_max
        else a.y_axis_max
      { y_axis_min := y_axis_min, y_axis_max := y_axis_max }
    else a
  else a

/-- The FIT_TEST_MODE publish step of `display` on the own record (graph.cpp 513-535). -/
def display_fit_test_publish (own : SharedMemoryBuffer) (a : FitTestAxes)
    (ambient_default_y_axis sample_default_y_axis fit_factor_default_y_axis : Bool) :
    SharedMemoryBuffer :=
  let own :=
    if ambient_default_y_axis = false then
      { own with
        fit_test_mode :=
          { own.fit_test_mode with
            ambient_y_axis_min := a.ambient_y_axis_min
            ambient_y_axis_max := a.ambient_y_axis_max
            ambient_y_axis_valid := true } }
    else own
  let own :=
    if sample_default_y_axis = false then
      { own with
        fit_test_mode :=
          { own.fit_test_mode with
            sample_y_axis_min := a.sample_y_axis_min
            sample_y_axis_max := a.sample_y_axis_max
            sample_y_axis_valid := true } }
    else own
  let own :=
    if fit_factor_default_y_axis = false then
      { own with
        fit_test_mode :=
          { own.fit_test_mode with
            fit_factor_y_axis_min := a.fit_factor_y_axis_min
            fit_factor_y_axis_max := a.fit_factor_y_axis_max
            fit_factor_y_axis_valid := true } }
    else own
  if ambient_default_y_axis = false ∨ sample_default_y_axis = false
      ∨ fit_factor_default_y_axis = false then
    { own with mode := ModeType.FIT_TEST_MODE, valid := true }
  else own

/-- The body of the FIT_TEST_MODE merge loop of `display` for one peer record
(graph.cpp 547-582). -/
def display_fit_test_merge_body (a : FitTestAxes) (peer : SharedMemoryBuffer) : FitTestAxes :=
  if peer.valid = true ∧ peer.mode = ModeType.FIT_TEST_MODE then
    let a :=
      if peer.fit_test_mode.ambient_y_axis_valid = true then
        { a with
          ambient_y_axis_min :=
            if peer.fit_test_mode.ambient_y_axis_min < a.ambient_y_axis_min
            then peer.fit_test_mode.ambient_y_axis_min else a.ambient_y_axis_min
          ambient_y_axis_max :=
            if peer.fit_test_mode.ambient_y_axis_max > a.ambient_y_axis_max
            then peer.fit_test_mode.ambient_y_axis_max else a.ambient_y_axis_max }
      else a
    let a :=
      if peer.fit_test_mode.sample_y_axis_valid = true then
        { a with
          sample_y_axis_min :=
            if peer.fit_test_mode.sample_y_axis_min < a.sample_y_axis_min
            then peer.fit_test_mode.sample_y_axis_min else a.sample_y_axis_min
          sample_y_axis_max :=
            if peer.fit_test_mode.sample_y_axis_max > a.sample_y_axis_max
            then peer.fit_test_mode.sample_y_axis_max else a.sample_y_axis_max }
      else a
    let a :=
      if peer.fit_test_mode.fit_factor_y_axis_valid = true then
        { a with
          fit_factor_y_axis_min :=
            if peer.fit_test_mode.fit_factor_y_axis_min < a.fit_factor_y_axis_min
            then peer.fit_test_mode.fit_factor_y_axis_min else a.fit_factor_y_axis_min
          fit_factor_y_axis_max :=
            if peer.fit_test_mode.fit_factor_y_axis_max > a.fit_factor_y_axis_max
            then peer.fit_test_mode.fit_factor_y_axis_max else a.fit_factor_y_axis_max }
      else a
    a
  else a

/-- The local axis range of the COUNT_MODE branch of `display` (graph.cpp 396). -/
def display_count_local (st : State) : ℚ × ℚ × Bool :=
  compute_y_axis st.count_mode_data.count_array_min st.count_mode_data.count_array_max (-3) 5

/-- The local ambient axis range of the FIT_TEST_MODE branch of `display` (graph.cpp 500). -/
def display_ambient_local (st : State) : ℚ × ℚ × Bool :=
  compute_y_axis st.fit_test_mode_data.ambient_array_min
    st.fit_test_mode_data.ambient_array_max 3 6

/-- The local sample axis range of the FIT_TEST_MODE branch of `display` (graph.cpp 504). -/
def display_sample_local (st : State) : ℚ × ℚ × Bool :=
  compute_y_axis st.fit_test_mode_data.sample_array_min
    st.fit_test_mode_data.sample_array_max (-1) 3

/-- The local fit-factor axis range of the FIT_TEST_MODE branch of `display`
(graph.cpp 508). -/
def display_fit_factor_local (st : State) : ℚ × ℚ × Bool :=
  compute_y_axis st.fit_test_mode_data.fit_factor_array_min
    st.fit_test_mode_data.fit_factor_array_max 0 3

/-- One redraw cycle of `display` (graph.cpp 385-438 and 481-594) up to the merged axis
ranges: compute the local ranges, publish into the own record, then fold the records of
the peers `i = 0, ..., total_instances - 1`, skipping `i = instance_index`. Returns the
shared records after the cycle and the merged ranges. -/
def display (st : State) (inst : InstanceData) (shared : Nat → SharedMemoryBuffer) :
    (Nat → SharedMemoryBuffer) × Axes :=
  match st.mode with
  | ModeType.COUNT_MODE =>
    let (y_axis_min, y_axis_max, default_y_axis) := display_count_local st
    let shared := Function.update shared inst.instance_index
      (display_count_publish (shared inst.instance_index) y_axis_min y_axis_max default_y_axis)
    let a : CountAxes := { y_axis_min := y_axis_min, y_axis_max := y_axis_max }
    let a := (List.range inst.total_instances).foldl
      (fun a i => if i = inst.instance_index then a else display_count_merge_body a (shared i)) a
    (shared, Axes.count_mode a)
  | ModeType.FIT_TEST_MODE =>
    let (ambient_y_axis_min, ambient_y_axis_max, ambient_default_y_axis) :=
      display_ambient_local st
    let (sample_y_axis_min, sample_y_axis_max, sample_default_y_axis) :=
      display_sample_local st
    let (fit_factor_y_axis_min, fit_factor_y_axis_max, fit_factor_default_y_axis) :=
      display_fit_factor_local st
    let a : FitTestAxes :=
      { ambient_y_axis_min := ambient_y_axis_min
        ambient_y_axis_max := ambient_y_axis_max
        sample_y_axis_min := sample_y_axis_min
        sample_y_axis_max := sample_y_axis_max
        fit_factor_y_axis_min := fit_factor_y_axis_min
        fit_factor_y_axis_max := fit_factor_y_axis_max }
    let shared := Function.update shared inst.instance_index
      (display_fit_test_publish (shared inst.instance_index) a
        ambient_default_y_axis sample_default_y_axis fit_factor_default_y_axis)
    let a := (List.range inst.total_instances).foldl
      (fun a i =>
        if i = inst.instance_index then a else display_fit_test_merge_body a (shared i)) a
    (shared, Axes.fit_test_mode a)

/-! ## Vocabulary for stating the properties of the redraw cycle -/

/-- The four quantities whose axis range `display` computes, publishes and merges. -/
inductive Quantity
  | count
  | ambient
  | sample
  | fit_factor
  deriving DecidableEq

/-- The mode whose branch of `display` handles the quantity. -/
def Quantity.mode : Quantity → ModeType
  | Quantity.count => ModeType.COUNT_MODE
  | Quantity.ambient => ModeType.FIT_TEST_MODE
  | Quantity.sample => ModeType.FIT_TEST_MODE
  | Quantity.fit_factor => ModeType.FIT_TEST_MODE

/-- The per-quantity valid flag of a shared record. -/
def SharedMemoryBuffer.quantity_valid (s : SharedMemoryBuffer) : Quantity → Bool
  | Quantity.count => s.count_mode.y_axis_valid
  | Quantity.ambient => s.fit_test_mode.ambient_y_axis_valid
  | Quantity.sample => s.fit_test_mode.sample_y_axis_valid
  | Quantity.fit_factor => s.fit_test_mode.fit_factor_y_axis_valid

/-- The published lower bound of a quantity in a shared record. -/
def SharedMemoryBuffer.quantity_min (s : SharedMemoryBuffer) : Quantity → ℚ
  | Quantity.count => s.count_mode.y_axis_min
  | Quantity.ambient => s.fit_test_mode.ambient_y_axis_min
  | Quantity.sample => s.fit_test_mode.sample_y_axis_min
  | Quantity.fit_factor => s.fit_test_mode.fit_factor_y_axis_min

/-- The published upper bound of a quantity in a shared record. -/
def SharedMemoryBuffer.quantity_max (s : SharedMemoryBuffer) : Quantity → ℚ
  | Quantity.count => s.count_mode.y_axis_max
  | Quantity.ambient => s.fit_test_mode.ambient_y_axis_max
  | Quantity.sample => s.fit_test_mode.sample_y_axis_max
  | Quantity.fit_factor => s.fit_test_mode.fit_factor_y_axis_max

/-- The three tests a peer record passes to contribute to the merge of a quantity: overall
valid flag, mode tag equal to the quantity's mode, per-quantity valid flag. -/
def SharedMemoryBuffer.published (s : SharedMemoryBuffer) (q : Quantity) : Bool :=
  s.valid && decide (s.mode = q.mode) && s.quantity_valid q

/-- The local axis range `display` computes for a quantity. -/
def display_local (st : State) : Quantity → ℚ × ℚ × Bool
  | Quantity.count => display_count_local st
  | Quantity.ambient => display_ambient_local st
  | Quantity.sample => display_sample_local st
  | Quantity.fit_factor => display_fit_factor_local st

/-- The range `(min, max)` of a quantity among the axis ranges of a redraw cycle, `none`
when the branch that ran does not handle the quantity. -/
def Axes.range : Axes → Quantity → Option (ℚ × ℚ)
  | Axes.count_mode a, Quantity.count => some (a.y_axis_min, a.y_axis_max)
  | Axes.fit_test_mode a, Quantity.ambient => some (a.ambient_y_axis_min, a.ambient_y_axis_max)
  | Axes.fit_test_mode a, Quantity.sample => some (a.sample_y_axis_min, a.sample_y_axis_max)
  | Axes.fit_test_mode a, Quantity.fit_factor =>
    some (a.fit_factor_y_axis_min, a.fit_factor_y_axis_max)
  | _, _ => none

/-- The compute step and the merge loop of `display` with the loop run over an explicit
visiting order of peer indices instead of `0, ..., total_instances - 1` without the own
index. -/
def display_merge_visiting (st : State) (shared : Nat → SharedMemoryBuffer)
    (visit : List Nat) : Axes :=
  match st.mode with
  | ModeType.COUNT_MODE =>
    Axes.count_mode
      (visit.foldl (fun a i => display_count_merge_body a (shared i))
        { y_axis_min := (display_count_local st).1, y_axis_max := (display_count_local st).2.1 })
  | ModeType.FIT_TEST_MODE =>
    Axes.fit_test_mode
      (visit.foldl (fun a i => display_fit_test_merge_body a (shared i))
        { ambient_y_axis_min := (display_ambient_local st).1
          ambient_y_axis_max := (display_ambient_local st).2.1
          sample_y_axis_min := (display_sample_local st).1
          sample_y_axis_max := (display_sample_local st).2.1
          fit_factor_y_axis_min := (display_fit_factor_local st).1
          fit_factor_y_axis_max := (display_fit_factor_local st).2.1 })

/-- The peers a redraw cycle visits, in loop order. -/
def peers (inst : InstanceData) : List Nat :=
  (List.range inst.total_instances).filter (fun i => i ≠ inst.instance_index)

/-- One fold step of the merge of a quantity, on the pair `(min, max)`: elementwise
minimum and maximum with a published peer bound, nothing for a peer that fails a test. -/
def merge_step (q : Quantity) (r : ℚ × ℚ) (s : SharedMemoryBuffer) : ℚ × ℚ :=
  if s.published q = true then (min r.1 (s.quantity_min q), max r.2 (s.quantity_max q)) else r

/-- The publish step of `display` on the own record, for the branch of the current mode
(graph.cpp 401-408 and 513-535), with the local ranges `display` computes. -/
def display_publish (st : State) (own : SharedMemoryBuffer) : SharedMemoryBuffer :=
  match st.mode with
  | ModeType.COUNT_MODE =>
    display_count_publish own (display_count_local st).1 (display_count_local st).2.1
      (display_count_local st).2.2
  | ModeType.FIT_TEST_MODE =>
    display_fit_test_publish own
      { ambient_y_axis_min := (display_ambient_local st).1
        ambient_y_axis_max := (display_ambient_local st).2.1
        sample_y_axis_min := (display_sample_local st).1
        sample_y_axis_max := (display_sample_local st).2.1
        fit_factor_y_axis_min := (display_fit_factor_local st).1
        fit_factor_y_axis_max := (display_fit_factor_local st).2.1 }
      (display_ambient_local st).2.2 (display_sample_local st).2.2
      (display_fit_factor_local st).2.2

/-! ## Vocabulary for stating the properties of the series -/

/-- The series (`std::vector<double>`) of a quantity. -/
def State.series (st : State) : Quantity → List ℚ
  | Quantity.count => st.count_mode_data.count_array
  | Quantity.ambient => st.fit_test_mode_data.ambient_array
  | Quantity.sample => st.fit_test_mode_data.sample_array
  | Quantity.fit_factor => st.fit_test_mode_data.fit_factor_array

/-- The stored running minimum of the series of a quantity. -/
def State.series_min (st : State) : Quantity → ℚ
  | Quantity.count => st.count_mode_data.count_array_min
  | Quantity.ambient => st.fit_test_mode_data.ambient_array_min
  | Quantity.sample => st.fit_test_mode_data.sample_array_min
  | Quantity.fit_factor => st.fit_test_mode_data.fit_factor_array_min

/-- The stored running maximum of the series of a quantity. -/
def State.series_max (st : State) : Quantity → ℚ
  | Quantity.count => st.count_mode_data.count_array_max
  | Quantity.ambient => st.fit_test_mode_data.ambient_array_max
  | Quantity.sample => st.fit_test_mode_data.sample_array_max
  | Quantity.fit_factor => st.fit_test_mode_data.fit_factor_array_max

/-- The horizon of a mode: `count_mode_x_axis_max`, or `fit_test_mode_x_axis_max` shared by
the three FIT_TEST_MODE series. -/
def State.horizon (st : State) : ModeType → ℚ
  | ModeType.COUNT_MODE => st.count_mode_data.count_mode_x_axis_max
  | ModeType.FIT_TEST_MODE => st.fit_test_mode_data.fit_test_mode_x_axis_max

/-- The append block of `timer_func` for the series of a quantity, applied to the globals;
`val` is the value after `log10`. -/
def timer_func_append (st : State) (q : Quantity) (val : ℚ) : State :=
  match q with
  | Quantity.count =>
    { st with count_mode_data := timer_func_count_append st.count_mode_data val }
  | Quantity.ambient =>
    { st with fit_test_mode_data := timer_func_ambient_append st.fit_test_mode_data val }
  | Quantity.sample =>
    { st with fit_test_mode_data := timer_func_sample_append st.fit_test_mode_data val }
  | Quantity.fit_factor =>
    { st with fit_test_mode_data := timer_func_fit_factor_append st.fit_test_mode_data val }

/-- A sequence of appends, each to the series of some quantity, applied in order. -/
def run_appends (st : State) (appends : List (Quantity × ℚ)) : State :=
  appends.foldl (fun s a => timer_func_append s a.1 a.2) st

/-- The values a sequence of appends appends to the series of a quantity, in order. -/
def appended_values (q : Quantity) (appends : List (Quantity × ℚ)) : List ℚ :=
  (appends.filter (fun a => decide (a.1 = q))).map Prod.snd

/-- The invariant linking a series to its stored running minimum and maximum: the
sentinels while the series is empty, the least and the greatest element otherwise. -/
def SeriesInv (series : List ℚ) (series_min series_max : ℚ) : Prop :=
  (series = [] ∧ series_min = DBL_MAX ∧ series_max = -DBL_MAX)
  ∨ (series ≠ [] ∧ IsLeast {x | x ∈ series} series_min
      ∧ IsGreatest {x | x ∈ series} series_max)

/-- The invariant of the horizon of a mode: it is 18 * 2^k for some `k`, no series of the
mode is longer, and unless `k = 0` some series of the mode is longer than 18 * 2^(k-1). -/
def HorizonInv (st : State) (m : ModeType) : Prop :=
  ∃ k : ℕ, st.horizon m = ((18 * 2 ^ k : ℕ) : ℚ)
    ∧ (∀ q : Quantity, q.mode = m → (st.series q).length ≤ 18 * 2 ^ k)
    ∧ (k = 0 ∨ ∃ q : Quantity, q.mode = m ∧ 18 * 2 ^ (k - 1) < (st.series q).length)

/-! ## The life of one instance -/

/-- An event handled by an instance: a chunk read by `timer_func` (with the outcomes of its
`sscanf` calls), a key passed to `keyboard_func`, or a redraw cycle of `display` run
against the given contents of the peers' records. -/
inductive Event
  | line (scan : Scan)
  | key (key : Char)
  | redraw (shared : Nat → SharedMemoryBuffer)

/-- One event applied to the process-local globals and the own shared record of one
running copy of the program. -/
def step (log10 : ℚ → ℚ) (inst : InstanceData) (c : State × SharedMemoryBuffer) :
    Event → State × SharedMemoryBuffer
  | Event.line scan => (timer_func log10 c.1 scan, c.2)
  | Event.key key => (keyboard_func c.1 key, c.2)
  | Event.redraw shared =>
    (c.1,
     (display c.1 inst (Function.update shared inst.instance_index c.2)).1 inst.instance_index)

/-- The globals and the own record of an instance after a sequence of events from
initialisation. -/
def run (log10 : ℚ → ℚ) (inst : InstanceData) (events : List Event) :
    State × SharedMemoryBuffer :=
  events.foldl (step log10 inst) (State.initial, SharedMemoryBuffer.initial)

/-- Whether no redraw cycle among the events, run from the configuration `c`, published the
quantity: at every redraw event the instance was in another mode or the local range of the
quantity was default. -/
def never_published (log10 : ℚ → ℚ) (inst : InstanceData) (q : Quantity) :
    State × SharedMemoryBuffer → List Event → Bool
  | _, [] => true
  | c, Event.redraw shared :: rest =>
    (decide (c.1.mode ≠ q.mode) || (display_local c.1 q).2.2)
      && never_published log10 inst q (step log10 inst c (Event.redraw shared)) rest
  | c, e :: rest => never_published log10 inst q (step log10 inst c e) rest

/-! ## Line scanning: the library function `sscanf`

The directives the program's formats use, after ISO C 7.21.6.2: white space in the format
skips any white space of the input and never fails; an ordinary character must equal the
next input character; `%lf` skips white space and converts the longest decimal
floating-point text (optional sign, digits with an optional point, optional exponent);
`%*u` skips white space and an optionally signed run of digits without storing it. The
return value counts the stored conversions, and is EOF (-1) when the input ends before the
first conversion. The hexadecimal, INF and NAN forms of `%lf` are outside the model. -/

/-- The library predicate `isspace` in the C locale: space, and the controls 9 - 13. -/
def isspace (c : Char) : Bool := c = ' ' || (9 ≤ c.toNat && c.toNat ≤ 13)

/-- The library predicate `isdigit`. -/
def isdigit (c : Char) : Bool := 48 ≤ c.toNat && c.toNat ≤ 57

/-- A directive of a `scanf` format. -/
inductive Directive
  | space
  | lit (c : Char)
  | lf
  | star_u
  deriving DecidableEq

/-- The directives of a format string: `%lf`, `%*u`, white space, ordinary characters. -/
def parse_format : List Char → List Directive
  | [] => []
  | '%' :: 'l' :: 'f' :: rest => Directive.lf :: parse_format rest
  | '%' :: '*' :: 'u' :: rest => Directive.star_u :: parse_format rest
  | c :: rest => (if isspace c then Directive.space else Directive.lit c) :: parse_format rest

/-- A scanned decimal floating-point text: sign, the digits of the mantissa read as one
integer, and the power of ten that scales it. -/
structure Decimal where
  negative : Bool
  mantissa : Nat
  exponent : Int
  deriving DecidableEq

/-- The double a scanned decimal text converts to (exactly, as a rational). -/
def Decimal.value (d : Decimal) : ℚ :=
  (if d.negative then -1 else 1) * (d.mantissa : ℚ) * (10 : ℚ) ^ d.exponent

/-- The number a run of decimal digits denotes. -/
def digits_value (ds : List Char) : Nat := ds.foldl (fun n c => 10 * n + (c.toNat - 48)) 0

/-- An optional sign: whether it is a minus, and the input after it. -/
def scan_sign : List Char → Bool × List Char
  | '-' :: t => (true, t)
  | '+' :: t => (false, t)
  | s => (false, s)

/-- The input item of `%lf` at the head of the input (white space already skipped): the
scanned decimal and the unread input, or `none` on a matching failure (no digit in the
mantissa, or an exponent letter not followed by digits). Only the decimal forms are
modelled: the hexadecimal forms, `INF` and `NAN` are not, and a C library may accept an
exponent letter without digits where this gives a matching failure. -/
def scan_decimal (input : List Char) : Option (Decimal × List Char) :=
  let (negative, s1) := scan_sign input
  let (int_part, s2) := s1.span isdigit
  let (frac_part, s3) :=
    match s2 with
    | '.' :: t => t.span isdigit
    | _ => ([], s2)
  if int_part = [] ∧ frac_part = [] then none
  else
    let mantissa := digits_value (int_part ++ frac_part)
    match s3 with
    | e :: t =>
      if e = 'e' ∨ e = 'E' then
        let (exp_negative, s4) := scan_sign t
        let (exp_digits, s5) := s4.span isdigit
        if exp_digits = [] then none
        else
          let ex : Int :=
            if exp_negative then -(digits_value exp_digits : Int) else digits_value exp_digits
          some ({ negative := negative, mantissa := mantissa,
                  exponent := ex - frac_part.length }, s5)
      else
        some ({ negative := negative, mantissa := mantissa,
                exponent := -(frac_part.length : Int) }, s3)
    | [] =>
      some ({ negative := negative, mantissa := mantissa,
              exponent := -(frac_part.length : Int) }, [])

/-- The input item of `%*u` at the head of the input (white space already skipped): the
unread input after an optionally signed run of digits, or `none` on a matching failure. -/
def scan_unsigned (input : List Char) : Option (List Char) :=
  let (_, s1) := scan_sign input
  let (ds, s2) := s1.span isdigit
  if ds = [] then none else some s2

/-- The result of a `sscanf` call with one `%lf` argument: the return value and the value
stored through the argument, if any. -/
structure ScanfResult where
  ret : Int
  val : Option Decimal
  deriving DecidableEq

/-- The execution of the directives of a format on the input; `converted` tells whether a
conversion has completed, `r` is the result so far. -/
def sscanf_directives : List Directive → List Char → Bool → ScanfResult → ScanfResult
  | [], _, _, r => r
  | Directive.space :: ds, input, converted, r =>
    sscanf_directives ds (input.dropWhile isspace) converted r
  | Directive.lit c :: ds, input, converted, r =>
    match input with
    | [] => if converted then r else { r with ret := -1 }
    | x :: rest => if x = c then sscanf_directives ds rest converted r else r
  | Directive.lf :: ds, input, converted, r =>
    match input.dropWhile isspace with
    | [] => if converted then r else { r with ret := -1 }
    | x :: rest =>
      match scan_decimal (x :: rest) with
      | some (d, unread) => sscanf_directives ds unread true { ret := r.ret + 1, val := some d }
      | none => r
  | Directive.star_u :: ds, input, converted, r =>
    match input.dropWhile isspace with
    | [] => if converted then r else { r with ret := -1 }
    | x :: rest =>
      match scan_unsigned (x :: rest) with
      | some unread => sscanf_directives ds unread true r
      | none => r

/-- The library function `sscanf(buf, format, &val)` on a C string. -/
def sscanf (buf : List Char) (format : String) : ScanfResult :=
  sscanf_directives (parse_format format.toList) buf false { ret := 0, val := none }

/-- The test `sscanf(...) == 1` of `timer_func` together with the value stored in `val`. -/
def ScanfResult.matched (r : ScanfResult) : Option ℚ :=
  if r.ret = 1 then r.val.map Decimal.value else none

/-- The C string in a buffer: the bytes before the first NUL. -/
def c_str (buf : List Char) : List Char := buf.takeWhile (fun c => c ≠ Char.ofNat 0)

/-- The outcomes of the five `sscanf` calls of `timer_func` (graph.cpp 701, 726, 743, 760)
on the buffer. -/
def timer_func_scan (buf : List Char) : Scan :=
  { conc := (sscanf (c_str buf) "Conc. %lf #/cc").matched
    mask := (sscanf (c_str buf) "Mask %lf #/cc").matched
    ambient := (sscanf (c_str buf) "Ambient %lf #/cc").matched
    ff_pass := (sscanf (c_str buf) "FF %*u %lf PASS").matched
    ff_fail := (sscanf (c_str buf) "FF %*u %lf FAIL").matched }

/-! ## The capture sink and the whole of `timer_func` -/

/-- How a run of code that can call `exit(1)` or loop ends: normally with a result, by
`exit(1)` through one of the `checkError` helpers, or not within the given number of loop
iterations. -/
inductive Outcome (α : Type)
  | done (a : α)
  | exit_failure
  | out_of_fuel

/-- The loop of `writeFully` (graph.cpp 77-83). The system call `write` is the parameter
`write`: the number of the call and the number of bytes offered give its return value; a
call that returns `ret >= 0` has appended the first `ret` bytes offered to the sink.
`remaining` is a `size_t`, so the subtraction is modulo 2^64. -/
def writeFully_loop (write : Nat → Nat → Int) :
    Nat → Nat → List Char → Int → Nat → List Char → Outcome (List Char)
  | 0, _, _, _, _, _ => Outcome.out_of_fuel
  | fuel + 1, call, buffer, offset, remaining, sink =>
    let ret := write call remaining
    if ret = -1 then Outcome.exit_failure
    else
      let sink := sink ++ (buffer.drop offset.toNat).take ret.toNat
      let remaining := (((remaining : Int) - ret) % 2 ^ 64).toNat
      let offset := offset + ret
      if remaining > 0 then writeFully_loop write fuel (call + 1) buffer offset remaining sink
      else Outcome.done sink

/-- The function `writeFully` (graph.cpp 70-84) on the bytes of the sink: `buf` holds the
bytes, `count` is the number to write, `fuel` bounds the number of `write` calls. -/
def writeFully (write : Nat → Nat → Int) (fuel : Nat) (sink : List Char) (buf : List Char)
    (count : Nat) : Outcome (List Char) :=
  writeFully_loop write fuel 0 buf 0 count sink

/-- What `select` and `read` deliver to `timer_func` (graph.cpp 686-693): the descriptor is
not ready, `read` fails with -1, or `read` returns the bytes of a chunk (possibly none). -/
inductive ReadResult
  | not_ready
  | failed
  | bytes (chunk : List Char)

/-- The effects of one call of `timer_func`: the globals, the bytes of the capture sink and
whether `glutPostRedisplay` was called. -/
structure TimerEffects where
  st : State
  outfile : List Char
  redisplay : Bool

/-- The whole of `timer_func` (graph.cpp 676-784) on the globals and the capture sink, given
what `select` and `read` deliver: for a chunk of `ret > 0` bytes, mirror it with
`writeFully`, update the series from the `sscanf` outcomes, and call `glutPostRedisplay`. -/
def timer_func_chunk (log10 : ℚ → ℚ) (write : Nat → Nat → Int) (fuel : Nat) (st : State)
    (outfile : List Char) : ReadResult → Outcome TimerEffects
  | ReadResult.not_ready => Outcome.done { st := st, outfile := outfile, redisplay := false }
  | ReadResult.failed => Outcome.exit_failure
  | ReadResult.bytes chunk =>
    if chunk.length > 0 then
      match writeFully write fuel outfile chunk chunk.length with
      | Outcome.done outfile =>
        Outcome.done
          { st := timer_func log10 st (timer_func_scan chunk)
            outfile := outfile
            redisplay := true }
      | Outcome.exit_failure => Outcome.exit_failure
      | Outcome.out_of_fuel => Outcome.out_of_fuel
    else Outcome.done { st := st, outfile := outfile, redisplay := false }

/-- The test `timer_func` itself applies to a buffer: every `sscanf` call of the mode's
branch returns a value other than 1. It is the code's test, which does not see the literal
after the float; the patterns in the words of the specification are `spec_unmatched`. -/
def unmatched (mode : ModeType) (buf : List Char) : Bool :=
  match mode with
  | ModeType.COUNT_MODE => decide ((sscanf (c_str buf) "Conc. %lf #/cc").ret ≠ 1)
  | ModeType.FIT_TEST_MODE =>
    decide ((sscanf (c_str buf) "Mask %lf #/cc").ret ≠ 1)
      && decide ((sscanf (c_str buf) "Ambient %lf #/cc").ret ≠ 1)
      && decide ((sscanf (c_str buf) "FF %*u %lf PASS").ret ≠ 1)
      && decide ((sscanf (c_str buf) "FF %*u %lf FAIL").ret ≠ 1)

/-- The test of a line against a pattern in the words of the specification, whose table
writes the patterns in full (`Conc. <float> #/cc`, `FF <int> <float> PASS`): every
directive of the format, the literal after the float included, must match the line in
order. This follows the specification, not the code, and is what the code's own test
(`unmatched`) is compared with. -/
def spec_matches_directives : List Directive → List Char → Bool
  | [], _ => true
  | Directive.space :: ds, input => spec_matches_directives ds (input.dropWhile isspace)
  | Directive.lit c :: ds, input =>
    match input with
    | [] => false
    | x :: rest => if x = c then spec_matches_directives ds rest else false
  | Directive.lf :: ds, input =>
    match scan_decimal (input.dropWhile isspace) with
    | some (_, unread) => spec_matches_directives ds unread
    | none => false
  | Directive.star_u :: ds, input =>
    match scan_unsigned (input.dropWhile isspace) with
    | some unread => spec_matches_directives ds unread
    | none => false

/-- Whether a line matches none of the patterns of a mode, the patterns read in full as
the specification writes them. -/
def spec_unmatched (mode : ModeType) (buf : List Char) : Bool :=
  match mode with
  | ModeType.COUNT_MODE =>
    !spec_matches_directives (parse_format "Conc. %lf #/cc".toList) (c_str buf)
  | ModeType.FIT_TEST_MODE =>
    !spec_matches_directives (parse_format "Mask %lf #/cc".toList) (c_str buf)
      && !spec_matches_directives (parse_format "Ambient %lf #/cc".toList) (c_str buf)
      && !spec_matches_directives (parse_format "FF %*u %lf PASS".toList) (c_str buf)
      && !spec_matches_directives (parse_format "FF %*u %lf FAIL".toList) (c_str buf)

/-! ## The calls and stores on the shared state, in program order -/

/-- One call or access of the program on the semaphores and the shared records: the index
is that of the semaphore or record. `store` is a plain store into a field of a record,
`load` the plain loads of one visit of a record, `exchange_*` and `load_*` the atomic
accesses of the `initialized` and `quit` flags. `create_*` is the attempt of
`open_shared_memory_object` (graph.cpp 824-836) to create the named segment with
`shm_open(name, O_RDWR | O_CREAT | O_EXCL, 0)`, followed, when the segment did not exist, by
`ftruncate` and `fchmod` through that descriptor, which is then closed; `open_*` is the
`shm_open` with the requested mode that follows it (graph.cpp 837-849). -/
inductive Action
  | create_semaphore (i : Nat)
  | create_data (i : Nat)
  | open_semaphore (i : Nat)
  | open_data (i : Nat) (writable : Bool)
  | mmap_semaphore (i : Nat)
  | mmap_data (i : Nat) (writable : Bool)
  | sem_init (i : Nat)
  | sem_wait (i : Nat)
  | sem_post (i : Nat)
  | sem_destroy (i : Nat)
  | store (i : Nat)
  | load (i : Nat)
  | exchange_initialized (i : Nat)
  | exchange_quit (i : Nat)
  | load_initialized (i : Nat)
  | load_quit (i : Nat)
  | usleep
  | munmap_semaphore (i : Nat)
  | munmap_data (i : Nat)
  | shm_unlink_semaphore (i : Nat)
  | shm_unlink_data (i : Nat)
  deriving DecidableEq

/-- The stores of the publish step of `display` into the own record, in program order
(graph.cpp 401-408 and 513-535). -/
def display_publish_actions (st : State) (inst : InstanceData) : List Action :=
  match st.mode with
  | ModeType.COUNT_MODE =>
    if (display_count_local st).2.2 = false then
      List.replicate 5 (Action.store inst.instance_index)
    else []
  | ModeType.FIT_TEST_MODE =>
    (if (display_ambient_local st).2.2 = false then
      List.replicate 3 (Action.store inst.instance_index) else [])
    ++ (if (display_sample_local st).2.2 = false then
      List.replicate 3 (Action.store inst.instance_index) else [])
    ++ (if (display_fit_factor_local st).2.2 = false then
      List.replicate 3 (Action.store inst.instance_index) else [])
    ++ (if (display_ambient_local st).2.2 = false ∨ (display_sample_local st).2.2 = false
          ∨ (display_fit_factor_local st).2.2 = false then
      List.replicate 2 (Action.store inst.instance_index) else [])

/-- The calls and accesses of one redraw cycle of `display` on the shared state, in program
order (graph.cpp 399-436 and 511-585), every `sem_wait` and `sem_post` succeeding: lock the
own semaphore, publish, unlock; then for `i = 0, ..., total_instances - 1` except the own
index: lock semaphore `i`, read record `i`, unlock. -/
def display_actions (st : State) (inst : InstanceData) : List Action :=
  [Action.sem_wait inst.instance_index] ++ display_publish_actions st inst
    ++ [Action.sem_post inst.instance_index]
    ++ (List.range inst.total_instances).flatMap
        (fun i =>
          if i = inst.instance_index then []
          else [Action.sem_wait i, Action.load i, Action.sem_post i])

/-- The calls and accesses of `init_shared_memory` (graph.cpp 875-921), every call
succeeding: for every index, peers included, attempt to create and then open the segment
of the semaphore and that of the record (the record opened writable for the own index
only), and map both (the record writable for the own index only); initialise the own
semaphore, zero the own record and set its
`initialized` flag, then poll the `initialized` flag of every peer; `polls i` is the number
of times peer `i` is found not yet initialised. -/
def init_shared_memory_actions (inst : InstanceData) (polls : Nat → Nat) : List Action :=
  (List.range inst.total_instances).flatMap
      (fun i =>
        [Action.create_semaphore i, Action.open_semaphore i,
         Action.create_data i, Action.open_data i (decide (inst.instance_index = i)),
         Action.mmap_semaphore i, Action.mmap_data i (decide (inst.instance_index = i))])
    ++ [Action.sem_init inst.instance_index, Action.store inst.instance_index,
        Action.exchange_initialized inst.instance_index]
    ++ (List.range inst.total_instances).flatMap
        (fun i =>
          if inst.instance_index = i then []
          else
            (List.replicate (polls i) [Action.load_initialized i, Action.usleep]).flatten
              ++ [Action.load_initialized i])

/-- The calls and accesses of `remove_shared_memory` (graph.cpp 930-979), every call
succeeding or failing with "not found": clear the valid flags of the own record and set its
`quit` flag, poll the `quit` flag of every peer (`polls i` is the number of times peer `i`
is found not yet quit), destroy the own semaphore, then unmap and unlink the semaphore and
the record of every index. -/
def remove_shared_memory_actions (inst : InstanceData) (polls : Nat → Nat) : List Action :=
  List.replicate 5 (Action.store inst.instance_index)
    ++ [Action.exchange_quit inst.instance_index]
    ++ (List.range inst.total_instances).flatMap
        (fun i =>
          if inst.instance_index = i then []
          else
            (List.replicate (polls i) [Action.load_quit i, Action.usleep]).flatten
              ++ [Action.load_quit i])
    ++ [Action.sem_destroy inst.instance_index]
    ++ (List.range inst.total_instances).flatMap
        (fun i =>
          [Action.munmap_semaphore i, Action.munmap_data i, Action.shm_unlink_semaphore i,
           Action.shm_unlink_data i])

/-- Whether the action mutates a field of record `i`. -/
def Action.mutates (i : Nat) : Action → Bool
  | Action.store j => decide (j = i)
  | Action.exchange_initialized j => decide (j = i)
  | Action.exchange_quit j => decide (j = i)
  | _ => false

/-- The semaphores this process holds after an action, given those held before it. -/
def held_step (held : List Nat) : Action → List Nat
  | Action.sem_wait i => i :: held
  | Action.sem_post i => held.erase i
  | _ => held

/-- The semaphores this process holds after a sequence of actions. -/
def held_after (held : List Nat) (actions : List Action) : List Nat :=
  actions.foldl held_step held

/-- Whether every mutation of record `i` in the sequence happens while this process holds
semaphore `i`, that is, between a `sem_wait` and the matching `sem_post` on it. -/
def stores_guarded (i : Nat) : List Nat → List Action → Bool
  | _, [] => true
  | held, a :: rest =>
    (!a.mutates i || decide (i ∈ held)) && stores_guarded i (held_step held a) rest

/-- Whether at every point of the sequence this process holds at most one semaphore. -/
def at_most_one_held : List Nat → List Action → Bool
  | held, [] => decide (held.length ≤ 1)
  | held, a :: rest => decide (held.length ≤ 1) && at_most_one_held (held_step held a) rest

/-- The semaphore operations of a sequence of actions. -/
def sem_ops (actions : List Action) : List Action :=
  actions.filter
    (fun a =>
      match a with
      | Action.sem_wait _ => true
      | Action.sem_post _ => true
      | _ => false)

/-- An operation of an instance: a chunk handled by `timer_func`, a key handled by
`keyboard_func`, or a redraw cycle of `display`. -/
inductive Operation
  | line (chunk : List Char)
  | key (key : Char)
  | redraw

/-- An operation of an instance applied to what the instance can reach: its globals and the
array of the shared records. `timer_func` and `keyboard_func` do not access the array. -/
def operate (log10 : ℚ → ℚ) (inst : InstanceData) (c : State × (Nat → SharedMemoryBuffer)) :
    Operation → State × (Nat → SharedMemoryBuffer)
  | Operation.line chunk => (timer_func log10 c.1 (timer_func_scan chunk), c.2)
  | Operation.key key => (keyboard_func c.1 key, c.2)
  | Operation.redraw => (c.1, (display c.1 inst c.2).1)

/-! ## Start-up: the validation of the identity in `main` -/

/-- The conversion `static_cast<unsigned int>` of a `long int`: the value modulo 2^32. -/
def static_cast_unsigned_int (x : Int) : Nat := (x % 2 ^ 32).toNat

/-- The validation of the identity in `main` (graph.cpp 1022-1029) on the values that
`strtol` returns for `argv[9]` and `argv[10]`: each `assertWithMsg` whose condition is
false prints its message and calls `exit(1)` (graph.cpp 59-68); the result is the message
of the failed assertion, or the record `instance`. -/
def main_identity (total_instances_long instance_index_long : Int) :
    Except String InstanceData :=
  if ¬ (total_instances_long > 0 ∧ total_instances_long ≤ 10000) then
    Except.error "total_instances out of range"
  else
    let total_instances := static_cast_unsigned_int total_instances_long
    if ¬ (instance_index_long ≥ 0 ∧ instance_index_long ≤ 10000) then
      Except.error "instance_index out of range"
    else
      let instance_index := static_cast_unsigned_int instance_index_long
      if ¬ (instance_index < total_instances) then
        Except.error "instance_index must be less than total_instances"
      else
        Except.ok { total_instances := total_instances, instance_index := instance_index }

/-- The calls on the shared segments that `main` makes at start-up: none before the
validation of the identity, and those of `init_shared_memory` (graph.cpp 1089) once the
validation and the set-up of the serial line (graph.cpp 1031-1086) have succeeded. -/
def main_startup_actions (total_instances_long instance_index_long : Int)
    (polls : Nat → Nat) : List Action :=
  match main_identity total_instances_long instance_index_long with
  | Except.ok inst => init_shared_memory_actions inst polls
  | Except.error _ => []

/-! ## Teardown: `remove_shared_memory` with the values it observes -/

/-- How a call of `shm_unlink` ends: with 0, with an error and `errno == ENOENT`
("not found"), or with an error and another `errno`. -/
inductive UnlinkResult
  | ok
  | not_found
  | failed
  deriving DecidableEq

/-- Whether an action destroys a semaphore, unmaps a region or unlinks a named segment. -/
def Action.releases : Action → Bool
  | Action.sem_destroy _ => true
  | Action.munmap_semaphore _ => true
  | Action.munmap_data _ => true
  | Action.shm_unlink_semaphore _ => true
  | Action.shm_unlink_data _ => true
  | _ => false

/-- The polling loop of `remove_shared_memory` on the `quit` flag of peer `i`
(graph.cpp 944-952), from the load number `k` of that flag on: `quit_seen k` is the value
the load number `k` returns, and `usleep` succeeds. The result is the accesses made and
whether the loop was left within `fuel` iterations. -/
def poll_quit (i : Nat) (quit_seen : Nat → Bool) : Nat → Nat → List Action × Bool
  | 0, _ => ([], false)
  | fuel + 1, k =>
    if quit_seen k = true then ([Action.load_quit i], true)
    else
      (Action.load_quit i :: Action.usleep :: (poll_quit i quit_seen fuel (k + 1)).1,
       (poll_quit i quit_seen fuel (k + 1)).2)

/-- The loop of `remove_shared_memory` over the indices that waits for every peer
(graph.cpp 938-953): the own index is skipped, and the loop does not go on to the next
index before the polling loop of the current one was left. -/
def quit_barrier (inst : InstanceData) (quit_seen : Nat → Nat → Bool) (fuel : Nat) :
    List Nat → List Action × Bool
  | [] => ([], true)
  | i :: rest =>
    if inst.instance_index = i then quit_barrier inst quit_seen fuel rest
    else if (poll_quit i (quit_seen i) fuel 0).2 = true then
      ((poll_quit i (quit_seen i) fuel 0).1 ++ (quit_barrier inst quit_seen fuel rest).1,
       (quit_barrier inst quit_seen fuel rest).2)
    else ((poll_quit i (quit_seen i) fuel 0).1, false)

/-- The loop of `remove_shared_memory` that unmaps and unlinks the semaphore and the record
of every index (graph.cpp 957-979), `munmap` succeeding: a `shm_unlink` that ends with an
error other than "not found" reaches `checkError` and `exit(1)`. The result is the calls
made and whether the loop ran to its end. -/
def unmap_and_unlink (unlink_semaphore unlink_data : Nat → UnlinkResult) :
    List Nat → List Action × Bool
  | [] => ([], true)
  | i :: rest =>
    if unlink_semaphore i = UnlinkResult.failed then
      ([Action.munmap_semaphore i, Action.munmap_data i, Action.shm_unlink_semaphore i], false)
    else if unlink_data i = UnlinkResult.failed then
      ([Action.munmap_semaphore i, Action.munmap_data i, Action.shm_unlink_semaphore i,
        Action.shm_unlink_data i], false)
    else
      ([Action.munmap_semaphore i, Action.munmap_data i, Action.shm_unlink_semaphore i,
        Action.shm_unlink_data i] ++ (unmap_and_unlink unlink_semaphore unlink_data rest).1,
       (unmap_and_unlink unlink_semaphore unlink_data rest).2)

/-- What a run of `remove_shared_memory` leaves: the calls and accesses made, in program
order, the own record, and how the run ended. -/
structure Teardown where
  actions : List Action
  own : SharedMemoryBuffer
  ending : Outcome Unit

/-- The function `remove_shared_memory` (graph.cpp 930-979), `sem_destroy`, `munmap` and
`usleep` succeeding. `own` is the own record at entry, `quit_seen i k` the value that the
load number `k` of the `quit` flag of peer `i` returns, `unlink_semaphore i` and
`unlink_data i` how the two `shm_unlink` calls for index `i` end. The five stores clear the
valid flags of the own record, and `atomic_test_and_set` (graph.cpp 855-858) sets its `quit`
flag and exits when the flag was set before. -/
def remove_shared_memory (inst : InstanceData) (own : SharedMemoryBuffer)
    (quit_seen : Nat → Nat → Bool) (unlink_semaphore unlink_data : Nat → UnlinkResult)
    (fuel : Nat) : Teardown :=
  let cleared : SharedMemoryBuffer :=
    { own with
      valid := false
      count_mode := { own.count_mode with y_axis_valid := false }
      fit_test_mode :=
        { own.fit_test_mode with
          ambient_y_axis_valid := false
          sample_y_axis_valid := false
          fit_factor_y_axis_valid := false }
      quit := true }
  let first : List Action :=
    List.replicate 5 (Action.store inst.instance_index)
      ++ [Action.exchange_quit inst.instance_index]
  if own.quit = true then { actions := first, own := cleared, ending := Outcome.exit_failure }
  else if (quit_barrier inst quit_seen fuel (List.range inst.total_instances)).2 = true then
    { actions :=
        first ++ (quit_barrier inst quit_seen fuel (List.range inst.total_instances)).1
          ++ [Action.sem_destroy inst.instance_index]
          ++ (unmap_and_unlink unlink_semaphore unlink_data
                (List.range inst.total_instances)).1
      own := cleared
      ending :=
        if (unmap_and_unlink unlink_semaphore unlink_data
              (List.range inst.total_instances)).2 = true
        then Outcome.done () else Outcome.exit_failure }
  else
    { actions :=
        first ++ (quit_barrier inst quit_seen fuel (List.range inst.total_instances)).1
      own := cleared
      ending := Outcome.out_of_fuel }

/-! ## The tick count of an axis -/

/-- The library function `rint` of `<math.h>` on a (finite) double, in the default rounding
mode: the nearest integer, a tie going to the even one. -/
def rint (x : ℚ) : ℚ :=
  (((if x - (Int.floor x : ℚ) < 1 / 2 then Int.floor x
      else if 1 / 2 < x - (Int.floor x : ℚ) then Int.floor x + 1
      else if Int.floor x % 2 = 0 then Int.floor x
      else Int.floor x + 1) : ℤ) : ℚ)

/-! ## Doubles with rounding, infinities and NaN -/

/-- A C++ `double` with the values the exact rationals leave out: a finite value, an
infinity or a NaN. The sign of a zero is not modelled. -/
inductive Double
  | finite (x : ℚ)
  | pos_inf
  | neg_inf
  | nan
  deriving DecidableEq

/-- The spacing of the doubles around a value: 2^(e - 52), where `e` is the binary exponent
of the value and is not below -1022, the exponent of the subnormals. -/
def ulp (x : ℚ) : ℚ := (2 : ℚ) ^ (max (Int.log 2 |x|) (-1022) - 52)

/-- The double an exact result is rounded to: the nearest multiple of the spacing, a tie
going to the even one, and an infinity when that exceeds the largest finite double. -/
def Double.round (x : ℚ) : Double :=
  if DBL_MAX < rint (x / ulp x) * ulp x then Double.pos_inf
  else if rint (x / ulp x) * ulp x < -DBL_MAX then Double.neg_inf
  else Double.finite (rint (x / ulp x) * ulp x)

/-- The comparison `a < b` of two doubles: false when either is a NaN. -/
def Double.lt : Double → Double → Bool
  | Double.nan, _ => false
  | _, Double.nan => false
  | Double.finite a, Double.finite b => decide (a < b)
  | Double.finite _, Double.pos_inf => true
  | Double.finite _, Double.neg_inf => false
  | Double.pos_inf, _ => false
  | Double.neg_inf, Double.neg_inf => false
  | Double.neg_inf, _ => true

/-- The sum `a + b` of two doubles. -/
def Double.add : Double → Double → Double
  | Double.nan, _ => Double.nan
  | _, Double.nan => Double.nan
  | Double.finite a, Double.finite b => Double.round (a + b)
  | Double.pos_inf, Double.neg_inf => Double.nan
  | Double.neg_inf, Double.pos_inf => Double.nan
  | Double.pos_inf, _ => Double.pos_inf
  | _, Double.pos_inf => Double.pos_inf
  | Double.neg_inf, _ => Double.neg_inf
  | _, Double.neg_inf => Double.neg_inf

/-- The difference `a - b` of two doubles. -/
def Double.sub : Double → Double → Double
  | Double.nan, _ => Double.nan
  | _, Double.nan => Double.nan
  | Double.finite a, Double.finite b => Double.round (a - b)
  | Double.pos_inf, Double.pos_inf => Double.nan
  | Double.neg_inf, Double.neg_inf => Double.nan
  | Double.pos_inf, _ => Double.pos_inf
  | _, Double.neg_inf => Double.pos_inf
  | Double.neg_inf, _ => Double.neg_inf
  | _, Double.pos_inf => Double.neg_inf

/-- The library function `floor` on a double: exact on a finite value, the argument itself
on an infinity or a NaN. -/
def Double.floor : Double → Double
  | Double.finite x => Double.finite (Portacount.floor x)
  | d => d

/-- The library function `ceil` on a double. -/
def Double.ceil : Double → Double
  | Double.finite x => Double.finite (Portacount.ceil x)
  | d => d

/-- The library function `rint` on a double. -/
def Double.rint : Double → Double
  | Double.finite x => Double.finite (Portacount.rint x)
  | d => d

/-- The library function `log10` on a double: minus infinity at zero, a NaN at a negative
argument, `log10` (a parameter, as in `timer_func`) at a positive one. -/
def Double.log10 (log10 : ℚ → ℚ) : Double → Double
  | Double.finite x =>
    if x = 0 then Double.neg_inf else if x < 0 then Double.nan else Double.finite (log10 x)
  | Double.pos_inf => Double.pos_inf
  | Double.neg_inf => Double.nan
  | Double.nan => Double.nan

/-- The function `compute_y_axis` (graph.cpp 337-353) in double arithmetic: the comparisons,
the subtraction and the addition of 1.0 are those of doubles. -/
def compute_y_axis_double (min max default_min default_max : Double) :
    Double × Double × Bool :=
  let y_axis_min := Double.floor min
  let y_axis_max := Double.ceil max
  let default_used := false
  let (y_axis_min, y_axis_max, default_used) :=
    if Double.lt y_axis_max y_axis_min = true then (default_min, default_max, true)
    else (y_axis_min, y_axis_max, default_used)
  let y_axis_max :=
    if Double.lt (Double.sub y_axis_max y_axis_min) (Double.finite 1) = true then
      Double.add y_axis_min (Double.finite 1)
    else y_axis_max
  (y_axis_min, y_axis_max, default_used)

/-- The three fields of `fit_test_mode_data` that the sample append block reads and writes
besides the horizon (graph.cpp 132-142), as doubles. -/
structure SampleSeries where
  sample_array : List Double
  sample_array_max : Double
  sample_array_min : Double

/-- The initial values of those fields (graph.cpp 143-154): an empty series and the
sentinels. -/
def SampleSeries.initial : SampleSeries :=
  { sample_array := []
    sample_array_max := Double.finite (-DBL_MAX)
    sample_array_min := Double.finite DBL_MAX }

/-- The `Mask` branch of `timer_func` (graph.cpp 726-741) in double arithmetic, on the
sample series and its running min and max: `val = log10(val)`, `push_back(val)`, then the
two comparisons `val < sample_array_min` and `val > sample_array_max`. The horizon, which
only counts the elements, is as in `timer_func_sample_append`. -/
def timer_func_mask_double (log10 : ℚ → ℚ) (d : SampleSeries) (scan : Scan) : SampleSeries :=
  match scan.mask with
  | some v =>
    { sample_array := d.sample_array ++ [Double.log10 log10 (Double.finite v)]
      sample_array_min :=
        if Double.lt (Double.log10 log10 (Double.finite v)) d.sample_array_min = true then
          Double.log10 log10 (Double.finite v)
        else d.sample_array_min
      sample_array_max :=
        if Double.lt d.sample_array_max (Double.log10 log10 (Double.finite v)) = true then
          Double.log10 log10 (Double.finite v)
        else d.sample_array_max }
  | none => d

/-- The local sample axis range of the FIT_TEST_MODE branch of `display` (graph.cpp 504) in
double arithmetic. -/
def display_sample_local_double (d : SampleSeries) : Double × Double × Bool :=
  compute_y_axis_double d.sample_array_min d.sample_array_max (Double.finite (-1))
    (Double.finite 3)

/-- The conversion `static_cast<unsigned int>` of a double. C++ defines it only for a
truncated value within 0 .. 2^32 - 1. Elsewhere this is the value of the x86-64 build: the
conversion goes through the 64-bit signed truncation, of which the low 32 bits are kept,
and that truncation gives 0x8000000000000000, whose low 32 bits are 0, for a value outside
the 64-bit range, an infinity or a NaN. -/
def double_to_unsigned_int : Double → Nat
  | Double.finite x =>
    if -(2 : ℤ) ^ 63 ≤ (if 0 ≤ x then Int.floor x else Int.ceil x)
        ∧ (if 0 ≤ x then Int.floor x else Int.ceil x) < 2 ^ 63 then
      ((if 0 ≤ x then Int.floor x else Int.ceil x) % 2 ^ 32).toNat
    else 0
  | _ => 0

/-- The tick count `sample_y_axis_range` that `display` computes from the sample bounds
(graph.cpp 590), and likewise `y_axis_range`, `ambient_y_axis_range` and
`fit_factor_y_axis_range` from theirs (graph.cpp 438, 587, 593): the span, rounded by
`rint`, converted to `unsigned int`. The increment is then `2.8 / sample_y_axis_range`
(graph.cpp 591). -/
def sample_y_axis_range (sample_y_axis_min sample_y_axis_max : Double) : Nat :=
  double_to_unsigned_int (Double.rint (Double.sub sample_y_axis_max sample_y_axis_min))

/-! ## Concrete scenarios -/

/-- The bytes of the line `garbage unrelated text`. -/
def garbage_line : List Char := "garbage unrelated text".toList

/-- A `write` that accepts at most five bytes per call. -/
def write_five (_call : Nat) (offered : Nat) : Int := ((min offered 5 : Nat) : Int)

/-- The own record of an instance after a COUNT_MODE publish step with the non-default
bounds (2, 6), starting from the initial record. -/
def record_count_2_6 : SharedMemoryBuffer :=
  display_count_publish SharedMemoryBuffer.initial 2 6 false

/-- Shared records of two instances: instance 0 has published the COUNT_MODE bounds (2, 6),
every other record is in its initial state. -/
def shared_count_2_6 : Nat → SharedMemoryBuffer :=
  fun i => if i = 0 then record_count_2_6 else SharedMemoryBuffer.initial

/-- Instance 0 of two instances. -/
def instance_0_of_2 : InstanceData := { total_instances := 2, instance_index := 0 }

/-- Instance 1 of two instances. -/
def instance_1_of_2 : InstanceData := { total_instances := 2, instance_index := 1 }

/-- A stand-in for `log10` that is exact on the arguments the scenarios use:
10^6 ↦ 6, 1000 ↦ 3, 0.001 ↦ -3, 1 ↦ 0; every other argument is sent to 0. -/
def log10_sample (x : ℚ) : ℚ :=
  if x = 1000000 then 6 else if x = 1000 then 3 else if x = 1 / 1000 then -3 else 0

/-- The `sscanf` outcomes for the line `Conc. 1000000 #/cc`. -/
def scan_conc_1000000 : Scan :=
  { conc := some 1000000, mask := none, ambient := none, ff_pass := none, ff_fail := none }

/-- A peer that appends one count value, redraws (publishing the bounds (6, 7)), is reset
with key x and redraws again with an empty series. -/
def stale_peer_events : List Event :=
  [Event.line scan_conc_1000000, Event.redraw (fun _ => SharedMemoryBuffer.initial),
   Event.key 'x', Event.redraw (fun _ => SharedMemoryBuffer.initial)]

/-- A peer that appends one count value and is reset with key x before its first redraw
cycle. -/
def quiet_peer_events : List Event :=
  [Event.line scan_conc_1000000, Event.key 'x',
   Event.redraw (fun _ => SharedMemoryBuffer.initial)]

/-- The globals after key f at process start: FIT_TEST_MODE with empty series. -/
def fit_test_state : State := keyboard_func State.initial 'f'

/-- Peers whose `quit` flag is found set from the third load on. -/
def quit_after_two (_i : Nat) (k : Nat) : Bool := decide (2 ≤ k)

/-- Calls of `shm_unlink` that all fail with "not found". -/
def unlink_not_found (_i : Nat) : UnlinkResult := UnlinkResult.not_found

/-- Two failed polls of every peer. -/
def polls_two (_i : Nat) : Nat := 2

/-! ## Theorems -/

theorem compute_y_axis_of_lt (min max default_min default_max : ℚ)
    (h : ceil max < floor min) :
    compute_y_axis min max default_min default_max
      = (default_min,
         if default_max - default_min < 1 then default_min + 1 else default_max, true) := by
  simp [compute_y_axis, h]

theorem compute_y_axis_of_not_lt (min max default_min default_max : ℚ)
    (h : ¬ ceil max < floor min) :
    compute_y_axis min max default_min default_max
      = (floor min,
         if ceil max - floor min < 1 then floor min + 1 else ceil max, false) := by
  simp [compute_y_axis, h]

theorem DBL_MAX_pos : 0 < DBL_MAX := by
  unfold DBL_MAX
  exact Nat.cast_pos.mpr (Nat.mul_pos (by norm_num) (pow_pos (by norm_num) 971))

theorem floor_natCast (n : ℕ) : floor (n : ℚ) = (n : ℚ) := by
  unfold floor
  rw [Int.floor_natCast, Int.cast_natCast]

theorem ceil_neg_natCast (n : ℕ) : ceil (-(n : ℚ)) = -(n : ℚ) := by
  unfold ceil
  rw [Int.ceil_neg, Int.floor_natCast, Int.cast_neg, Int.cast_natCast]

theorem floor_DBL_MAX : floor DBL_MAX = DBL_MAX := floor_natCast _

theorem ceil_neg_DBL_MAX : ceil (-DBL_MAX) = -DBL_MAX := ceil_neg_natCast _

theorem ceil_lt_floor_sentinel : ceil (-DBL_MAX) < floor DBL_MAX := by
  rw [floor_DBL_MAX, ceil_neg_DBL_MAX]
  have := DBL_MAX_pos
  linarith

/-! ### The merge loop as a fold of elementwise minimum and maximum -/

theorem ite_lt_eq_min (p a : ℚ) : (if p < a then p else a) = min a p := by
  split_ifs with h
  · exact (min_eq_right (le_of_lt h)).symm
  · exact (min_eq_left (not_lt.mp h)).symm

theorem ite_gt_eq_max (p a : ℚ) : (if p > a then p else a) = max a p := by
  split_ifs with h
  · exact (max_eq_right (le_of_lt h)).symm
  · exact (max_eq_left (not_lt.mp h)).symm

theorem foldl_continue {α : Type} (f : α → Nat → α) (k : Nat) (l : List Nat) (a : α) :
    l.foldl (fun a i => if i = k then a else f a i) a
      = (l.filter (fun i => i ≠ k)).foldl f a := by
  induction l generalizing a with
  | nil => rfl
  | cons x xs ih =>
    by_cases h : x = k
    · simp [List.filter, h, ih]
    · simp [List.filter, h, ih]

theorem mem_peers (inst : InstanceData) (i : Nat) :
    i ∈ peers inst ↔ i < inst.total_instances ∧ i ≠ inst.instance_index := by
  simp [peers]

theorem range_count_merge_body (a : CountAxes) (s : SharedMemoryBuffer) (q : Quantity) :
    (Axes.count_mode (display_count_merge_body a s)).range q
      = ((Axes.count_mode a).range q).map (fun r => merge_step q r s) := by
  cases q <;> simp only [Axes.range, Option.map]
  unfold display_count_merge_body merge_step SharedMemoryBuffer.published
  simp only [ite_lt_eq_min, ite_gt_eq_max, SharedMemoryBuffer.quantity_valid,
    SharedMemoryBuffer.quantity_min, SharedMemoryBuffer.quantity_max, Quantity.mode]
  by_cases h1 : s.valid = true <;> by_cases h2 : s.mode = ModeType.COUNT_MODE <;>
    by_cases h3 : s.count_mode.y_axis_valid = true <;> simp [h1, h2, h3]

theorem range_fit_test_merge_body (a : FitTestAxes) (s : SharedMemoryBuffer) (q : Quantity) :
    (Axes.fit_test_mode (display_fit_test_merge_body a s)).range q
      = ((Axes.fit_test_mode a).range q).map (fun r => merge_step q r s) := by
  cases q <;> simp only [Axes.range, Option.map] <;>
    unfold display_fit_test_merge_body merge_step SharedMemoryBuffer.published <;>
    simp only [ite_lt_eq_min, ite_gt_eq_max, SharedMemoryBuffer.quantity_valid,
      SharedMemoryBuffer.quantity_min, SharedMemoryBuffer.quantity_max, Quantity.mode] <;>
    by_cases h1 : s.valid = true <;> by_cases h2 : s.mode = ModeType.FIT_TEST_MODE <;>
    by_cases h3 : s.fit_test_mode.ambient_y_axis_valid = true <;>
    by_cases h4 : s.fit_test_mode.sample_y_axis_valid = true <;>
    by_cases h5 : s.fit_test_mode.fit_factor_y_axis_valid = true <;>
    simp [h1, h2, h3, h4, h5]

theorem range_foldl_count_merge_body (l : List SharedMemoryBuffer) (a : CountAxes)
    (q : Quantity) :
    (Axes.count_mode (l.foldl display_count_merge_body a)).range q
      = ((Axes.count_mode a).range q).map (fun r => l.foldl (merge_step q) r) := by
  induction l generalizing a with
  | nil => simp
  | cons x xs ih =>
    rw [List.foldl_cons, ih, range_count_merge_body, Option.map_map]
    rfl

theorem range_foldl_fit_test_merge_body (l : List SharedMemoryBuffer) (a : FitTestAxes)
    (q : Quantity) :
    (Axes.fit_test_mode (l.foldl display_fit_test_merge_body a)).range q
      = ((Axes.fit_test_mode a).range q).map (fun r => l.foldl (merge_step q) r) := by
  induction l generalizing a with
  | nil => simp
  | cons x xs ih =>
    rw [List.foldl_cons, ih, range_fit_test_merge_body, Option.map_map]
    rfl

theorem range_display_merge_visiting (st : State) (shared : Nat → SharedMemoryBuffer)
    (visit : List Nat) (q : Quantity) (hq : q.mode = st.mode) :
    (display_merge_visiting st shared visit).range q
      = some ((visit.map shared).foldl (merge_step q)
          ((display_local st q).1, (display_local st q).2.1)) := by
  unfold display_merge_visiting
  cases hm : st.mode with
  | COUNT_MODE =>
    rw [hm] at hq
    cases q <;> simp [Quantity.mode] at hq
    simp only
    rw [← List.foldl_map, range_foldl_count_merge_body]
    rfl
  | FIT_TEST_MODE =>
    rw [hm] at hq
    simp only
    rw [← List.foldl_map, range_foldl_fit_test_merge_body]
    cases q <;> simp [Quantity.mode] at hq <;> rfl

theorem display_axes_eq (st : State) (inst : InstanceData) (shared : Nat → SharedMemoryBuffer) :
    (display st inst shared).2 = display_merge_visiting st shared (peers inst) := by
  unfold display display_merge_visiting peers
  cases hm : st.mode with
  | COUNT_MODE =>
    simp only
    rw [foldl_continue]
    congr 1
    apply List.foldl_ext
    intro a i hi
    have hne : i ≠ inst.instance_index := by simpa using (List.mem_filter.mp hi).2
    rw [Function.update_noteq hne]
  | FIT_TEST_MODE =>
    simp only
    rw [foldl_continue]
    congr 1
    apply List.foldl_ext
    intro a i hi
    have hne : i ≠ inst.instance_index := by simpa using (List.mem_filter.mp hi).2
    rw [Function.update_noteq hne]

theorem foldl_merge_step_fst_le (q : Quantity) (l : List SharedMemoryBuffer) (r : ℚ × ℚ) :
    (l.foldl (merge_step q) r).1 ≤ r.1
      ∧ ∀ s ∈ l, s.published q = true → (l.foldl (merge_step q) r).1 ≤ s.quantity_min q := by
  induction l generalizing r with
  | nil => simp
  | cons x xs ih =>
    rw [List.foldl_cons]
    obtain ⟨h1, h2⟩ := ih (merge_step q r x)
    have hx : (merge_step q r x).1 ≤ r.1 := by
      unfold merge_step
      split_ifs
      · exact min_le_left _ _
      · exact le_refl _
    refine ⟨le_trans h1 hx, ?_⟩
    intro s hs hp
    rcases List.mem_cons.mp hs with rfl | hs
    · refine le_trans h1 ?_
      unfold merge_step
      rw [if_pos hp]
      exact min_le_right _ _
    · exact h2 s hs hp

theorem foldl_merge_step_fst_mem (q : Quantity) (l : List SharedMemoryBuffer) (r : ℚ × ℚ) :
    (l.foldl (merge_step q) r).1 = r.1
      ∨ ∃ s ∈ l, s.published q = true ∧ (l.foldl (merge_step q) r).1 = s.quantity_min q := by
  induction l generalizing r with
  | nil => simp
  | cons x xs ih =>
    rw [List.foldl_cons]
    rcases ih (merge_step q r x) with h | ⟨s, hs, hp, h⟩
    · by_cases hp : x.published q = true
      · have hx : (merge_step q r x).1 = min r.1 (x.quantity_min q) := by
          unfold merge_step
          rw [if_pos hp]
        rcases min_choice r.1 (x.quantity_min q) with hm | hm
        · left
          rw [h, hx, hm]
        · right
          exact ⟨x, List.mem_cons_self _ _, hp, by rw [h, hx, hm]⟩
      · left
        rw [h]
        unfold merge_step
        rw [if_neg hp]
    · right
      exact ⟨s, List.mem_cons_of_mem _ hs, hp, h⟩

theorem foldl_merge_step_snd_ge (q : Quantity) (l : List SharedMemoryBuffer) (r : ℚ × ℚ) :
    r.2 ≤ (l.foldl (merge_step q) r).2
      ∧ ∀ s ∈ l, s.published q = true → s.quantity_max q ≤ (l.foldl (merge_step q) r).2 := by
  induction l generalizing r with
  | nil => simp
  | cons x xs ih =>
    rw [List.foldl_cons]
    obtain ⟨h1, h2⟩ := ih (merge_step q r x)
    have hx : r.2 ≤ (merge_step q r x).2 := by
      unfold merge_step
      split_ifs
      · exact le_max_left _ _
      · exact le_refl _
    refine ⟨le_trans hx h1, ?_⟩
    intro s hs hp
    rcases List.mem_cons.mp hs with rfl | hs
    · refine le_trans ?_ h1
      unfold merge_step
      rw [if_pos hp]
      exact le_max_right _ _
    · exact h2 s hs hp

theorem foldl_merge_step_snd_mem (q : Quantity) (l : List SharedMemoryBuffer) (r : ℚ × ℚ) :
    (l.foldl (merge_step q) r).2 = r.2
      ∨ ∃ s ∈ l, s.published q = true ∧ (l.foldl (merge_step q) r).2 = s.quantity_max q := by
  induction l generalizing r with
  | nil => simp
  | cons x xs ih =>
    rw [List.foldl_cons]
    rcases ih (merge_step q r x) with h | ⟨s, hs, hp, h⟩
    · by_cases hp : x.published q = true
      · have hx : (merge_step q r x).2 = max r.2 (x.quantity_max q) := by
          unfold merge_step
          rw [if_pos hp]
        rcases max_choice r.2 (x.quantity_max q) with hm | hm
        · left
          rw [h, hx, hm]
        · right
          exact ⟨x, List.mem_cons_self _ _, hp, by rw [h, hx, hm]⟩
      · left
        rw [h]
        unfold merge_step
        rw [if_neg hp]
    · right
      exact ⟨s, List.mem_cons_of_mem _ hs, hp, h⟩

theorem published_iff (s : SharedMemoryBuffer) (q : Quantity) :
    s.published q = true
      ↔ s.valid = true ∧ s.mode = q.mode ∧ s.quantity_valid q = true := by
  simp [SharedMemoryBuffer.published, and_assoc]

theorem merge_step_right_comm (q : Quantity) (r : ℚ × ℚ) (x y : SharedMemoryBuffer) :
    merge_step q (merge_step q r x) y = merge_step q (merge_step q r y) x := by
  unfold merge_step
  by_cases hx : x.published q = true <;> by_cases hy : y.published q = true <;>
    simp [hx, hy, inf_right_comm, sup_right_comm]

theorem foldl_merge_step_perm (q : Quantity) {l₁ l₂ : List SharedMemoryBuffer}
    (h : l₁.Perm l₂) (r : ℚ × ℚ) :
    l₁.foldl (merge_step q) r = l₂.foldl (merge_step q) r :=
  h.foldl_eq' (fun x _ y _ z => merge_step_right_comm q z x y) r

theorem countAxes_eq_of_range (a b : CountAxes)
    (h : ∀ q, (Axes.count_mode a).range q = (Axes.count_mode b).range q) : a = b := by
  have h1 := h Quantity.count
  simp only [Axes.range, Option.some.injEq, Prod.mk.injEq] at h1
  cases a
  cases b
  simp_all

theorem fitTestAxes_eq_of_range (a b : FitTestAxes)
    (h : ∀ q, (Axes.fit_test_mode a).range q = (Axes.fit_test_mode b).range q) : a = b := by
  have h1 := h Quantity.ambient
  have h2 := h Quantity.sample
  have h3 := h Quantity.fit_factor
  simp only [Axes.range, Option.some.injEq, Prod.mk.injEq] at h1 h2 h3
  cases a
  cases b
  simp_all

theorem foldl_count_merge_body_perm {l₁ l₂ : List SharedMemoryBuffer} (h : l₁.Perm l₂)
    (a : CountAxes) :
    l₁.foldl display_count_merge_body a = l₂.foldl display_count_merge_body a := by
  apply countAxes_eq_of_range
  intro q
  rw [range_foldl_count_merge_body, range_foldl_count_merge_body]
  congr 1
  funext r
  exact foldl_merge_step_perm q h r

theorem foldl_fit_test_merge_body_perm {l₁ l₂ : List SharedMemoryBuffer} (h : l₁.Perm l₂)
    (a : FitTestAxes) :
    l₁.foldl display_fit_test_merge_body a = l₂.foldl display_fit_test_merge_body a := by
  apply fitTestAxes_eq_of_range
  intro q
  rw [range_foldl_fit_test_merge_body, range_foldl_fit_test_merge_body]
  congr 1
  funext r
  exact foldl_merge_step_perm q h r

theorem foldl_visit_eq {α : Type} (body : α → SharedMemoryBuffer → α)
    (shared : Nat → SharedMemoryBuffer) (visit : List Nat) (a : α) :
    visit.foldl (fun a i => body a (shared i)) a = (visit.map shared).foldl body a :=
  (List.foldl_map shared body visit a).symm

theorem display_merge_visiting_perm (st : State) (shared : Nat → SharedMemoryBuffer)
    {v₁ v₂ : List Nat} (h : v₁.Perm v₂) :
    display_merge_visiting st shared v₁ = display_merge_visiting st shared v₂ := by
  unfold display_merge_visiting
  cases st.mode with
  | COUNT_MODE =>
    simp only
    rw [foldl_visit_eq, foldl_visit_eq, foldl_count_merge_body_perm (h.map shared)]
  | FIT_TEST_MODE =>
    simp only
    rw [foldl_visit_eq, foldl_visit_eq, foldl_fit_test_merge_body_perm (h.map shared)]

theorem display_count_local_empty (st : State)
    (h : st.count_mode_data = Portacount.count_mode_data) :
    display_count_local st = (-3, 5, true) := by
  unfold display_count_local
  rw [h]
  simp only [Portacount.count_mode_data]
  rw [compute_y_axis_of_lt _ _ _ _ ceil_lt_floor_sentinel]
  norm_num

theorem display_two_instances_empty_sees_2_6 (st : State) (shared : Nat → SharedMemoryBuffer)
    (hmode : st.mode = ModeType.COUNT_MODE)
    (hempty : st.count_mode_data = Portacount.count_mode_data)
    (hvalid : (shared 0).valid = true) (hpmode : (shared 0).mode = ModeType.COUNT_MODE)
    (hflag : (shared 0).count_mode.y_axis_valid = true)
    (hmin : (shared 0).count_mode.y_axis_min = 2)
    (hmax : (shared 0).count_mode.y_axis_max = 6) :
    (display st { total_instances := 2, instance_index := 1 } shared).2
      = Axes.count_mode { y_axis_min := -3, y_axis_max := 6 } := by
  have hp : peers { total_instances := 2, instance_index := 1 } = [0] := by decide
  rw [display_axes_eq, hp]
  unfold display_merge_visiting
  rw [hmode]
  simp only [List.foldl, display_count_local_empty st hempty]
  unfold display_count_merge_body
  simp only [hvalid, hpmode, hflag, hmin, hmax]
  norm_num

theorem display_shared_eq (st : State) (inst : InstanceData)
    (shared : Nat → SharedMemoryBuffer) :
    (display st inst shared).1
      = Function.update shared inst.instance_index
          (display_publish st (shared inst.instance_index)) := by
  unfold display display_publish
  cases st.mode <;> rfl

theorem display_own_eq (st : State) (inst : InstanceData)
    (shared : Nat → SharedMemoryBuffer) :
    (display st inst shared).1 inst.instance_index
      = display_publish st (shared inst.instance_index) := by
  rw [display_shared_eq, Function.update_same]

/-! ### Series invariants -/

theorem SeriesInv.push {series : List ℚ} {series_min series_max : ℚ}
    (h : SeriesInv series series_min series_max) (val : ℚ)
    (hlo : -DBL_MAX ≤ val) (hhi : val ≤ DBL_MAX) :
    SeriesInv (series ++ [val]) (if val < series_min then val else series_min)
      (if val > series_max then val else series_max) := by
  right
  refine ⟨by simp, ?_, ?_⟩
  · rcases h with ⟨he, hmin, _⟩ | ⟨_, hmin, _⟩
    · subst he
      have hv : (if val < series_min then val else series_min) = val := by
        split_ifs with h1
        · rfl
        · rw [hmin]
          rw [hmin] at h1
          exact le_antisymm (not_lt.mp h1) hhi
      rw [hv]
      constructor
      · simp
      · intro x hx
        simp at hx
        rw [hx]
    · constructor
      · split_ifs with h1
        · simp
        · have := hmin.1
          simp only [Set.mem_setOf_eq, List.mem_append] at this ⊢
          exact Or.inl this
      · intro x hx
        simp only [Set.mem_setOf_eq, List.mem_append, List.mem_singleton] at hx
        rcases hx with hx | hx
        · have h2 := hmin.2 hx
          split_ifs with h1
          · exact le_trans (le_of_lt h1) h2
          · exact h2
        · rw [hx]
          split_ifs with h1
          · exact le_refl _
          · exact not_lt.mp h1
  · rcases h with ⟨he, _, hmax⟩ | ⟨_, _, hmax⟩
    · subst he
      have hv : (if val > series_max then val else series_max) = val := by
        split_ifs with h1
        · rfl
        · rw [hmax]
          rw [hmax] at h1
          exact le_antisymm hlo (not_lt.mp h1)
      rw [hv]
      constructor
      · simp
      · intro x hx
        simp at hx
        rw [hx]
    · constructor
      · split_ifs with h1
        · simp
        · have := hmax.1
          simp only [Set.mem_setOf_eq, List.mem_append] at this ⊢
          exact Or.inl this
      · intro x hx
        simp only [Set.mem_setOf_eq, List.mem_append, List.mem_singleton] at hx
        rcases hx with hx | hx
        · have h2 := hmax.2 hx
          split_ifs with h1
          · exact le_trans h2 (le_of_lt h1)
          · exact h2
        · rw [hx]
          split_ifs with h1
          · exact le_refl _
          · exact not_lt.mp h1

theorem series_timer_func_append (st : State) (q q' : Quantity) (val : ℚ) :
    (timer_func_append st q val).series q'
      = if q = q' then st.series q' ++ [val] else st.series q' := by
  cases q <;> cases q' <;> rfl

theorem series_min_timer_func_append (st : State) (q q' : Quantity) (val : ℚ) :
    (timer_func_append st q val).series_min q'
      = if q = q' then (if val < st.series_min q' then val else st.series_min q')
        else st.series_min q' := by
  cases q <;> cases q' <;> rfl

theorem series_max_timer_func_append (st : State) (q q' : Quantity) (val : ℚ) :
    (timer_func_append st q val).series_max q'
      = if q = q' then (if val > st.series_max q' then val else st.series_max q')
        else st.series_max q' := by
  cases q <;> cases q' <;> rfl

theorem appended_values_cons (q : Quantity) (a : Quantity × ℚ)
    (appends : List (Quantity × ℚ)) :
    appended_values q (a :: appends)
      = if a.1 = q then a.2 :: appended_values q appends else appended_values q appends := by
  unfold appended_values
  by_cases h : a.1 = q <;> simp [List.filter, h]

theorem run_appends_series (appends : List (Quantity × ℚ)) (st : State) (q : Quantity)
    (hinv : SeriesInv (st.series q) (st.series_min q) (st.series_max q))
    (hfinite : ∀ a ∈ appends, a.1 = q → -DBL_MAX ≤ a.2 ∧ a.2 ≤ DBL_MAX) :
    (run_appends st appends).series q = st.series q ++ appended_values q appends
    ∧ SeriesInv ((run_appends st appends).series q) ((run_appends st appends).series_min q)
        ((run_appends st appends).series_max q) := by
  induction appends generalizing st with
  | nil => simpa [run_appends, appended_values] using hinv
  | cons a rest ih =>
    have hstep : SeriesInv ((timer_func_append st a.1 a.2).series q)
        ((timer_func_append st a.1 a.2).series_min q)
        ((timer_func_append st a.1 a.2).series_max q) := by
      rw [series_timer_func_append, series_min_timer_func_append,
        series_max_timer_func_append]
      by_cases h : a.1 = q
      · rw [if_pos h, if_pos h, if_pos h]
        have hr := hfinite a (List.mem_cons_self _ _) h
        exact hinv.push a.2 hr.1 hr.2
      · rw [if_neg h, if_neg h, if_neg h]
        exact hinv
    obtain ⟨h1, h2⟩ := ih (timer_func_append st a.1 a.2) hstep
      (fun b hb => hfinite b (List.mem_cons_of_mem _ hb))
    have hrun : run_appends st (a :: rest) = run_appends (timer_func_append st a.1 a.2) rest :=
      rfl
    rw [hrun]
    refine ⟨?_, h2⟩
    rw [h1, series_timer_func_append, appended_values_cons]
    by_cases h : a.1 = q
    · rw [if_pos h, if_pos h]
      simp
    · rw [if_neg h, if_neg h]

theorem seriesInv_initial (q : Quantity) :
    SeriesInv (State.initial.series q) (State.initial.series_min q)
      (State.initial.series_max q) := by
  left
  cases q <;> exact ⟨rfl, rfl, rfl⟩

theorem seriesInv_reset (st : State) (key : Char) (q : Quantity)
    (hkey : key = 'x' ∨ key = 'X') (hmode : st.mode = q.mode) :
    SeriesInv ((keyboard_func st key).series q) ((keyboard_func st key).series_min q)
      ((keyboard_func st key).series_max q) := by
  left
  have hk : keyboard_func st key
      = match st.mode with
        | ModeType.COUNT_MODE =>
          { st with count_mode_data := keyboard_func_count_reset st.count_mode_data }
        | ModeType.FIT_TEST_MODE =>
          { st with fit_test_mode_data := keyboard_func_fit_test_reset st.fit_test_mode_data } := by
    rcases hkey with rfl | rfl <;> simp [keyboard_func]
  rw [hk, hmode]
  cases q <;> exact ⟨rfl, rfl, rfl⟩

theorem horizon_timer_func_append (st : State) (q : Quantity) (val : ℚ) (m : ModeType) :
    (timer_func_append st q val).horizon m
      = if q.mode = m then
          (if (((timer_func_append st q val).series q).length : ℚ) > st.horizon m
           then st.horizon m * 2 else st.horizon m)
        else st.horizon m := by
  cases q <;> cases m <;> rfl

theorem horizon_le_timer_func_append (st : State) (q : Quantity) (val : ℚ) (m : ModeType)
    (hpos : 0 ≤ st.horizon m) :
    st.horizon m ≤ (timer_func_append st q val).horizon m := by
  rw [horizon_timer_func_append]
  split_ifs <;> linarith

theorem horizon_le_run_appends (appends : List (Quantity × ℚ)) (st : State) (m : ModeType)
    (hpos : 0 ≤ st.horizon m) :
    st.horizon m ≤ (run_appends st appends).horizon m := by
  induction appends generalizing st with
  | nil => exact le_refl _
  | cons a rest ih =>
    have h1 := horizon_le_timer_func_append st a.1 a.2 m hpos
    exact le_trans h1 (ih (timer_func_append st a.1 a.2) (le_trans hpos h1))

theorem small_le_DBL_MAX (x : ℚ) (h : x ≤ 1000) : x ≤ DBL_MAX := by
  have h1 : ((2 ^ 53 - 1 : ℕ) : ℚ) ≤ DBL_MAX := by
    unfold DBL_MAX
    exact Nat.cast_le.mpr (Nat.le_mul_of_pos_right _ (pow_pos (by norm_num) 971))
  have h2 : (1000 : ℚ) ≤ ((2 ^ 53 - 1 : ℕ) : ℚ) := by norm_num
  linarith

theorem neg_DBL_MAX_le_small (x : ℚ) (h : -1000 ≤ x) : -DBL_MAX ≤ x := by
  have := small_le_DBL_MAX 1000 (le_refl _)
  linarith

/-! ### Runs of one instance -/

theorem step_redraw (log10 : ℚ → ℚ) (inst : InstanceData) (c : State × SharedMemoryBuffer)
    (shared : Nat → SharedMemoryBuffer) :
    step log10 inst c (Event.redraw shared) = (c.1, display_publish c.1 c.2) := by
  simp only [step]
  rw [display_own_eq, Function.update_same]

theorem timer_func_conc_1000000 :
    timer_func log10_sample State.initial scan_conc_1000000
      = { State.initial with
          count_mode_data :=
            { count_mode_x_axis_max := 18, count_array_max := 6, count_array_min := 6,
              count_array := [6] } } := by
  have h1 : (6 : ℚ) < DBL_MAX := by
    have := small_le_DBL_MAX 1000 (le_refl _)
    linarith
  have h2 : (6 : ℚ) > -DBL_MAX := by
    have := DBL_MAX_pos
    linarith
  simp only [timer_func, State.initial, scan_conc_1000000, timer_func_count_append,
    Portacount.count_mode_data, log10_sample]
  norm_num [h1, h2]

theorem compute_y_axis_6_6 : compute_y_axis 6 6 (-3) 5 = (6, 7, false) := by
  have hf : Int.floor (6 : ℚ) = 6 := by norm_num [Int.floor_eq_iff]
  have hc : Int.ceil (6 : ℚ) = 6 := by norm_num [Int.ceil_eq_iff]
  have hn : ¬ ceil 6 < floor 6 := by
    simp only [floor, ceil, hf, hc]
    norm_num
  rw [compute_y_axis_of_not_lt _ _ _ _ hn]
  simp only [floor, ceil, hf, hc]
  norm_num

theorem keyboard_func_x_count (st : State) (h : st.mode = ModeType.COUNT_MODE) :
    keyboard_func st 'x'
      = { st with count_mode_data := keyboard_func_count_reset st.count_mode_data } := by
  unfold keyboard_func
  rw [if_neg (by decide), if_neg (by decide), if_neg (by decide), if_pos (by decide), h]

theorem display_publish_initial (own : SharedMemoryBuffer) :
    display_publish State.initial own = own := by
  have h : display_count_local State.initial = (-3, 5, true) :=
    display_count_local_empty State.initial rfl
  show display_count_publish own (display_count_local State.initial).1
    (display_count_local State.initial).2.1 (display_count_local State.initial).2.2 = own
  rw [h]
  rfl

theorem run_stale_peer :
    run log10_sample instance_0_of_2 stale_peer_events
      = (State.initial, display_count_publish SharedMemoryBuffer.initial 6 7 false) := by
  simp only [run, stale_peer_events, List.foldl, step_redraw]
  simp only [step, timer_func_conc_1000000]
  have h1 : display_publish
      { State.initial with
        count_mode_data :=
          { count_mode_x_axis_max := 18, count_array_max := 6, count_array_min := 6,
            count_array := [6] } } SharedMemoryBuffer.initial
      = display_count_publish SharedMemoryBuffer.initial 6 7 false := by
    simp only [display_publish, State.initial, display_count_local, compute_y_axis_6_6]
  rw [h1, keyboard_func_x_count _ rfl]
  have h2 : ({ State.initial with
        count_mode_data :=
          keyboard_func_count_reset
            { count_mode_x_axis_max := 18, count_array_max := 6, count_array_min := 6,
              count_array := [6] } } : State) = State.initial := rfl
  simp only [State.initial] at h2 ⊢
  rw [h2]
  exact congrArg _ (display_publish_initial _)

theorem quantity_valid_display_publish (st : State) (own : SharedMemoryBuffer) (q : Quantity)
    (h : st.mode ≠ q.mode ∨ (display_local st q).2.2 = true) :
    (display_publish st own).quantity_valid q = own.quantity_valid q := by
  unfold display_publish
  cases hm : st.mode with
  | COUNT_MODE =>
    cases q <;> simp only [hm, Quantity.mode, ne_eq, not_true_eq_false, false_or,
      display_local, reduceCtorEq, not_false_eq_true, true_or] at h <;>
      simp only [display_count_publish, SharedMemoryBuffer.quantity_valid] <;>
      split_ifs <;> simp_all
  | FIT_TEST_MODE =>
    cases q <;> simp only [hm, Quantity.mode, ne_eq, not_true_eq_false, false_or,
      display_local, reduceCtorEq, not_false_eq_true, true_or] at h <;>
      simp only [display_fit_test_publish, SharedMemoryBuffer.quantity_valid] <;>
      split_ifs <;> simp_all

theorem quantity_valid_run_never_published (log10 : ℚ → ℚ) (inst : InstanceData)
    (q : Quantity) (events : List Event) (c : State × SharedMemoryBuffer)
    (hc : c.2.quantity_valid q = false)
    (h : never_published log10 inst q c events = true) :
    (events.foldl (step log10 inst) c).2.quantity_valid q = false := by
  induction events generalizing c with
  | nil => exact hc
  | cons e rest ih =>
    rw [List.foldl_cons]
    cases e with
    | line scan => exact ih _ hc h
    | key k => exact ih _ hc h
    | redraw shared =>
      simp only [never_published, Bool.and_eq_true, Bool.or_eq_true, decide_eq_true_eq] at h
      refine ih _ ?_ h.2
      rw [step_redraw]
      exact (quantity_valid_display_publish c.1 c.2 q h.1).trans hc

theorem published_eq_false_of_quantity_valid (s : SharedMemoryBuffer) (q : Quantity)
    (h : s.quantity_valid q = false) : s.published q = false := by
  simp [SharedMemoryBuffer.published, h]

theorem foldl_merge_step_filter (q : Quantity) (shared : Nat → SharedMemoryBuffer) (p : Nat)
    (h : (shared p).published q = false) (l : List Nat) (r : ℚ × ℚ) :
    (l.map shared).foldl (merge_step q) r
      = ((l.filter (fun i => i ≠ p)).map shared).foldl (merge_step q) r := by
  induction l generalizing r with
  | nil => rfl
  | cons x xs ih =>
    by_cases hx : x = p
    · subst hx
      have hs : merge_step q r (shared x) = r := by
        unfold merge_step
        rw [if_neg (by simp [h])]
      simp [List.filter, hs, ih]
    · simp [List.filter, hx, ih]

theorem display_range_without_peer (st : State) (inst : InstanceData)
    (shared : Nat → SharedMemoryBuffer) (q : Quantity) (p : Nat) (hq : q.mode = st.mode)
    (h : (shared p).published q = false) :
    (display st inst shared).2.range q
      = (display_merge_visiting st shared ((peers inst).filter (fun i => i ≠ p))).range q := by
  rw [display_axes_eq, range_display_merge_visiting st shared _ q hq,
    range_display_merge_visiting st shared _ q hq, foldl_merge_step_filter q shared p h]

theorem peers_instance_1_of_2 : peers instance_1_of_2 = [0] := by decide

theorem display_merge_visiting_count (st : State) (h : st.mode = ModeType.COUNT_MODE)
    (shared : Nat → SharedMemoryBuffer) (visit : List Nat) :
    display_merge_visiting st shared visit
      = Axes.count_mode
          (visit.foldl (fun a i => display_count_merge_body a (shared i))
            { y_axis_min := (display_count_local st).1,
              y_axis_max := (display_count_local st).2.1 }) := by
  unfold display_merge_visiting
  rw [h]

theorem display_initial_sees_6_7 (shared : Nat → SharedMemoryBuffer)
    (h : shared 0 = display_count_publish SharedMemoryBuffer.initial 6 7 false) :
    (display State.initial instance_1_of_2 shared).2
      = Axes.count_mode { y_axis_min := -3, y_axis_max := 7 } := by
  rw [display_axes_eq, peers_instance_1_of_2, display_merge_visiting_count _ rfl,
    display_count_local_empty State.initial rfl]
  simp only [List.foldl]
  rw [h]
  simp only [display_count_merge_body, display_count_publish, SharedMemoryBuffer.initial]
  norm_num

theorem display_merge_visiting_initial_nil (shared : Nat → SharedMemoryBuffer) :
    display_merge_visiting State.initial shared []
      = Axes.count_mode { y_axis_min := -3, y_axis_max := 5 } := by
  rw [display_merge_visiting_count _ rfl, display_count_local_empty State.initial rfl]
  rfl

theorem step_line_key_x :
    step log10_sample instance_0_of_2
        (step log10_sample instance_0_of_2 (State.initial, SharedMemoryBuffer.initial)
          (Event.line scan_conc_1000000)) (Event.key 'x')
      = (State.initial, SharedMemoryBuffer.initial) := by
  simp only [step, timer_func_conc_1000000]
  rw [keyboard_func_x_count _ rfl]
  rfl

theorem run_quiet_peer :
    run log10_sample instance_0_of_2 quiet_peer_events
      = (State.initial, SharedMemoryBuffer.initial) := by
  simp only [run, quiet_peer_events, List.foldl]
  rw [step_line_key_x, step_redraw, display_publish_initial]

theorem never_published_quiet_peer :
    never_published log10_sample instance_0_of_2 Quantity.count
      (State.initial, SharedMemoryBuffer.initial) quiet_peer_events = true := by
  simp only [quiet_peer_events, never_published]
  rw [step_line_key_x]
  simp only [display_local, display_count_local_empty State.initial rfl, Bool.or_true,
    Bool.and_self]

/-! ### Facts about `sscanf` -/

theorem sscanf_directives_lit_head (c : Char) (ds : List Directive) (input : List Char)
    (h : (sscanf_directives (Directive.lit c :: ds) input false { ret := 0, val := none }).ret
      = 1) :
    input.head? = some c := by
  cases input with
  | nil => simp [sscanf_directives] at h
  | cons x rest =>
    by_cases hx : x = c
    · simp [hx]
    · simp [sscanf_directives, hx] at h

theorem matched_eq_some (r : ScanfResult) (v : ℚ) (h : r.matched = some v) : r.ret = 1 := by
  unfold ScanfResult.matched at h
  by_contra hne
  rw [if_neg hne] at h
  exact Option.noConfusion h

theorem matched_eq_none_of_ret (r : ScanfResult) (h : r.ret ≠ 1) : r.matched = none := by
  unfold ScanfResult.matched
  rw [if_neg h]

theorem conc_head (buf : List Char) (v : ℚ) (h : (timer_func_scan buf).conc = some v) :
    (c_str buf).head? = some 'C' :=
  sscanf_directives_lit_head 'C' _ _ (matched_eq_some _ v h)

theorem mask_head (buf : List Char) (v : ℚ) (h : (timer_func_scan buf).mask = some v) :
    (c_str buf).head? = some 'M' :=
  sscanf_directives_lit_head 'M' _ _ (matched_eq_some _ v h)

theorem ambient_head (buf : List Char) (v : ℚ) (h : (timer_func_scan buf).ambient = some v) :
    (c_str buf).head? = some 'A' :=
  sscanf_directives_lit_head 'A' _ _ (matched_eq_some _ v h)

theorem ff_pass_head (buf : List Char) (v : ℚ) (h : (timer_func_scan buf).ff_pass = some v) :
    (c_str buf).head? = some 'F' :=
  sscanf_directives_lit_head 'F' _ _ (matched_eq_some _ v h)

theorem ff_fail_head (buf : List Char) (v : ℚ) (h : (timer_func_scan buf).ff_fail = some v) :
    (c_str buf).head? = some 'F' :=
  sscanf_directives_lit_head 'F' _ _ (matched_eq_some _ v h)

theorem sscanf_directives_tail (tail : List Directive)
    (h : ∀ d ∈ tail, d ≠ Directive.lf ∧ d ≠ Directive.star_u) (input : List Char)
    (r : ScanfResult) :
    sscanf_directives tail input true r = r := by
  induction tail generalizing input with
  | nil => rfl
  | cons d ds ih =>
    have hds : ∀ d ∈ ds, d ≠ Directive.lf ∧ d ≠ Directive.star_u :=
      fun d hd => h d (List.mem_cons_of_mem _ hd)
    cases d with
    | space => simp only [sscanf_directives, ih hds]
    | lit c =>
      cases input with
      | nil => simp [sscanf_directives]
      | cons x rest =>
        by_cases hx : x = c <;> simp [sscanf_directives, hx, ih hds]
    | lf => exact absurd rfl (h _ (List.mem_cons_self _ _)).1
    | star_u => exact absurd rfl (h _ (List.mem_cons_self _ _)).2

theorem sscanf_directives_same_tail (tail₁ tail₂ : List Directive)
    (h₁ : ∀ d ∈ tail₁, d ≠ Directive.lf ∧ d ≠ Directive.star_u)
    (h₂ : ∀ d ∈ tail₂, d ≠ Directive.lf ∧ d ≠ Directive.star_u)
    (ds : List Directive) (input : List Char) (converted : Bool) (r : ScanfResult)
    (h : converted = true ∨ Directive.lf ∈ ds ∨ Directive.star_u ∈ ds) :
    sscanf_directives (ds ++ tail₁) input converted r
      = sscanf_directives (ds ++ tail₂) input converted r := by
  induction ds generalizing input converted r with
  | nil =>
    have hc : converted = true := by simpa using h
    subst hc
    simp only [List.nil_append]
    rw [sscanf_directives_tail tail₁ h₁, sscanf_directives_tail tail₂ h₂]
  | cons d ds ih =>
    cases d with
    | space =>
      simp only [List.cons_append, sscanf_directives]
      apply ih
      simpa using h
    | lit c =>
      cases input with
      | nil => simp [sscanf_directives]
      | cons x rest =>
        by_cases hx : x = c
        · simp only [List.cons_append, sscanf_directives, hx, if_true]
          apply ih
          simpa using h
        · simp [sscanf_directives, hx]
    | lf =>
      simp only [List.cons_append, sscanf_directives]
      cases hin : List.dropWhile isspace input with
      | nil => rfl
      | cons x rest =>
        simp only
        cases scan_decimal (x :: rest) with
        | none => rfl
        | some p => exact ih _ _ _ (Or.inl rfl)
    | star_u =>
      simp only [List.cons_append, sscanf_directives]
      cases hin : List.dropWhile isspace input with
      | nil => rfl
      | cons x rest =>
        simp only
        cases scan_unsigned (x :: rest) with
        | none => rfl
        | some p => exact ih _ _ _ (Or.inl rfl)

theorem sscanf_ff_pass_eq_ff_fail (buf : List Char) :
    sscanf buf "FF %*u %lf PASS" = sscanf buf "FF %*u %lf FAIL" := by
  have hp : parse_format "FF %*u %lf PASS".toList
      = [Directive.lit 'F', Directive.lit 'F', Directive.space, Directive.star_u,
          Directive.space, Directive.lf]
        ++ [Directive.space, Directive.lit 'P', Directive.lit 'A', Directive.lit 'S',
          Directive.lit 'S'] := by decide
  have hf : parse_format "FF %*u %lf FAIL".toList
      = [Directive.lit 'F', Directive.lit 'F', Directive.space, Directive.star_u,
          Directive.space, Directive.lf]
        ++ [Directive.space, Directive.lit 'F', Directive.lit 'A', Directive.lit 'I',
          Directive.lit 'L'] := by decide
  unfold sscanf
  rw [hp, hf]
  exact sscanf_directives_same_tail _ _ (by decide) (by decide) _ _ _ _
    (Or.inr (Or.inl (by decide)))

theorem ff_pass_eq_ff_fail (buf : List Char) :
    (timer_func_scan buf).ff_pass = (timer_func_scan buf).ff_fail := by
  simp only [timer_func_scan, sscanf_ff_pass_eq_ff_fail]

theorem isspace_of_isdigit (c : Char) (h : isdigit c = true) : isspace c = false := by
  simp only [isdigit, Bool.and_eq_true, decide_eq_true_eq] at h
  simp only [isspace, Bool.or_eq_false_iff, decide_eq_false_iff_not, Bool.and_eq_false_imp,
    decide_eq_true_eq, not_le]
  constructor
  · rintro rfl
    revert h
    decide
  · intro _
    omega

theorem scan_sign_of_isdigit (c : Char) (rest : List Char) (h : isdigit c = true) :
    scan_sign (c :: rest) = (false, c :: rest) := by
  have h1 : c ≠ '-' := by
    rintro rfl
    revert h
    decide
  have h2 : c ≠ '+' := by
    rintro rfl
    revert h
    decide
  unfold scan_sign
  split
  · rename_i heq
    exact absurd (List.cons.inj heq).1 h1
  · rename_i heq
    exact absurd (List.cons.inj heq).1 h2
  · rfl

theorem span_isdigit_append (ds t : List Char) (hds : ∀ c ∈ ds, isdigit c = true)
    (ht : ∀ c ∈ t.head?, isdigit c = false) :
    (ds ++ t).span isdigit = (ds, t) := by
  rw [List.span_eq_take_drop]
  induction ds with
  | nil =>
    cases t with
    | nil => rfl
    | cons x xs =>
      have hx : isdigit x = false := ht x rfl
      simp [List.takeWhile, List.dropWhile, hx]
  | cons d ds ih =>
    have hd : isdigit d = true := hds d (List.mem_cons_self _ _)
    have := ih (fun c hc => hds c (List.mem_cons_of_mem _ hc))
    simp only [Prod.mk.injEq] at this ⊢
    rw [List.cons_append, List.takeWhile_cons, List.dropWhile_cons, hd]
    simp only [if_true, List.cons.injEq, true_and]
    exact this

theorem scan_unsigned_digits (d : Char) (ds t : List Char) (hd : isdigit d = true)
    (hds : ∀ c ∈ ds, isdigit c = true) (ht : ∀ c ∈ t.head?, isdigit c = false) :
    scan_unsigned (d :: (ds ++ t)) = some t := by
  have hspan : (d :: (ds ++ t)).span isdigit = (d :: ds, t) := by
    have := span_isdigit_append (d :: ds) t
      (fun c hc => by
        rcases List.mem_cons.mp hc with rfl | hc
        · exact hd
        · exact hds c hc) ht
    simpa using this
  unfold scan_unsigned
  rw [scan_sign_of_isdigit d _ hd]
  simp only [hspan]
  simp

theorem sscanf_ff_skips_int (format : String) (rest : List Directive)
    (hformat : parse_format format.toList
      = Directive.lit 'F' :: Directive.lit 'F' :: Directive.space :: Directive.star_u :: rest)
    (d : Char) (ds t : List Char) (hd : isdigit d = true)
    (hds : ∀ c ∈ ds, isdigit c = true) (ht : ∀ c ∈ t.head?, isdigit c = false) :
    sscanf ('F' :: 'F' :: ' ' :: d :: (ds ++ t)) format
      = sscanf_directives rest t true { ret := 0, val := none } := by
  have hsp : isspace d = false := isspace_of_isdigit d hd
  have h1 : List.dropWhile isspace (' ' :: d :: (ds ++ t)) = d :: (ds ++ t) := by
    have : isspace ' ' = true := by decide
    simp [List.dropWhile, this, hsp]
  have h2 : List.dropWhile isspace (d :: (ds ++ t)) = d :: (ds ++ t) := by
    simp [List.dropWhile, hsp]
  unfold sscanf
  rw [hformat]
  simp only [sscanf_directives, if_true, h1, h2, scan_unsigned_digits d ds t hd hds ht]

theorem conc_eq_none (buf : List Char) (h : (c_str buf).head? ≠ some 'C') :
    (timer_func_scan buf).conc = none := by
  cases hc : (timer_func_scan buf).conc with
  | none => rfl
  | some v => exact absurd (conc_head buf v hc) h

theorem mask_eq_none (buf : List Char) (h : (c_str buf).head? ≠ some 'M') :
    (timer_func_scan buf).mask = none := by
  cases hc : (timer_func_scan buf).mask with
  | none => rfl
  | some v => exact absurd (mask_head buf v hc) h

theorem ambient_eq_none (buf : List Char) (h : (c_str buf).head? ≠ some 'A') :
    (timer_func_scan buf).ambient = none := by
  cases hc : (timer_func_scan buf).ambient with
  | none => rfl
  | some v => exact absurd (ambient_head buf v hc) h

theorem ff_pass_eq_none (buf : List Char) (h : (c_str buf).head? ≠ some 'F') :
    (timer_func_scan buf).ff_pass = none := by
  cases hc : (timer_func_scan buf).ff_pass with
  | none => rfl
  | some v => exact absurd (ff_pass_head buf v hc) h

theorem ff_fail_eq_none (buf : List Char) (h : (c_str buf).head? ≠ some 'F') :
    (timer_func_scan buf).ff_fail = none := by
  cases hc : (timer_func_scan buf).ff_fail with
  | none => rfl
  | some v => exact absurd (ff_fail_head buf v hc) h

theorem head_ne_of_head (l : List Char) (a b : Char) (h : l.head? = some a) (hab : a ≠ b) :
    l.head? ≠ some b := by
  rw [h]
  intro hc
  exact hab (Option.some.inj hc)

/-! ### The loop of `writeFully` -/

theorem writeFully_loop_eq (write : Nat → Nat → Int)
    (hw : ∀ call r, 1 ≤ r → 1 ≤ write call r ∧ write call r ≤ r)
    (buf sink : List Char) (hlen : buf.length < 2 ^ 64) :
    ∀ (fuel call offset remaining : Nat), 1 ≤ remaining → offset + remaining = buf.length →
      remaining ≤ fuel →
      writeFully_loop write fuel call buf (offset : Int) remaining (sink ++ buf.take offset)
        = Outcome.done (sink ++ buf) := by
  intro fuel
  induction fuel with
  | zero =>
    intro call offset remaining h1 _ h3
    omega
  | succ fuel ih =>
    intro call offset remaining h1 h2 h3
    obtain ⟨hr1, hr2⟩ := hw call remaining h1
    obtain ⟨k, hk⟩ := Int.eq_ofNat_of_zero_le (le_trans (by norm_num) hr1)
    have hk1 : 1 ≤ k := by omega
    have hk2 : k ≤ remaining := by omega
    have hmod : (((remaining : Int) - (k : Int)) % 2 ^ 64).toNat = remaining - k := by
      have h4 : ((remaining : Int) - (k : Int)) = ((remaining - k : ℕ) : Int) := by omega
      rw [h4]
      have h5 : (((remaining - k : ℕ) : Int)) % 2 ^ 64 = ((remaining - k : ℕ) : Int) := by
        apply Int.emod_eq_of_lt
        · omega
        · have : remaining - k < 2 ^ 64 := by omega
          exact_mod_cast this
      rw [h5, Int.toNat_ofNat]
    have htake : sink ++ buf.take offset ++ (buf.drop offset).take k
        = sink ++ buf.take (offset + k) := by
      rw [List.append_assoc, List.take_add]
    unfold writeFully_loop
    simp only [hk]
    rw [if_neg (by omega)]
    simp only [Int.toNat_ofNat, hmod, htake]
    by_cases hrem : remaining - k > 0
    · rw [if_pos hrem]
      have := ih (call + 1) (offset + k) (remaining - k) (by omega) (by omega) (by omega)
      rw [← this]
      congr 1
    · rw [if_neg hrem]
      have : offset + k = buf.length := by omega
      rw [this, List.take_length]

theorem writeFully_eq (write : Nat → Nat → Int)
    (hw : ∀ call r, 1 ≤ r → 1 ≤ write call r ∧ write call r ≤ r)
    (buf sink : List Char) (hne : buf ≠ []) (hlen : buf.length < 2 ^ 64) (fuel : Nat)
    (hfuel : buf.length ≤ fuel) :
    writeFully write fuel sink buf buf.length = Outcome.done (sink ++ buf) := by
  have h := writeFully_loop_eq write hw buf sink hlen fuel 0 0 buf.length
    (List.length_pos.mpr hne) (by omega) hfuel
  simpa [writeFully] using h

/-! ### The whole of `timer_func` -/

theorem timer_func_count_mode (log10 : ℚ → ℚ) (st : State) (scan : Scan)
    (h : st.mode = ModeType.COUNT_MODE) :
    timer_func log10 st scan
      = match scan.conc with
        | some val =>
          timer_func_append st Quantity.count (log10 (if val = 0 then 1 / 1000 else val))
        | none => st := by
  obtain ⟨mode, cd, fd⟩ := st
  simp only at h
  subst h
  unfold timer_func
  cases scan.conc <;> rfl

theorem timer_func_fit_test_mode (log10 : ℚ → ℚ) (st : State) (scan : Scan)
    (h : st.mode = ModeType.FIT_TEST_MODE) :
    timer_func log10 st scan
      = match scan.mask with
        | some val => timer_func_append st Quantity.sample (log10 val)
        | none =>
          match scan.ambient with
          | some val => timer_func_append st Quantity.ambient (log10 val)
          | none =>
            match scan.ff_pass with
            | some val => timer_func_append st Quantity.fit_factor (log10 val)
            | none =>
              match scan.ff_fail with
              | some val => timer_func_append st Quantity.fit_factor (log10 val)
              | none => st := by
  obtain ⟨mode, cd, fd⟩ := st
  simp only at h
  subst h
  unfold timer_func
  cases scan.mask <;> cases scan.ambient <;> cases scan.ff_pass <;> cases scan.ff_fail <;> rfl

theorem timer_func_unmatched (log10 : ℚ → ℚ) (st : State) (buf : List Char)
    (h : unmatched st.mode buf = true) :
    timer_func log10 st (timer_func_scan buf) = st := by
  cases hm : st.mode with
  | COUNT_MODE =>
    rw [hm] at h
    simp only [unmatched, decide_eq_true_eq] at h
    rw [timer_func_count_mode log10 st _ hm]
    simp only [timer_func_scan, matched_eq_none_of_ret _ h]
  | FIT_TEST_MODE =>
    rw [hm] at h
    simp only [unmatched, Bool.and_eq_true, decide_eq_true_eq] at h
    obtain ⟨⟨⟨h1, h2⟩, h3⟩, h4⟩ := h
    rw [timer_func_fit_test_mode log10 st _ hm]
    simp only [timer_func_scan, matched_eq_none_of_ret _ h1, matched_eq_none_of_ret _ h2,
      matched_eq_none_of_ret _ h3, matched_eq_none_of_ret _ h4]

theorem timer_func_chunk_done (log10 : ℚ → ℚ) (write : Nat → Nat → Int) (fuel : Nat)
    (st : State) (outfile chunk : List Char) (hne : chunk ≠ [])
    (hsize : chunk.length < 2 ^ 64)
    (hw : ∀ call r, 1 ≤ r → 1 ≤ write call r ∧ write call r ≤ r)
    (hfuel : chunk.length ≤ fuel) :
    timer_func_chunk log10 write fuel st outfile (ReadResult.bytes chunk)
      = Outcome.done
          { st := timer_func log10 st (timer_func_scan chunk)
            outfile := outfile ++ chunk
            redisplay := true } := by
  simp only [timer_func_chunk]
  rw [if_pos (List.length_pos.mpr hne),
    writeFully_eq write hw chunk outfile hne hsize fuel hfuel]

theorem scan_conc_line_1000 :
    (timer_func_scan "Conc. 1000 #/cc".toList).conc = some 1000 := by
  have h : sscanf (c_str "Conc. 1000 #/cc".toList) "Conc. %lf #/cc"
      = { ret := 1, val := some { negative := false, mantissa := 1000, exponent := 0 } } := by
    decide
  simp only [timer_func_scan, h, ScanfResult.matched]
  norm_num [Decimal.value]

theorem scan_conc_line_0 :
    (timer_func_scan "Conc. 0 #/cc".toList).conc = some 0 := by
  have h : sscanf (c_str "Conc. 0 #/cc".toList) "Conc. %lf #/cc"
      = { ret := 1, val := some { negative := false, mantissa := 0, exponent := 0 } } := by
    decide
  simp only [timer_func_scan, h, ScanfResult.matched]
  norm_num [Decimal.value]

theorem write_five_ok (call r : Nat) (h : 1 ≤ r) :
    1 ≤ write_five call r ∧ write_five call r ≤ r := by
  unfold write_five
  constructor
  · have : 1 ≤ min r 5 := le_min h (by norm_num)
    exact_mod_cast this
  · exact_mod_cast min_le_left r 5

theorem garbage_line_ne_nil : garbage_line ≠ [] := by decide

theorem garbage_line_length : garbage_line.length = 22 := by decide

theorem garbage_line_size : garbage_line.length < 2 ^ 64 := by
  rw [garbage_line_length]
  norm_num

theorem garbage_line_unmatched (mode : ModeType) : unmatched mode garbage_line = true := by
  cases mode <;> decide

theorem fit_test_state_mode : fit_test_state.mode = ModeType.FIT_TEST_MODE := by
  unfold fit_test_state keyboard_func
  rw [if_neg (by decide), if_neg (by decide), if_pos (by decide)]

theorem scan_ff_line_200 :
    (timer_func_scan "FF 12 200 FAIL".toList).ff_fail = some 200 := by
  have h : sscanf (c_str "FF 12 200 FAIL".toList) "FF %*u %lf FAIL"
      = { ret := 1, val := some { negative := false, mantissa := 200, exponent := 0 } } := by
    decide
  simp only [timer_func_scan, h, ScanfResult.matched]
  norm_num [Decimal.value]

theorem timer_func_chunk_garbage (log10 : ℚ → ℚ) (st : State) (outfile : List Char) :
    timer_func_chunk log10 write_five 22 st outfile (ReadResult.bytes garbage_line)
      = Outcome.done { st := st, outfile := outfile ++ garbage_line, redisplay := true } := by
  rw [timer_func_chunk_done log10 write_five 22 st outfile garbage_line garbage_line_ne_nil
    garbage_line_size write_five_ok (le_of_eq garbage_line_length),
    timer_func_unmatched log10 st garbage_line (garbage_line_unmatched st.mode)]

/-! ### Sequences of actions -/

theorem held_after_append (held : List Nat) (l₁ l₂ : List Action) :
    held_after held (l₁ ++ l₂) = held_after (held_after held l₁) l₂ := by
  simp [held_after, List.foldl_append]

theorem held_after_cons (held : List Nat) (a : Action) (l : List Action) :
    held_after held (a :: l) = held_after (held_step held a) l := rfl

theorem stores_guarded_append (i : Nat) (l₁ l₂ : List Action) (held : List Nat) :
    stores_guarded i held (l₁ ++ l₂)
      = (stores_guarded i held l₁ && stores_guarded i (held_after held l₁) l₂) := by
  induction l₁ generalizing held with
  | nil => simp [stores_guarded, held_after]
  | cons a rest ih =>
    rw [List.cons_append]
    simp only [stores_guarded]
    rw [ih, held_after_cons, Bool.and_assoc]

theorem length_le_of_at_most_one_held (held : List Nat) (l : List Action)
    (h : at_most_one_held held l = true) : held.length ≤ 1 := by
  cases l with
  | nil => simpa [at_most_one_held] using h
  | cons a rest =>
    simp only [at_most_one_held, Bool.and_eq_true, decide_eq_true_eq] at h
    exact h.1

theorem at_most_one_held_append (l₁ l₂ : List Action) (held : List Nat)
    (h₁ : at_most_one_held held l₁ = true)
    (h₂ : at_most_one_held (held_after held l₁) l₂ = true) :
    at_most_one_held held (l₁ ++ l₂) = true := by
  induction l₁ generalizing held with
  | nil => exact h₂
  | cons a rest ih =>
    simp only [at_most_one_held, Bool.and_eq_true, decide_eq_true_eq] at h₁
    simp only [List.cons_append, at_most_one_held, Bool.and_eq_true, decide_eq_true_eq]
    exact ⟨h₁.1, ih _ h₁.2 h₂⟩

theorem at_most_one_held_take (l : List Action) (held : List Nat)
    (h : at_most_one_held held l = true) (k : Nat) :
    (held_after held (l.take k)).length ≤ 1 := by
  induction l generalizing held k with
  | nil => simpa [held_after, at_most_one_held] using h
  | cons a rest ih =>
    cases k with
    | zero => exact length_le_of_at_most_one_held _ _ h
    | succ k =>
      simp only [at_most_one_held, Bool.and_eq_true, decide_eq_true_eq] at h
      rw [List.take_succ_cons, held_after_cons]
      exact ih _ h.2 k

theorem held_after_stores (i : Nat) (l : List Action) (hl : ∀ a ∈ l, a = Action.store i)
    (held : List Nat) : held_after held l = held := by
  induction l with
  | nil => rfl
  | cons a rest ih =>
    rw [held_after_cons, hl a (List.mem_cons_self _ _)]
    exact ih (fun b hb => hl b (List.mem_cons_of_mem _ hb))

theorem stores_guarded_stores (i j : Nat) (l : List Action)
    (hl : ∀ a ∈ l, a = Action.store i) (held : List Nat) (h : j ∈ held) :
    stores_guarded j held l = true := by
  induction l with
  | nil => rfl
  | cons a rest ih =>
    rw [hl a (List.mem_cons_self _ _)]
    simp only [stores_guarded, held_step, ih (fun b hb => hl b (List.mem_cons_of_mem _ hb)),
      Bool.and_true, Bool.or_eq_true, decide_eq_true_eq]
    exact Or.inr h

theorem at_most_one_held_stores (i : Nat) (l : List Action)
    (hl : ∀ a ∈ l, a = Action.store i) (held : List Nat) (h : held.length ≤ 1) :
    at_most_one_held held l = true := by
  induction l with
  | nil => simpa [at_most_one_held] using h
  | cons a rest ih =>
    rw [hl a (List.mem_cons_self _ _)]
    simp only [at_most_one_held, held_step,
      ih (fun b hb => hl b (List.mem_cons_of_mem _ hb)), Bool.and_true, decide_eq_true_eq]
    exact h

theorem sem_ops_stores (i : Nat) (l : List Action) (hl : ∀ a ∈ l, a = Action.store i) :
    sem_ops l = [] := by
  induction l with
  | nil => rfl
  | cons a rest ih =>
    have h := ih (fun b hb => hl b (List.mem_cons_of_mem _ hb))
    rw [hl a (List.mem_cons_self _ _)]
    simp only [sem_ops] at h ⊢
    simp [List.filter, h]

theorem display_publish_actions_stores (st : State) (inst : InstanceData) :
    ∀ a ∈ display_publish_actions st inst, a = Action.store inst.instance_index := by
  intro a ha
  unfold display_publish_actions at ha
  cases hm : st.mode with
  | COUNT_MODE =>
    rw [hm] at ha
    simp only at ha
    split_ifs at ha
    · exact List.eq_of_mem_replicate ha
    · exact absurd ha (List.not_mem_nil _)
  | FIT_TEST_MODE =>
    rw [hm] at ha
    simp only [List.mem_append] at ha
    rcases ha with ((ha | ha) | ha) | ha <;> split_ifs at ha <;>
      first
        | exact List.eq_of_mem_replicate ha
        | exact absurd ha (List.not_mem_nil _)

theorem peer_visits_held (self : Nat) (l : List Nat) :
    held_after []
        (l.flatMap (fun i =>
          if i = self then [] else [Action.sem_wait i, Action.load i, Action.sem_post i]))
      = [] := by
  induction l with
  | nil => rfl
  | cons x xs ih =>
    rw [List.flatMap_cons, held_after_append]
    by_cases hx : x = self
    · simp only [hx, if_true]
      exact ih
    · simp only [hx, if_false]
      have : held_after [] [Action.sem_wait x, Action.load x, Action.sem_post x] = [] := by
        simp [held_after, held_step]
      rw [this]
      exact ih

theorem peer_visits_at_most_one (self : Nat) (l : List Nat) :
    at_most_one_held []
        (l.flatMap (fun i =>
          if i = self then [] else [Action.sem_wait i, Action.load i, Action.sem_post i]))
      = true := by
  induction l with
  | nil => rfl
  | cons x xs ih =>
    rw [List.flatMap_cons]
    by_cases hx : x = self
    · simp only [hx, if_true, List.nil_append]
      exact ih
    · simp only [hx, if_false]
      apply at_most_one_held_append
      · simp [at_most_one_held, held_step]
      · have : held_after [] [Action.sem_wait x, Action.load x, Action.sem_post x] = [] := by
          simp [held_after, held_step]
        rw [this]
        exact ih

theorem peer_visits_guarded (self j : Nat) (l : List Nat) :
    stores_guarded j []
        (l.flatMap (fun i =>
          if i = self then [] else [Action.sem_wait i, Action.load i, Action.sem_post i]))
      = true := by
  induction l with
  | nil => rfl
  | cons x xs ih =>
    rw [List.flatMap_cons]
    by_cases hx : x = self
    · simp only [hx, if_true, List.nil_append]
      exact ih
    · simp only [hx, if_false]
      rw [stores_guarded_append]
      have : held_after [] [Action.sem_wait x, Action.load x, Action.sem_post x] = [] := by
        simp [held_after, held_step]
      rw [this, ih]
      simp [stores_guarded, Action.mutates]

theorem sem_ops_append (l₁ l₂ : List Action) : sem_ops (l₁ ++ l₂) = sem_ops l₁ ++ sem_ops l₂ := by
  simp [sem_ops]

theorem sem_ops_peer_visits (self : Nat) (l : List Nat) :
    sem_ops
        (l.flatMap (fun i =>
          if i = self then [] else [Action.sem_wait i, Action.load i, Action.sem_post i]))
      = (l.filter (fun i => i ≠ self)).flatMap
          (fun i => [Action.sem_wait i, Action.sem_post i]) := by
  induction l with
  | nil => rfl
  | cons x xs ih =>
    rw [List.flatMap_cons, sem_ops_append, ih]
    by_cases hx : x = self
    · simp [hx, sem_ops]
    · simp [hx, sem_ops, List.filter]

theorem held_after_display_publish (st : State) (inst : InstanceData) :
    held_after []
        ([Action.sem_wait inst.instance_index] ++ display_publish_actions st inst
          ++ [Action.sem_post inst.instance_index])
      = [] := by
  rw [held_after_append, held_after_append,
    held_after_stores _ _ (display_publish_actions_stores st inst)]
  simp [held_after, held_step]

theorem display_actions_guarded (st : State) (inst : InstanceData) :
    stores_guarded inst.instance_index [] (display_actions st inst) = true := by
  unfold display_actions
  rw [stores_guarded_append, held_after_display_publish, peer_visits_guarded,
    stores_guarded_append, stores_guarded_append,
    held_after_append, held_after_stores _ _ (display_publish_actions_stores st inst)]
  have h1 : held_after [] [Action.sem_wait inst.instance_index] = [inst.instance_index] := rfl
  rw [h1, stores_guarded_stores _ _ _ (display_publish_actions_stores st inst) _
    (List.mem_singleton.mpr rfl)]
  simp [stores_guarded, Action.mutates]

theorem display_actions_at_most_one (st : State) (inst : InstanceData) :
    at_most_one_held [] (display_actions st inst) = true := by
  unfold display_actions
  apply at_most_one_held_append
  · apply at_most_one_held_append
    · apply at_most_one_held_append
      · simp [at_most_one_held, held_step]
      · exact at_most_one_held_stores _ _ (display_publish_actions_stores st inst) _
          (by simp [held_after, held_step])
    · rw [held_after_append, held_after_stores _ _ (display_publish_actions_stores st inst)]
      simp [at_most_one_held, held_after, held_step]
  · rw [held_after_display_publish]
    exact peer_visits_at_most_one _ _

theorem display_actions_not_mutates (st : State) (inst : InstanceData) (j : Nat)
    (hj : j ≠ inst.instance_index) :
    ∀ a ∈ display_actions st inst, a.mutates j = false := by
  intro a ha
  unfold display_actions at ha
  simp only [List.mem_append, List.mem_singleton, List.mem_flatMap, List.mem_range] at ha
  rcases ha with ((rfl | ha) | rfl) | ⟨i, _, ha⟩
  · rfl
  · rw [display_publish_actions_stores st inst a ha]
    simp [Action.mutates, Ne.symm hj]
  · rfl
  · split_ifs at ha
    · exact absurd ha (List.not_mem_nil _)
    · simp only [List.mem_cons, List.mem_singleton, List.not_mem_nil, or_false] at ha
      rcases ha with rfl | rfl | rfl <;> rfl

theorem init_maps_peer_read_only (inst : InstanceData) (polls : Nat → Nat) (j : Nat)
    (hj : j ≠ inst.instance_index) (w : Bool)
    (h : Action.mmap_data j w ∈ init_shared_memory_actions inst polls
      ∨ Action.open_data j w ∈ init_shared_memory_actions inst polls) :
    w = false := by
  unfold init_shared_memory_actions at h
  simp only [List.mem_append, List.mem_flatMap, List.mem_range, List.mem_cons,
    List.mem_singleton, List.not_mem_nil, or_false, reduceCtorEq, false_or,
    Action.mmap_data.injEq, Action.open_data.injEq] at h
  rcases h with h | h
  · rcases h with (⟨i, _, rfl, rfl⟩ | ⟨i, _, h⟩)
    · simpa using Ne.symm hj
    · split_ifs at h
      · exact absurd h (List.not_mem_nil _)
      · simp at h
        obtain ⟨l, ⟨_, rfl⟩, hl⟩ := h
        simp at hl
  · rcases h with (⟨i, _, rfl, rfl⟩ | ⟨i, _, h⟩)
    · simpa using Ne.symm hj
    · split_ifs at h
      · exact absurd h (List.not_mem_nil _)
      · simp at h
        obtain ⟨l, ⟨_, rfl⟩, hl⟩ := h
        simp at hl

/-! ### Double arithmetic -/

theorem compute_y_axis_span_ge (min max default_min default_max : ℚ) :
    (compute_y_axis min max default_min default_max).1 + 1
      ≤ (compute_y_axis min max default_min default_max).2.1 := by
  by_cases h : ceil max < floor min
  · rw [compute_y_axis_of_lt _ _ _ _ h]
    dsimp only
    split_ifs with h2 <;> linarith
  · rw [compute_y_axis_of_not_lt _ _ _ _ h]
    dsimp only
    split_ifs with h2 <;> linarith

theorem display_local_span (st : State) (q : Quantity) :
    (display_local st q).1 + 1 ≤ (display_local st q).2.1 := by
  cases q <;> exact compute_y_axis_span_ge _ _ _ _

theorem rint_eq_intCast (x : ℚ) : ∃ n : ℤ, rint x = (n : ℚ) ∧ Int.floor x ≤ n :=
  by
  unfold rint
  split_ifs
  · exact ⟨_, rfl, le_refl _⟩
  · exact ⟨_, rfl, by omega⟩
  · exact ⟨_, rfl, le_refl _⟩
  · exact ⟨_, rfl, by omega⟩

theorem one_le_rint (x : ℚ) (h : 1 ≤ x) : 1 ≤ rint x := by
  obtain ⟨n, hn, hle⟩ := rint_eq_intCast x
  have h1 : (1 : ℤ) ≤ Int.floor x := Int.le_floor.mpr (by exact_mod_cast h)
  rw [hn]
  exact_mod_cast le_trans h1 hle

theorem display_range_bounds (st : State) (inst : InstanceData)
    (shared : Nat → SharedMemoryBuffer) (q : Quantity) (hq : q.mode = st.mode) :
    ∃ mergedMin mergedMax : ℚ,
      (display st inst shared).2.range q = some (mergedMin, mergedMax)
      ∧ mergedMin ≤ (display_local st q).1
      ∧ (display_local st q).2.1 ≤ mergedMax := by
  have h := range_display_merge_visiting st shared (peers inst) q hq
  rw [← display_axes_eq st inst shared] at h
  exact ⟨_, _, h, (foldl_merge_step_fst_le q _ _).1, (foldl_merge_step_snd_ge q _ _).1⟩

theorem rint_intCast (n : ℤ) : rint (n : ℚ) = (n : ℚ) := by
  unfold rint
  rw [Int.floor_intCast, sub_self, if_pos (by norm_num)]

theorem ulp_pos (x : ℚ) : 0 < ulp x := zpow_pos (by norm_num) _

theorem log_le_53 (m : ℕ) (h1 : 1 ≤ m) (h2 : m ≤ 2 ^ 53) :
    0 ≤ Int.log 2 (m : ℚ) ∧ Int.log 2 (m : ℚ) ≤ 53
      ∧ (Int.log 2 (m : ℚ) = 53 → m = 2 ^ 53) := by
  rw [Int.log_natCast]
  have hlt : Nat.log 2 m < 54 :=
    Nat.log_lt_of_lt_pow (by omega) (lt_of_le_of_lt h2 (by norm_num))
  refine ⟨by positivity, by omega, fun h => ?_⟩
  have h53 : Nat.log 2 m = 53 := by exact_mod_cast h
  have := Nat.pow_log_le_self 2 (show m ≠ 0 by omega)
  rw [h53] at this
  omega

theorem div_ulp_natCast (m : ℕ) (h1 : 1 ≤ m) (h2 : m ≤ 2 ^ 53) :
    ∃ k : ℤ, (m : ℚ) / ulp (m : ℚ) = (k : ℚ) := by
  obtain ⟨h0, h53, heq⟩ := log_le_53 m h1 h2
  have habs : |(m : ℚ)| = (m : ℚ) := abs_of_nonneg (by positivity)
  unfold ulp
  rw [habs, max_eq_left (by omega)]
  by_cases h : Int.log 2 (m : ℚ) = 53
  · rw [h, heq h]
    exact ⟨2 ^ 52, by norm_num⟩
  · obtain ⟨j, hj⟩ : ∃ j : ℕ, Int.log 2 (m : ℚ) - 52 = -(j : ℤ) :=
      ⟨(52 - Int.log 2 (m : ℚ)).toNat, by rw [Int.toNat_of_nonneg (by omega)]; ring⟩
    rw [hj, zpow_neg, zpow_natCast, div_inv_eq_mul]
    exact ⟨(m : ℤ) * 2 ^ j, by push_cast; ring⟩

theorem two_pow_53_le_mul (P : ℕ) (hP : 1 < P) : 2 ^ 53 ≤ (2 ^ 53 - 1) * P := by
  omega

theorem two_pow_53_le_DBL_MAX : ((2 ^ 53 : ℕ) : ℚ) ≤ DBL_MAX := by
  unfold DBL_MAX
  exact Nat.cast_le.mpr (two_pow_53_le_mul _ (one_lt_pow₀ (by norm_num) (by norm_num)))

theorem round_zero : Double.round 0 = Double.finite 0 := by
  have h0 : rint ((0 : ℚ) / ulp 0) * ulp 0 = 0 := by
    have := rint_intCast 0
    rw [Int.cast_zero] at this
    rw [zero_div, this, zero_mul]
  have hpos := DBL_MAX_pos
  unfold Double.round
  rw [h0, if_neg (by linarith), if_neg (by linarith)]

theorem round_natCast (m : ℕ) (h2 : m ≤ 2 ^ 53) :
    Double.round (m : ℚ) = Double.finite (m : ℚ)
    ∧ Double.round (-(m : ℚ)) = Double.finite (-(m : ℚ)) := by
  have hD : (m : ℚ) ≤ DBL_MAX :=
    le_trans (Nat.cast_le.mpr h2) two_pow_53_le_DBL_MAX
  have hm0 : (0 : ℚ) ≤ (m : ℚ) := Nat.cast_nonneg m
  by_cases h1 : 1 ≤ m
  · obtain ⟨k, hk⟩ := div_ulp_natCast m h1 h2
    have hu : ulp (-(m : ℚ)) = ulp (m : ℚ) := by unfold ulp; rw [abs_neg]
    have hne := (ulp_pos (m : ℚ)).ne'
    have hp : rint ((m : ℚ) / ulp (m : ℚ)) * ulp (m : ℚ) = (m : ℚ) := by
      rw [hk, rint_intCast, ← hk, div_mul_cancel₀ _ hne]
    have hn : rint (-(m : ℚ) / ulp (-(m : ℚ))) * ulp (-(m : ℚ)) = -(m : ℚ) := by
      have hk' : -(m : ℚ) / ulp (m : ℚ) = ((-k : ℤ) : ℚ) := by
        rw [neg_div, hk]
        push_cast
        rfl
      rw [hu, hk', rint_intCast, ← hk', div_mul_cancel₀ _ hne]
    unfold Double.round
    rw [hp, hn]
    constructor
    · rw [if_neg (not_lt.mpr hD), if_neg (by linarith)]
    · rw [if_neg (by linarith), if_neg (by linarith)]
  · have hm : m = 0 := by omega
    subst hm
    rw [Nat.cast_zero, neg_zero]
    exact ⟨round_zero, round_zero⟩

theorem round_intCast (n : ℤ) (h : |n| ≤ 2 ^ 53) :
    Double.round (n : ℚ) = Double.finite (n : ℚ) := by
  obtain ⟨m, hm⟩ := Int.eq_nat_or_neg n
  have hb : m ≤ 2 ^ 53 := by
    rcases hm with rfl | rfl
    · rw [abs_of_nonneg (Int.natCast_nonneg m)] at h
      exact_mod_cast h
    · rw [abs_neg, abs_of_nonneg (Int.natCast_nonneg m)] at h
      exact_mod_cast h
  rcases hm with rfl | rfl
  · rw [Int.cast_natCast]
    exact (round_natCast m hb).1
  · rw [Int.cast_neg, Int.cast_natCast]
    exact (round_natCast m hb).2

theorem round_two_pow_53_add_one :
    Double.round (9007199254740992 + 1) = Double.finite 9007199254740992 := by
  have hx : (9007199254740992 + 1 : ℚ) = ((9007199254740993 : ℕ) : ℚ) := by norm_num
  have hlog : Int.log 2 (9007199254740992 + 1 : ℚ) = 53 := by
    rw [hx, Int.log_natCast]
    have : Nat.log 2 9007199254740993 = 53 :=
      (Nat.log_eq_iff (Or.inl (by norm_num))).mpr ⟨by norm_num, by norm_num⟩
    rw [this]
    rfl
  have hu : ulp (9007199254740992 + 1) = 2 := by
    unfold ulp
    rw [abs_of_nonneg (by norm_num), hlog]
    norm_num
  have hf : Int.floor ((9007199254740992 + 1 : ℚ) / 2) = 4503599627370496 := by
    rw [Int.floor_eq_iff]
    norm_num
  have hr : rint ((9007199254740992 + 1 : ℚ) / 2) = 4503599627370496 := by
    unfold rint
    rw [hf]
    norm_num
  have hD := two_pow_53_le_DBL_MAX
  have hpos := DBL_MAX_pos
  have h53 : ((2 ^ 53 : ℕ) : ℚ) = 9007199254740992 := by norm_num
  rw [h53] at hD
  unfold Double.round
  rw [hu, hr]
  rw [if_neg (by linarith), if_neg (by linarith)]
  norm_num

theorem compute_y_axis_double_two_pow_53 :
    compute_y_axis_double (Double.finite 9007199254740992) (Double.finite 9007199254740992)
        (Double.finite (-3)) (Double.finite 5)
      = (Double.finite 9007199254740992, Double.finite 9007199254740992, false) := by
  have hfl : floor (9007199254740992 : ℚ) = 9007199254740992 := by
    have := floor_natCast 9007199254740992
    exact_mod_cast this
  have hce : ceil (9007199254740992 : ℚ) = 9007199254740992 := by
    unfold ceil
    have : Int.ceil (9007199254740992 : ℚ) = 9007199254740992 := by
      rw [Int.ceil_eq_iff]
      norm_num
    rw [this]
    norm_num
  have hsub : Double.sub (Double.finite 9007199254740992) (Double.finite 9007199254740992)
      = Double.finite 0 := by
    show Double.round (9007199254740992 - 9007199254740992) = _
    rw [sub_self, round_zero]
  have hadd : Double.add (Double.finite 9007199254740992) (Double.finite 1)
      = Double.finite 9007199254740992 := round_two_pow_53_add_one
  have hlt1 : Double.lt (Double.finite 9007199254740992) (Double.finite 9007199254740992)
      = false := by
    show decide ((9007199254740992 : ℚ) < 9007199254740992) = false
    simp
  have hlt2 : Double.lt (Double.finite 0) (Double.finite 1) = true := by
    show decide ((0 : ℚ) < 1) = true
    simp
  simp only [compute_y_axis_double, Double.floor, Double.ceil, hfl, hce, hlt1, hsub, hlt2,
    hadd, Bool.false_eq_true, if_false, if_true]

theorem compute_y_axis_double_of_exact (seriesMin seriesMax defaultMin defaultMax : ℚ)
    (hsub : Double.round
        ((if ceil seriesMax < floor seriesMin then defaultMax else ceil seriesMax)
          - (if ceil seriesMax < floor seriesMin then defaultMin else floor seriesMin))
      = Double.finite
        ((if ceil seriesMax < floor seriesMin then defaultMax else ceil seriesMax)
          - (if ceil seriesMax < floor seriesMin then defaultMin else floor seriesMin)))
    (hadd :
      (if ceil seriesMax < floor seriesMin then defaultMax else ceil seriesMax)
          - (if ceil seriesMax < floor seriesMin then defaultMin else floor seriesMin) < 1 →
      Double.round
          ((if ceil seriesMax < floor seriesMin then defaultMin else floor seriesMin) + 1)
        = Double.finite
          ((if ceil seriesMax < floor seriesMin then defaultMin else floor seriesMin) + 1)) :
    compute_y_axis_double (Double.finite seriesMin) (Double.finite seriesMax)
        (Double.finite defaultMin) (Double.finite defaultMax)
      = (Double.finite (compute_y_axis seriesMin seriesMax defaultMin defaultMax).1,
         Double.finite (compute_y_axis seriesMin seriesMax defaultMin defaultMax).2.1,
         (compute_y_axis seriesMin seriesMax defaultMin defaultMax).2.2) := by
  by_cases hdef : ceil seriesMax < floor seriesMin
  · rw [if_pos hdef, if_pos hdef] at hsub hadd
    rw [compute_y_axis_of_lt _ _ _ _ hdef]
    have hlt : Double.lt (Double.finite (ceil seriesMax)) (Double.finite (floor seriesMin))
        = true := by
      show decide (ceil seriesMax < floor seriesMin) = true
      exact decide_eq_true hdef
    have hs : Double.sub (Double.finite defaultMax) (Double.finite defaultMin)
        = Double.finite (defaultMax - defaultMin) := hsub
    by_cases hg : defaultMax - defaultMin < 1
    · have ha : Double.add (Double.finite defaultMin) (Double.finite 1)
          = Double.finite (defaultMin + 1) := hadd hg
      have hl : Double.lt (Double.finite (defaultMax - defaultMin)) (Double.finite 1)
          = true := by
        show decide (defaultMax - defaultMin < 1) = true
        exact decide_eq_true hg
      simp only [compute_y_axis_double, Double.floor, Double.ceil, hlt, hs, hl, ha, if_true,
        if_pos hg]
    · have hl : Double.lt (Double.finite (defaultMax - defaultMin)) (Double.finite 1)
          = false := by
        show decide (defaultMax - defaultMin < 1) = false
        exact decide_eq_false hg
      simp only [compute_y_axis_double, Double.floor, Double.ceil, hlt, hs, hl, if_true,
        if_neg hg, Bool.false_eq_true, if_false]
  · rw [if_neg hdef, if_neg hdef] at hsub hadd
    rw [compute_y_axis_of_not_lt _ _ _ _ hdef]
    have hlt : Double.lt (Double.finite (ceil seriesMax)) (Double.finite (floor seriesMin))
        = false := by
      show decide (ceil seriesMax < floor seriesMin) = false
      exact decide_eq_false hdef
    have hs : Double.sub (Double.finite (ceil seriesMax)) (Double.finite (floor seriesMin))
        = Double.finite (ceil seriesMax - floor seriesMin) := hsub
    by_cases hg : ceil seriesMax - floor seriesMin < 1
    · have ha : Double.add (Double.finite (floor seriesMin)) (Double.finite 1)
          = Double.finite (floor seriesMin + 1) := hadd hg
      have hl : Double.lt (Double.finite (ceil seriesMax - floor seriesMin))
          (Double.finite 1) = true := by
        show decide (ceil seriesMax - floor seriesMin < 1) = true
        exact decide_eq_true hg
      simp only [compute_y_axis_double, Double.floor, Double.ceil, hlt, hs, hl, ha, if_true,
        if_pos hg, Bool.false_eq_true, if_false]
    · have hl : Double.lt (Double.finite (ceil seriesMax - floor seriesMin))
          (Double.finite 1) = false := by
        show decide (ceil seriesMax - floor seriesMin < 1) = false
        exact decide_eq_false hg
      simp only [compute_y_axis_double, Double.floor, Double.ceil, hlt, hs, hl,
        if_neg hg, Bool.false_eq_true, if_false]

/-! ### C1 -/

/-- C3, as stated, fails. In double arithmetic the sum `y_axis_min + 1.0` is absorbed from
2^53 on: for the input (2^53, 2^53, -3, 5) the guard finds the span 0 below 1 and sets
`y_axis_max = 2^53 + 1.0`, which rounds to 2^53, so the returned bounds are (2^53, 2^53)
and axisMax >= axisMin + 1 is false. For NaN series bounds both tests of the function are
false and it returns (NaN, NaN). -/
theorem compute_y_axis_span_counterexample :
    compute_y_axis_double (Double.finite 9007199254740992) (Double.finite 9007199254740992)
        (Double.finite (-3)) (Double.finite 5)
      = (Double.finite 9007199254740992, Double.finite 9007199254740992, false)
    ∧ ¬ ((9007199254740992 : ℚ) ≥ 9007199254740992 + 1)
    ∧ compute_y_axis_double Double.nan Double.nan (Double.finite (-3)) (Double.finite 5)
      = (Double.nan, Double.nan, false) := by
  refine ⟨compute_y_axis_double_two_pow_53, by norm_num, ?_⟩
  simp [compute_y_axis_double, Double.floor, Double.ceil, Double.lt, Double.sub]

/-- C3, amended. For every finite input (seriesMin, seriesMax, defaultMin, defaultMax) of
compute_y_axis, including defaults whose span is below 1 or inverted, on which the
difference axisMax - axisMin that the function evaluates, and the sum axisMin + 1.0 when it
evaluates it, are exact in double arithmetic (representable, not rounded), the returned
bounds are finite and satisfy axisMax >= axisMin + 1. -/
theorem compute_y_axis_double_span (seriesMin seriesMax defaultMin defaultMax : ℚ)
    (hsub : Double.round
        ((if ceil seriesMax < floor seriesMin then defaultMax else ceil seriesMax)
          - (if ceil seriesMax < floor seriesMin then defaultMin else floor seriesMin))
      = Double.finite
        ((if ceil seriesMax < floor seriesMin then defaultMax else ceil seriesMax)
          - (if ceil seriesMax < floor seriesMin then defaultMin else floor seriesMin)))
    (hadd :
      (if ceil seriesMax < floor seriesMin then defaultMax else ceil seriesMax)
          - (if ceil seriesMax < floor seriesMin then defaultMin else floor seriesMin) < 1 →
      Double.round
          ((if ceil seriesMax < floor seriesMin then defaultMin else floor seriesMin) + 1)
        = Double.finite
          ((if ceil seriesMax < floor seriesMin then defaultMin else floor seriesMin) + 1)) :
    ∃ (axisMin axisMax : ℚ) (default_used : Bool),
      compute_y_axis_double (Double.finite seriesMin) (Double.finite seriesMax)
          (Double.finite defaultMin) (Double.finite defaultMax)
        = (Double.finite axisMin, Double.finite axisMax, default_used)
      ∧ axisMax ≥ axisMin + 1 :=
  ⟨_, _, _,
    compute_y_axis_double_of_exact seriesMin seriesMax defaultMin defaultMax hsub hadd,
    compute_y_axis_span_ge seriesMin seriesMax defaultMin defaultMax⟩

/-- Witness of `compute_y_axis_double_span`: the series bounds (3, 3) with the defaults
(-3, 5), where the function evaluates 3 - 3 and 3 + 1.0. -/
theorem compute_y_axis_double_span_witness :
    (Double.round
        ((if ceil (3 : ℚ) < floor (3 : ℚ) then (5 : ℚ) else ceil (3 : ℚ))
          - (if ceil (3 : ℚ) < floor (3 : ℚ) then (-3 : ℚ) else floor (3 : ℚ)))
      = Double.finite
        ((if ceil (3 : ℚ) < floor (3 : ℚ) then (5 : ℚ) else ceil (3 : ℚ))
          - (if ceil (3 : ℚ) < floor (3 : ℚ) then (-3 : ℚ) else floor (3 : ℚ)))
      ∧ ((if ceil (3 : ℚ) < floor (3 : ℚ) then (5 : ℚ) else ceil (3 : ℚ))
          - (if ceil (3 : ℚ) < floor (3 : ℚ) then (-3 : ℚ) else floor (3 : ℚ)) < 1 →
        Double.round
            ((if ceil (3 : ℚ) < floor (3 : ℚ) then (-3 : ℚ) else floor (3 : ℚ)) + 1)
          = Double.finite
            ((if ceil (3 : ℚ) < floor (3 : ℚ) then (-3 : ℚ) else floor (3 : ℚ)) + 1)))
    ∧ ∃ (axisMin axisMax : ℚ) (default_used : Bool),
      compute_y_axis_double (Double.finite 3) (Double.finite 3)
          (Double.finite (-3)) (Double.finite 5)
        = (Double.finite axisMin, Double.finite axisMax, default_used)
      ∧ axisMax ≥ axisMin + 1 := by
  have hf : floor (3 : ℚ) = 3 := by
    have := floor_natCast 3
    exact_mod_cast this
  have hc : ceil (3 : ℚ) = 3 := by
    unfold ceil
    have : Int.ceil (3 : ℚ) = 3 := by
      rw [Int.ceil_eq_iff]
      norm_num
    rw [this]
    norm_num
  have h1 : Double.round
        ((if ceil (3 : ℚ) < floor (3 : ℚ) then (5 : ℚ) else ceil (3 : ℚ))
          - (if ceil (3 : ℚ) < floor (3 : ℚ) then (-3 : ℚ) else floor (3 : ℚ)))
      = Double.finite
        ((if ceil (3 : ℚ) < floor (3 : ℚ) then (5 : ℚ) else ceil (3 : ℚ))
          - (if ceil (3 : ℚ) < floor (3 : ℚ) then (-3 : ℚ) else floor (3 : ℚ))) := by
    rw [hf, hc, if_neg (lt_irrefl _), if_neg (lt_irrefl _), sub_self]
    exact round_zero
  have h2 : (if ceil (3 : ℚ) < floor (3 : ℚ) then (5 : ℚ) else ceil (3 : ℚ))
          - (if ceil (3 : ℚ) < floor (3 : ℚ) then (-3 : ℚ) else floor (3 : ℚ)) < 1 →
        Double.round
            ((if ceil (3 : ℚ) < floor (3 : ℚ) then (-3 : ℚ) else floor (3 : ℚ)) + 1)
          = Double.finite
            ((if ceil (3 : ℚ) < floor (3 : ℚ) then (-3 : ℚ) else floor (3 : ℚ)) + 1) := by
    intro _
    rw [hf, hc, if_neg (lt_irrefl _)]
    have h4 := round_intCast 4 (by norm_num)
    have e : (3 + 1 : ℚ) = ((4 : ℤ) : ℚ) := by norm_num
    rw [e]
    exact h4
  exact ⟨⟨h1, h2⟩, compute_y_axis_double_span 3 3 (-3) 5 h1 h2⟩

/-! ### C4 -/

/-- C4. For every instance count, own index, current mode, local state and contents of the
shared records, and every quantity of the current mode, the merged bound produced by one
redraw cycle of `display` is (the minimum of the local min and the published mins, the
maximum of the local max and the published maxes) taken over exactly the peers `i != self`
with `i < total_instances` whose record has `valid = true`, mode tag equal to the current
mode and the quantity's valid flag set; peers failing any of the three tests contribute
nothing. -/
theorem display_merged_bound (st : State) (inst : InstanceData)
    (shared : Nat → SharedMemoryBuffer) (q : Quantity) (hq : q.mode = st.mode) :
    ∃ mergedMin mergedMax : ℚ,
      (display st inst shared).2.range q = some (mergedMin, mergedMax)
      ∧ IsLeast
          ({(display_local st q).1} ∪
            {x | ∃ i, i < inst.total_instances ∧ i ≠ inst.instance_index
              ∧ (shared i).valid = true ∧ (shared i).mode = st.mode
              ∧ (shared i).quantity_valid q = true ∧ x = (shared i).quantity_min q})
          mergedMin
      ∧ IsGreatest
          ({(display_local st q).2.1} ∪
            {x | ∃ i, i < inst.total_instances ∧ i ≠ inst.instance_index
              ∧ (shared i).valid = true ∧ (shared i).mode = st.mode
              ∧ (shared i).quantity_valid q = true ∧ x = (shared i).quantity_max q})
          mergedMax := by
  refine ⟨(((peers inst).map shared).foldl (merge_step q)
      ((display_local st q).1, (display_local st q).2.1)).1,
    (((peers inst).map shared).foldl (merge_step q)
      ((display_local st q).1, (display_local st q).2.1)).2, ?_, ?_, ?_⟩
  · rw [display_axes_eq, range_display_merge_visiting st shared (peers inst) q hq]
  · constructor
    · rcases foldl_merge_step_fst_mem q ((peers inst).map shared)
        ((display_local st q).1, (display_local st q).2.1) with h | ⟨s, hs, hp, h⟩
      · left
        exact h
      · right
        obtain ⟨i, hi, rfl⟩ := List.mem_map.mp hs
        obtain ⟨hv, hm, hqv⟩ := (published_iff _ _).mp hp
        exact ⟨i, ((mem_peers inst i).mp hi).1, ((mem_peers inst i).mp hi).2, hv,
          hm.trans hq, hqv, h⟩
    · rintro x (hx | ⟨i, hi, hne, hv, hm, hqv, rfl⟩)
      · rw [Set.mem_singleton_iff.mp hx]
        exact (foldl_merge_step_fst_le q _ _).1
      · exact (foldl_merge_step_fst_le q _ _).2 (shared i)
          (List.mem_map.mpr ⟨i, (mem_peers inst i).mpr ⟨hi, hne⟩, rfl⟩)
          ((published_iff _ _).mpr ⟨hv, hm.trans hq.symm, hqv⟩)
  · constructor
    · rcases foldl_merge_step_snd_mem q ((peers inst).map shared)
        ((display_local st q).1, (display_local st q).2.1) with h | ⟨s, hs, hp, h⟩
      · left
        exact h
      · right
        obtain ⟨i, hi, rfl⟩ := List.mem_map.mp hs
        obtain ⟨hv, hm, hqv⟩ := (published_iff _ _).mp hp
        exact ⟨i, ((mem_peers inst i).mp hi).1, ((mem_peers inst i).mp hi).2, hv,
          hm.trans hq, hqv, h⟩
    · rintro x (hx | ⟨i, hi, hne, hv, hm, hqv, rfl⟩)
      · rw [Set.mem_singleton_iff.mp hx]
        exact (foldl_merge_step_snd_ge q _ _).1
      · exact (foldl_merge_step_snd_ge q _ _).2 (shared i)
          (List.mem_map.mpr ⟨i, (mem_peers inst i).mpr ⟨hi, hne⟩, rfl⟩)
          ((published_iff _ _).mpr ⟨hv, hm.trans hq.symm, hqv⟩)

/-- Witness of `display_merged_bound`: three instances at process start, instance 0
redrawing in COUNT_MODE. -/
theorem display_merged_bound_witness :
    Quantity.count.mode = State.initial.mode
    ∧ ∃ mergedMin mergedMax : ℚ,
      (display State.initial { total_instances := 3, instance_index := 0 }
          (fun _ => SharedMemoryBuffer.initial)).2.range Quantity.count
        = some (mergedMin, mergedMax)
      ∧ IsLeast
          ({(display_local State.initial Quantity.count).1} ∪
            {x | ∃ i, i < 3 ∧ i ≠ 0
              ∧ SharedMemoryBuffer.initial.valid = true
              ∧ SharedMemoryBuffer.initial.mode = State.initial.mode
              ∧ SharedMemoryBuffer.initial.quantity_valid Quantity.count = true
              ∧ x = SharedMemoryBuffer.initial.quantity_min Quantity.count})
          mergedMin
      ∧ IsGreatest
          ({(display_local State.initial Quantity.count).2.1} ∪
            {x | ∃ i, i < 3 ∧ i ≠ 0
              ∧ SharedMemoryBuffer.initial.valid = true
              ∧ SharedMemoryBuffer.initial.mode = State.initial.mode
              ∧ SharedMemoryBuffer.initial.quantity_valid Quantity.count = true
              ∧ x = SharedMemoryBuffer.initial.quantity_max Quantity.count})
          mergedMax :=
  ⟨rfl, display_merged_bound State.initial { total_instances := 3, instance_index := 0 }
    (fun _ => SharedMemoryBuffer.initial) Quantity.count rfl⟩

/-! ### C5 -/

/-- C5. The peer merge of `display` is independent of the peer-visit order: running the
merge loop over any permutation `visit` of the peer indices gives the axis ranges `display`
computes, and for every local bound and every two lists of peer records that are
permutations of each other, folding the COUNT_MODE loop body and folding the FIT_TEST_MODE
loop body (all three quantities) give the same merged ranges. -/
theorem display_merge_order_independent (st : State) (inst : InstanceData)
    (shared : Nat → SharedMemoryBuffer) (visit : List Nat) (l₁ l₂ : List SharedMemoryBuffer)
    (hv : visit.Perm (peers inst)) (hl : l₁.Perm l₂) :
    display_merge_visiting st shared visit = (display st inst shared).2
    ∧ (∀ a : CountAxes,
        l₁.foldl display_count_merge_body a = l₂.foldl display_count_merge_body a)
    ∧ (∀ a : FitTestAxes,
        l₁.foldl display_fit_test_merge_body a = l₂.foldl display_fit_test_merge_body a) :=
  ⟨by rw [display_axes_eq, display_merge_visiting_perm st shared hv],
   foldl_count_merge_body_perm hl, foldl_fit_test_merge_body_perm hl⟩

/-- Witness of `display_merge_order_independent`: three instances, instance 1 visiting its
peers in the order 2, 0, and the two orders of a published and an initial record. -/
theorem display_merge_order_independent_witness :
    (List.Perm [2, 0] (peers { total_instances := 3, instance_index := 1 })
      ∧ List.Perm [record_count_2_6, SharedMemoryBuffer.initial]
          [SharedMemoryBuffer.initial, record_count_2_6])
    ∧ (display_merge_visiting State.initial shared_count_2_6 [2, 0]
        = (display State.initial { total_instances := 3, instance_index := 1 }
            shared_count_2_6).2
      ∧ (∀ a : CountAxes,
          [record_count_2_6, SharedMemoryBuffer.initial].foldl display_count_merge_body a
            = [SharedMemoryBuffer.initial, record_count_2_6].foldl display_count_merge_body a)
      ∧ (∀ a : FitTestAxes,
          [record_count_2_6, SharedMemoryBuffer.initial].foldl display_fit_test_merge_body a
            = [SharedMemoryBuffer.initial, record_count_2_6].foldl
                display_fit_test_merge_body a)) :=
  ⟨⟨List.Perm.swap 0 2 [], List.Perm.swap _ _ []⟩,
   display_merge_order_independent State.initial { total_instances := 3, instance_index := 1 }
     shared_count_2_6 [2, 0] _ _ (List.Perm.swap 0 2 []) (List.Perm.swap _ _ [])⟩

/-! ### C6 -/

/-- C6, as stated, fails. With 2 instances in COUNT mode, instance 0 holding the published
bounds (2, 6) and instance 1 having an empty count series, the claim says instance 1 merges
to exactly (2, 6); the code starts the merge from instance 1's own default bounds (-3, 5)
and yields (-3, 6). -/
theorem display_two_instances_counterexample :
    (¬ ∀ (st : State) (shared : Nat → SharedMemoryBuffer),
        st.mode = ModeType.COUNT_MODE →
        st.count_mode_data = Portacount.count_mode_data →
        (shared 0).valid = true → (shared 0).mode = ModeType.COUNT_MODE →
        (shared 0).count_mode.y_axis_valid = true →
        (shared 0).count_mode.y_axis_min = 2 → (shared 0).count_mode.y_axis_max = 6 →
        (display st { total_instances := 2, instance_index := 1 } shared).2
          = Axes.count_mode { y_axis_min := 2, y_axis_max := 6 })
    ∧ (display State.initial { total_instances := 2, instance_index := 1 } shared_count_2_6).2
        = Axes.count_mode { y_axis_min := -3, y_axis_max := 6 } := by
  have h := display_two_instances_empty_sees_2_6 State.initial shared_count_2_6
    rfl rfl rfl rfl rfl rfl rfl
  refine ⟨fun hc => ?_, h⟩
  have h2 := hc State.initial shared_count_2_6 rfl rfl rfl rfl rfl rfl rfl
  rw [h] at h2
  simp only [Axes.count_mode.injEq, CountAxes.mk.injEq] at h2
  norm_num at h2

/-- C6, amended. With 2 instances in COUNT mode, where instance 0's record holds the
published count-mode bounds (2, 6) (valid, mode COUNT, y_axis_valid set) and instance 1 has
an empty count series, the merged count bounds computed by instance 1's redraw cycle are
exactly (-3, 6): its own default bounds (-3, 5) folded with the published (2, 6). -/
theorem display_two_instances_merged (st : State) (shared : Nat → SharedMemoryBuffer)
    (hmode : st.mode = ModeType.COUNT_MODE)
    (hempty : st.count_mode_data = Portacount.count_mode_data)
    (hvalid : (shared 0).valid = true) (hpmode : (shared 0).mode = ModeType.COUNT_MODE)
    (hflag : (shared 0).count_mode.y_axis_valid = true)
    (hmin : (shared 0).count_mode.y_axis_min = 2)
    (hmax : (shared 0).count_mode.y_axis_max = 6) :
    (display st { total_instances := 2, instance_index := 1 } shared).2
      = Axes.count_mode { y_axis_min := -3, y_axis_max := 6 } :=
  display_two_instances_empty_sees_2_6 st shared hmode hempty hvalid hpmode hflag hmin hmax

/-- Witness of `display_two_instances_merged`: instance 1 at process start, instance 0
having published (2, 6). -/
theorem display_two_instances_merged_witness :
    (State.initial.mode = ModeType.COUNT_MODE
      ∧ State.initial.count_mode_data = Portacount.count_mode_data
      ∧ (shared_count_2_6 0).valid = true
      ∧ (shared_count_2_6 0).mode = ModeType.COUNT_MODE
      ∧ (shared_count_2_6 0).count_mode.y_axis_valid = true
      ∧ (shared_count_2_6 0).count_mode.y_axis_min = 2
      ∧ (shared_count_2_6 0).count_mode.y_axis_max = 6)
    ∧ (display State.initial { total_instances := 2, instance_index := 1 } shared_count_2_6).2
        = Axes.count_mode { y_axis_min := -3, y_axis_max := 6 } :=
  ⟨⟨rfl, rfl, rfl, rfl, rfl, rfl, rfl⟩,
   display_two_instances_merged State.initial shared_count_2_6 rfl rfl rfl rfl rfl rfl rfl⟩

/-! ### C7 -/

/-- C7. The code at the failing input. The claim says a peer whose current local bounds of
a quantity are default (empty series) never affects the merged bound of another instance.
Peer 0 appends the count value 6, redraws (publishing (6, 7)), is reset with key x and
redraws again: its count series is empty and its local bounds are default, but the publish
step, skipped for default bounds (graph.cpp 401), leaves the published (6, 7) and all three
flags in its record. Instance 1 merges to (-3, 7), while with that peer left out it merges
to (-3, 5). -/
theorem default_peer_counterexample :
    (¬ ∀ (log10 : ℚ → ℚ) (peer : InstanceData) (events : List Event) (st : State)
        (inst : InstanceData) (shared : Nat → SharedMemoryBuffer) (q : Quantity),
        (display_local (run log10 peer events).1 q).2.2 = true →
        (run log10 peer events).1.series q = [] →
        peer.instance_index ≠ inst.instance_index →
        peer.instance_index < inst.total_instances →
        shared peer.instance_index = (run log10 peer events).2 →
        q.mode = st.mode →
        (display st inst shared).2.range q
          = (display_merge_visiting st shared
              ((peers inst).filter (fun i => i ≠ peer.instance_index))).range q)
    ∧ (run log10_sample instance_0_of_2 stale_peer_events).1.series Quantity.count = []
    ∧ (display_local (run log10_sample instance_0_of_2 stale_peer_events).1
        Quantity.count).2.2 = true
    ∧ (display State.initial instance_1_of_2
        (fun _ => (run log10_sample instance_0_of_2 stale_peer_events).2)).2
        = Axes.count_mode { y_axis_min := -3, y_axis_max := 7 }
    ∧ display_merge_visiting State.initial
        (fun _ => (run log10_sample instance_0_of_2 stale_peer_events).2)
        ((peers instance_1_of_2).filter (fun i => i ≠ instance_0_of_2.instance_index))
        = Axes.count_mode { y_axis_min := -3, y_axis_max := 5 } := by
  have hdef : (display_local (run log10_sample instance_0_of_2 stale_peer_events).1
      Quantity.count).2.2 = true := by
    rw [run_stale_peer]
    simp only [display_local]
    rw [display_count_local_empty State.initial rfl]
  have hser : (run log10_sample instance_0_of_2 stale_peer_events).1.series Quantity.count
      = [] := by
    rw [run_stale_peer]
    rfl
  have hwith : (display State.initial instance_1_of_2
      (fun _ => (run log10_sample instance_0_of_2 stale_peer_events).2)).2
      = Axes.count_mode { y_axis_min := -3, y_axis_max := 7 } := by
    apply display_initial_sees_6_7
    rw [run_stale_peer]
  have hfilter : (peers instance_1_of_2).filter (fun i => i ≠ instance_0_of_2.instance_index)
      = [] := by decide
  have hwithout : display_merge_visiting State.initial
      (fun _ => (run log10_sample instance_0_of_2 stale_peer_events).2)
      ((peers instance_1_of_2).filter (fun i => i ≠ instance_0_of_2.instance_index))
      = Axes.count_mode { y_axis_min := -3, y_axis_max := 5 } := by
    rw [hfilter]
    exact display_merge_visiting_initial_nil _
  refine ⟨fun hc => ?_, hser, hdef, hwith, hwithout⟩
  have h := hc log10_sample instance_0_of_2 stale_peer_events State.initial instance_1_of_2
    (fun _ => (run log10_sample instance_0_of_2 stale_peer_events).2) Quantity.count
    hdef hser (by decide) (by decide) rfl rfl
  rw [hwith, hwithout] at h
  simp only [Axes.range, Option.some.injEq, Prod.mk.injEq] at h
  norm_num at h

/-! ### C8 -/

/-- C8. The publish step of a redraw cycle writes a quantity's bounds into the own record
exactly when they are not default: for each quantity of the active mode, if isDefault is
false the own record afterwards holds that quantity's min and max equal to the local
bounds, its per-quantity valid flag true, the overall valid flag true and the mode tag
equal to the current mode; if isDefault is true that quantity's min, max and valid flag in
the own record are unchanged; and if every quantity of the active mode is default the whole
own record is unchanged. -/
theorem display_publish_own (st : State) (inst : InstanceData)
    (shared : Nat → SharedMemoryBuffer) (q : Quantity) (hq : q.mode = st.mode) :
    ((display_local st q).2.2 = false →
        ((display st inst shared).1 inst.instance_index).quantity_min q = (display_local st q).1
        ∧ ((display st inst shared).1 inst.instance_index).quantity_max q
            = (display_local st q).2.1
        ∧ ((display st inst shared).1 inst.instance_index).quantity_valid q = true
        ∧ ((display st inst shared).1 inst.instance_index).valid = true
        ∧ ((display st inst shared).1 inst.instance_index).mode = st.mode)
    ∧ ((display_local st q).2.2 = true →
        ((display st inst shared).1 inst.instance_index).quantity_min q
            = (shared inst.instance_index).quantity_min q
        ∧ ((display st inst shared).1 inst.instance_index).quantity_max q
            = (shared inst.instance_index).quantity_max q
        ∧ ((display st inst shared).1 inst.instance_index).quantity_valid q
            = (shared inst.instance_index).quantity_valid q)
    ∧ ((∀ q' : Quantity, q'.mode = st.mode → (display_local st q').2.2 = true) →
        (display st inst shared).1 inst.instance_index = shared inst.instance_index) := by
  rw [display_own_eq]
  unfold display_publish
  cases hm : st.mode with
  | COUNT_MODE =>
    rw [hm] at hq
    cases q <;> simp [Quantity.mode] at hq
    refine ⟨fun h => ?_, fun h => ?_, fun h => ?_⟩
    · simp only [display_local] at h
      simp [display_count_publish, h, SharedMemoryBuffer.quantity_min,
        SharedMemoryBuffer.quantity_max, SharedMemoryBuffer.quantity_valid, display_local]
    · simp only [display_local] at h
      simp [display_count_publish, h]
    · have h1 := h Quantity.count rfl
      simp only [display_local] at h1
      simp [display_count_publish, h1]
  | FIT_TEST_MODE =>
    rw [hm] at hq
    refine ⟨fun h => ?_, fun h => ?_, fun h => ?_⟩
    · cases q <;> simp [Quantity.mode] at hq <;> simp only [display_local] at h <;>
        simp only [display_fit_test_publish, h, SharedMemoryBuffer.quantity_min,
          SharedMemoryBuffer.quantity_max, SharedMemoryBuffer.quantity_valid, display_local]
        <;> split_ifs <;> simp_all
    · cases q <;> simp [Quantity.mode] at hq <;> simp only [display_local] at h <;>
        simp only [display_fit_test_publish, h, SharedMemoryBuffer.quantity_min,
          SharedMemoryBuffer.quantity_max, SharedMemoryBuffer.quantity_valid, display_local]
        <;> split_ifs <;> simp_all
    · have h1 := h Quantity.ambient rfl
      have h2 := h Quantity.sample rfl
      have h3 := h Quantity.fit_factor rfl
      simp only [display_local] at h1 h2 h3
      simp [display_fit_test_publish, h1, h2, h3]

/-- Witness of `display_publish_own`: instance 0 of 2 redrawing at process start. -/
theorem display_publish_own_witness :
    Quantity.count.mode = State.initial.mode
    ∧ (((display_local State.initial Quantity.count).2.2 = false →
        ((display State.initial instance_0_of_2 shared_count_2_6).1
            instance_0_of_2.instance_index).quantity_min Quantity.count
          = (display_local State.initial Quantity.count).1
        ∧ ((display State.initial instance_0_of_2 shared_count_2_6).1
            instance_0_of_2.instance_index).quantity_max Quantity.count
          = (display_local State.initial Quantity.count).2.1
        ∧ ((display State.initial instance_0_of_2 shared_count_2_6).1
            instance_0_of_2.instance_index).quantity_valid Quantity.count = true
        ∧ ((display State.initial instance_0_of_2 shared_count_2_6).1
            instance_0_of_2.instance_index).valid = true
        ∧ ((display State.initial instance_0_of_2 shared_count_2_6).1
            instance_0_of_2.instance_index).mode = State.initial.mode)
      ∧ ((display_local State.initial Quantity.count).2.2 = true →
        ((display State.initial instance_0_of_2 shared_count_2_6).1
            instance_0_of_2.instance_index).quantity_min Quantity.count
          = (shared_count_2_6 instance_0_of_2.instance_index).quantity_min Quantity.count
        ∧ ((display State.initial instance_0_of_2 shared_count_2_6).1
            instance_0_of_2.instance_index).quantity_max Quantity.count
          = (shared_count_2_6 instance_0_of_2.instance_index).quantity_max Quantity.count
        ∧ ((display State.initial instance_0_of_2 shared_count_2_6).1
            instance_0_of_2.instance_index).quantity_valid Quantity.count
          = (shared_count_2_6 instance_0_of_2.instance_index).quantity_valid Quantity.count)
      ∧ ((∀ q' : Quantity, q'.mode = State.initial.mode →
            (display_local State.initial q').2.2 = true) →
        (display State.initial instance_0_of_2 shared_count_2_6).1
            instance_0_of_2.instance_index
          = shared_count_2_6 instance_0_of_2.instance_index)) :=
  ⟨rfl, display_publish_own State.initial instance_0_of_2 shared_count_2_6 Quantity.count rfl⟩

/-! ### C9 -/

theorem scan_mask_line_0 :
    (timer_func_scan "Mask 0 #/cc".toList).mask = some 0 := by
  have h : sscanf (c_str "Mask 0 #/cc".toList) "Mask %lf #/cc"
      = { ret := 1, val := some { negative := false, mantissa := 0, exponent := 0 } } := by
    decide
  simp only [timer_func_scan, h, ScanfResult.matched]
  norm_num [Decimal.value]

theorem timer_func_mask_double_zero (log10 : ℚ → ℚ) :
    timer_func_mask_double log10 SampleSeries.initial
        (timer_func_scan "Mask 0 #/cc".toList)
      = { sample_array := [Double.neg_inf]
          sample_array_max := Double.finite (-DBL_MAX)
          sample_array_min := Double.neg_inf } := by
  have hlog : Double.log10 log10 (Double.finite 0) = Double.neg_inf := by
    simp only [Double.log10, if_true]
  unfold timer_func_mask_double
  rw [scan_mask_line_0]
  simp only [hlog, SampleSeries.initial, Double.lt, List.nil_append, if_true,
    Bool.false_eq_true, if_false]

/-- C9. The code at the failing input. In FIT_TEST mode the line `Mask 0 #/cc` is matched
with the value 0 and the `Mask` branch appends `log10(0)`, minus infinity, to the sample
series: the COUNT branch replaces 0 by 0.001 before `log10` (graph.cpp 703-707), the
FIT_TEST branches do not. The test `val > sample_array_max` is false for minus infinity
against the sentinel, so after this one append the stored running max is still the
sentinel -DBL_MAX, which is not the maximum of the values appended and not even one of
them. -/
theorem mask_zero_running_max (log10 : ℚ → ℚ) :
    (timer_func_scan "Mask 0 #/cc".toList).mask = some 0
    ∧ (timer_func_mask_double log10 SampleSeries.initial
        (timer_func_scan "Mask 0 #/cc".toList)).sample_array = [Double.neg_inf]
    ∧ (timer_func_mask_double log10 SampleSeries.initial
        (timer_func_scan "Mask 0 #/cc".toList)).sample_array_min = Double.neg_inf
    ∧ (timer_func_mask_double log10 SampleSeries.initial
        (timer_func_scan "Mask 0 #/cc".toList)).sample_array_max = Double.finite (-DBL_MAX)
    ∧ (timer_func_mask_double log10 SampleSeries.initial
        (timer_func_scan "Mask 0 #/cc".toList)).sample_array_max
      ∉ (timer_func_mask_double log10 SampleSeries.initial
          (timer_func_scan "Mask 0 #/cc".toList)).sample_array := by
  rw [timer_func_mask_double_zero]
  refine ⟨scan_mask_line_0, rfl, rfl, rfl, ?_⟩
  simp

/-! ### C10 -/

/-- C10. For every append, the mode's horizon after the append is exactly twice the horizon
before it if the appended series' new length exceeds the horizon before the append, and is
unchanged otherwise; hence across any sequence of appends without a reset, from a state
whose horizon is not negative (it is 18 at process start and after a reset), the horizon is
monotonically non-decreasing. -/
theorem horizon_doubles_when_exceeded (st : State) (q : Quantity) (val : ℚ)
    (appends : List (Quantity × ℚ)) (m : ModeType) (hpos : 0 ≤ st.horizon m) :
    (timer_func_append st q val).horizon q.mode
        = (if (((timer_func_append st q val).series q).length : ℚ) > st.horizon q.mode
           then st.horizon q.mode * 2 else st.horizon q.mode)
    ∧ st.horizon m ≤ (timer_func_append st q val).horizon m
    ∧ st.horizon m ≤ (run_appends st appends).horizon m := by
  refine ⟨?_, horizon_le_timer_func_append st q val m hpos,
    horizon_le_run_appends appends st m hpos⟩
  rw [horizon_timer_func_append, if_pos rfl]

/-- Witness of `horizon_doubles_when_exceeded`: appends to the count series from process
start. -/
theorem horizon_doubles_when_exceeded_witness :
    0 ≤ State.initial.horizon ModeType.COUNT_MODE
    ∧ ((timer_func_append State.initial Quantity.count 3).horizon Quantity.count.mode
        = (if (((timer_func_append State.initial Quantity.count 3).series
                  Quantity.count).length : ℚ)
                > State.initial.horizon Quantity.count.mode
           then State.initial.horizon Quantity.count.mode * 2
           else State.initial.horizon Quantity.count.mode)
      ∧ State.initial.horizon ModeType.COUNT_MODE
          ≤ (timer_func_append State.initial Quantity.count 3).horizon ModeType.COUNT_MODE
      ∧ State.initial.horizon ModeType.COUNT_MODE
          ≤ (run_appends State.initial [(Quantity.count, 3), (Quantity.count, -3)]).horizon
              ModeType.COUNT_MODE) := by
  have hpos : 0 ≤ State.initial.horizon ModeType.COUNT_MODE := by
    show (0 : ℚ) ≤ 18
    norm_num
  exact ⟨hpos, horizon_doubles_when_exceeded State.initial Quantity.count 3
    [(Quantity.count, 3), (Quantity.count, -3)] ModeType.COUNT_MODE hpos⟩

/-! ### C11 -/

theorem keyboard_func_reset (st : State) (key : Char) (hkey : key = 'x' ∨ key = 'X') :
    keyboard_func st key
      = match st.mode with
        | ModeType.COUNT_MODE =>
          { st with count_mode_data := keyboard_func_count_reset st.count_mode_data }
        | ModeType.FIT_TEST_MODE =>
          { st with
            fit_test_mode_data := keyboard_func_fit_test_reset st.fit_test_mode_data } := by
  rcases hkey with rfl | rfl <;> simp [keyboard_func]

theorem mode_timer_func_append (st : State) (q : Quantity) (val : ℚ) :
    (timer_func_append st q val).mode = st.mode := by
  cases q <;> rfl

theorem mode_run_appends (appends : List (Quantity × ℚ)) (st : State) :
    (run_appends st appends).mode = st.mode := by
  induction appends generalizing st with
  | nil => rfl
  | cons a rest ih =>
    have h : run_appends st (a :: rest) = run_appends (timer_func_append st a.1 a.2) rest := rfl
    rw [h, ih, mode_timer_func_append]

/-- C11. For every sequence of appends in a mode followed by a reset (key x/X) in that mode,
that mode's state equals its state at process start: every series of the mode is empty,
each running min and max holds its initial sentinel value, and the horizon is 18.0. -/
theorem reset_restores_initial (st : State) (appends : List (Quantity × ℚ)) (key : Char)
    (hkey : key = 'x' ∨ key = 'X') :
    (st.mode = ModeType.COUNT_MODE →
      (keyboard_func (run_appends st appends) key).count_mode_data
        = State.initial.count_mode_data)
    ∧ (st.mode = ModeType.FIT_TEST_MODE →
      (keyboard_func (run_appends st appends) key).fit_test_mode_data
        = State.initial.fit_test_mode_data)
    ∧ (∀ q : Quantity, q.mode = st.mode →
      (keyboard_func (run_appends st appends) key).series q = []
      ∧ (keyboard_func (run_appends st appends) key).series_min q = DBL_MAX
      ∧ (keyboard_func (run_appends st appends) key).series_max q = -DBL_MAX
      ∧ (keyboard_func (run_appends st appends) key).horizon q.mode = 18) := by
  rw [keyboard_func_reset _ _ hkey, mode_run_appends]
  refine ⟨fun h => ?_, fun h => ?_, fun q hq => ?_⟩
  · rw [h]
    rfl
  · rw [h]
    rfl
  · rw [← hq]
    cases q <;> exact ⟨rfl, rfl, rfl, rfl⟩

/-- Witness of `reset_restores_initial`: two count appends from process start, then key x. -/
theorem reset_restores_initial_witness :
    (('x' : Char) = 'x' ∨ ('x' : Char) = 'X')
    ∧ ((State.initial.mode = ModeType.COUNT_MODE →
        (keyboard_func (run_appends State.initial [(Quantity.count, 3), (Quantity.count, -3)])
            'x').count_mode_data
          = State.initial.count_mode_data)
      ∧ (State.initial.mode = ModeType.FIT_TEST_MODE →
        (keyboard_func (run_appends State.initial [(Quantity.count, 3), (Quantity.count, -3)])
            'x').fit_test_mode_data
          = State.initial.fit_test_mode_data)
      ∧ (∀ q : Quantity, q.mode = State.initial.mode →
        (keyboard_func (run_appends State.initial [(Quantity.count, 3), (Quantity.count, -3)])
            'x').series q = []
        ∧ (keyboard_func (run_appends State.initial [(Quantity.count, 3), (Quantity.count, -3)])
            'x').series_min q = DBL_MAX
        ∧ (keyboard_func (run_appends State.initial [(Quantity.count, 3), (Quantity.count, -3)])
            'x').series_max q = -DBL_MAX
        ∧ (keyboard_func (run_appends State.initial [(Quantity.count, 3), (Quantity.count, -3)])
            'x').horizon q.mode = 18)) :=
  ⟨Or.inl rfl,
   reset_restores_initial State.initial [(Quantity.count, 3), (Quantity.count, -3)] 'x'
     (Or.inl rfl)⟩

/-! ### C12 -/

/-- C12. In COUNT mode, a line `Conc. <v> #/cc` (one on which the `sscanf` call for the
pattern returns 1 with value `v`) appends to the count series the value `log10(v)` when
`v != 0` and `log10(0.001) = -3` when `v = 0`; in particular `Conc. 1000 #/cc` appends 3.0
and `Conc. 0 #/cc` appends -3.0. Of `log10` only `log10(1000) = 3` and `log10(0.001) = -3`
are used. -/
theorem conc_line_appends_log10 (log10 : ℚ → ℚ) (st : State) (buf : List Char) (v : ℚ)
    (hmode : st.mode = ModeType.COUNT_MODE)
    (hscan : (timer_func_scan buf).conc = some v)
    (h1000 : log10 1000 = 3) (h0 : log10 (1 / 1000) = -3) :
    (timer_func log10 st (timer_func_scan buf)).series Quantity.count
        = st.series Quantity.count ++ [if v = 0 then -3 else log10 v]
    ∧ (timer_func log10 st (timer_func_scan "Conc. 1000 #/cc".toList)).series Quantity.count
        = st.series Quantity.count ++ [3]
    ∧ (timer_func log10 st (timer_func_scan "Conc. 0 #/cc".toList)).series Quantity.count
        = st.series Quantity.count ++ [-3] := by
  refine ⟨?_, ?_, ?_⟩
  · rw [timer_func_count_mode log10 st _ hmode, hscan]
    simp only [series_timer_func_append, if_true]
    by_cases hv : v = 0
    · rw [if_pos hv, if_pos hv, h0]
    · rw [if_neg hv, if_neg hv]
  · rw [timer_func_count_mode log10 st _ hmode, scan_conc_line_1000]
    simp only [series_timer_func_append, if_true]
    rw [if_neg (by norm_num), h1000]
  · rw [timer_func_count_mode log10 st _ hmode, scan_conc_line_0]
    simp only [series_timer_func_append, if_true, h0]

/-- Witness of `conc_line_appends_log10`: the line `Conc. 1000 #/cc` at process start. -/
theorem conc_line_appends_log10_witness :
    (State.initial.mode = ModeType.COUNT_MODE
      ∧ (timer_func_scan "Conc. 1000 #/cc".toList).conc = some 1000
      ∧ log10_sample 1000 = 3 ∧ log10_sample (1 / 1000) = -3)
    ∧ ((timer_func log10_sample State.initial
          (timer_func_scan "Conc. 1000 #/cc".toList)).series Quantity.count
        = State.initial.series Quantity.count
            ++ [if (1000 : ℚ) = 0 then -3 else log10_sample 1000]
      ∧ (timer_func log10_sample State.initial
          (timer_func_scan "Conc. 1000 #/cc".toList)).series Quantity.count
        = State.initial.series Quantity.count ++ [3]
      ∧ (timer_func log10_sample State.initial
          (timer_func_scan "Conc. 0 #/cc".toList)).series Quantity.count
        = State.initial.series Quantity.count ++ [-3]) := by
  have h1000 : log10_sample 1000 = 3 := by norm_num [log10_sample]
  have h0 : log10_sample (1 / 1000) = -3 := by norm_num [log10_sample]
  exact ⟨⟨rfl, scan_conc_line_1000, h1000, h0⟩,
    conc_line_appends_log10 log10_sample State.initial _ 1000 rfl scan_conc_line_1000
      h1000 h0⟩

/-! ### C13 -/

/-- C13. Line routing is gated by the active mode. In COUNT mode a `Conc.` line (one on
which the `sscanf` call for the pattern returns 1) appends exactly one value to the count
series, and `Mask`, `Ambient` and `FF` lines append nothing. In FIT_TEST mode a `Mask` line
appends exactly one value to the sample series, an `Ambient` line to the ambient series, an
`FF <int> <float> PASS|FAIL` line to the fit-factor series, the value being log10 of the
float: the two `FF` formats give the same outcome on every buffer, and the outcome does not
depend on the digits of the int; a `Conc.` line appends nothing. Each append adds exactly
the one value to its series and leaves the contents and running min/max of every other
series unchanged. -/
theorem line_routing (log10 : ℚ → ℚ) (st : State) (buf : List Char) (v : ℚ) :
    (st.mode = ModeType.COUNT_MODE → (timer_func_scan buf).conc = some v →
      timer_func log10 st (timer_func_scan buf)
        = timer_func_append st Quantity.count (log10 (if v = 0 then 1 / 1000 else v)))
    ∧ (st.mode = ModeType.COUNT_MODE →
        ((timer_func_scan buf).mask = some v ∨ (timer_func_scan buf).ambient = some v
          ∨ (timer_func_scan buf).ff_pass = some v ∨ (timer_func_scan buf).ff_fail = some v) →
        timer_func log10 st (timer_func_scan buf) = st)
    ∧ (st.mode = ModeType.FIT_TEST_MODE → (timer_func_scan buf).mask = some v →
        timer_func log10 st (timer_func_scan buf)
          = timer_func_append st Quantity.sample (log10 v))
    ∧ (st.mode = ModeType.FIT_TEST_MODE → (timer_func_scan buf).ambient = some v →
        timer_func log10 st (timer_func_scan buf)
          = timer_func_append st Quantity.ambient (log10 v))
    ∧ (st.mode = ModeType.FIT_TEST_MODE →
        ((timer_func_scan buf).ff_pass = some v ∨ (timer_func_scan buf).ff_fail = some v) →
        timer_func log10 st (timer_func_scan buf)
          = timer_func_append st Quantity.fit_factor (log10 v))
    ∧ (st.mode = ModeType.FIT_TEST_MODE → (timer_func_scan buf).conc = some v →
        timer_func log10 st (timer_func_scan buf) = st)
    ∧ (∀ (q : Quantity) (val : ℚ),
        (timer_func_append st q val).series q = st.series q ++ [val])
    ∧ (∀ (q q' : Quantity) (val : ℚ), q' ≠ q →
        (timer_func_append st q val).series q' = st.series q'
        ∧ (timer_func_append st q val).series_min q' = st.series_min q'
        ∧ (timer_func_append st q val).series_max q' = st.series_max q')
    ∧ sscanf (c_str buf) "FF %*u %lf PASS" = sscanf (c_str buf) "FF %*u %lf FAIL"
    ∧ (∀ (d₁ d₂ : Char) (ds₁ ds₂ t : List Char),
        isdigit d₁ = true → isdigit d₂ = true →
        (∀ c ∈ ds₁, isdigit c = true) → (∀ c ∈ ds₂, isdigit c = true) →
        (∀ c ∈ t.head?, isdigit c = false) →
        sscanf ('F' :: 'F' :: ' ' :: d₁ :: (ds₁ ++ t)) "FF %*u %lf PASS"
            = sscanf ('F' :: 'F' :: ' ' :: d₂ :: (ds₂ ++ t)) "FF %*u %lf PASS"
        ∧ sscanf ('F' :: 'F' :: ' ' :: d₁ :: (ds₁ ++ t)) "FF %*u %lf FAIL"
            = sscanf ('F' :: 'F' :: ' ' :: d₂ :: (ds₂ ++ t)) "FF %*u %lf FAIL") := by
  refine ⟨?_, ?_, ?_, ?_, ?_, ?_, ?_, ?_, sscanf_ff_pass_eq_ff_fail _, ?_⟩
  · intro hm hc
    rw [timer_func_count_mode log10 st _ hm, hc]
  · intro hm h
    have hhead : (c_str buf).head? ≠ some 'C' := by
      rcases h with h | h | h | h
      · exact head_ne_of_head _ _ _ (mask_head buf v h) (by decide)
      · exact head_ne_of_head _ _ _ (ambient_head buf v h) (by decide)
      · exact head_ne_of_head _ _ _ (ff_pass_head buf v h) (by decide)
      · exact head_ne_of_head _ _ _ (ff_fail_head buf v h) (by decide)
    rw [timer_func_count_mode log10 st _ hm, conc_eq_none buf hhead]
  · intro hm h
    rw [timer_func_fit_test_mode log10 st _ hm, h]
  · intro hm h
    have hA := ambient_head buf v h
    rw [timer_func_fit_test_mode log10 st _ hm,
      mask_eq_none buf (head_ne_of_head _ _ _ hA (by decide)), h]
  · intro hm h
    have hp : (timer_func_scan buf).ff_pass = some v := by
      rcases h with h | h
      · exact h
      · rw [ff_pass_eq_ff_fail]
        exact h
    have hF := ff_pass_head buf v hp
    rw [timer_func_fit_test_mode log10 st _ hm,
      mask_eq_none buf (head_ne_of_head _ _ _ hF (by decide)),
      ambient_eq_none buf (head_ne_of_head _ _ _ hF (by decide)), hp]
  · intro hm h
    have hC := conc_head buf v h
    rw [timer_func_fit_test_mode log10 st _ hm,
      mask_eq_none buf (head_ne_of_head _ _ _ hC (by decide)),
      ambient_eq_none buf (head_ne_of_head _ _ _ hC (by decide)),
      ff_pass_eq_none buf (head_ne_of_head _ _ _ hC (by decide)),
      ff_fail_eq_none buf (head_ne_of_head _ _ _ hC (by decide))]
  · intro q val
    rw [series_timer_func_append, if_pos rfl]
  · intro q q' val hne
    rw [series_timer_func_append, series_min_timer_func_append,
      series_max_timer_func_append, if_neg (Ne.symm hne), if_neg (Ne.symm hne),
      if_neg (Ne.symm hne)]
    exact ⟨rfl, rfl, rfl⟩
  · intro d₁ d₂ ds₁ ds₂ t h1 h2 hds1 hds2 ht
    constructor
    · rw [sscanf_ff_skips_int "FF %*u %lf PASS" _ rfl d₁ ds₁ t h1 hds1 ht,
        sscanf_ff_skips_int "FF %*u %lf PASS" _ rfl d₂ ds₂ t h2 hds2 ht]
    · rw [sscanf_ff_skips_int "FF %*u %lf FAIL" _ rfl d₁ ds₁ t h1 hds1 ht,
        sscanf_ff_skips_int "FF %*u %lf FAIL" _ rfl d₂ ds₂ t h2 hds2 ht]

/-- Witness of `line_routing`: in FIT_TEST mode the line `FF 12 200 FAIL` appends log10 of
200 to the fit-factor series. -/
theorem line_routing_witness :
    (fit_test_state.mode = ModeType.FIT_TEST_MODE
      ∧ ((timer_func_scan "FF 12 200 FAIL".toList).ff_pass = some 200
          ∨ (timer_func_scan "FF 12 200 FAIL".toList).ff_fail = some 200))
    ∧ timer_func log10_sample fit_test_state (timer_func_scan "FF 12 200 FAIL".toList)
        = timer_func_append fit_test_state Quantity.fit_factor (log10_sample 200) :=
  ⟨⟨fit_test_state_mode, Or.inr scan_ff_line_200⟩,
   (line_routing log10_sample fit_test_state "FF 12 200 FAIL".toList 200).2.2.2.2.1
     fit_test_state_mode (Or.inr scan_ff_line_200)⟩

/-! ### C14 -/

theorem timer_func_conc_5 (log10 : ℚ → ℚ) :
    timer_func log10 State.initial (timer_func_scan "Conc. 5".toList)
      = timer_func_append State.initial Quantity.count (log10 5) := by
  have h : sscanf (c_str "Conc. 5".toList) "Conc. %lf #/cc"
      = { ret := 1, val := some { negative := false, mantissa := 5, exponent := 0 } } := by
    decide
  have hs : (timer_func_scan "Conc. 5".toList).conc = some 5 := by
    simp only [timer_func_scan, h, ScanfResult.matched]
    norm_num [Decimal.value]
  rw [timer_func_count_mode log10 State.initial _ rfl, hs]
  simp only
  rw [if_neg (by norm_num)]

theorem timer_func_mask_7 (log10 : ℚ → ℚ) :
    timer_func log10 fit_test_state (timer_func_scan "Mask 7 ppm".toList)
      = timer_func_append fit_test_state Quantity.sample (log10 7) := by
  have h : sscanf (c_str "Mask 7 ppm".toList) "Mask %lf #/cc"
      = { ret := 1, val := some { negative := false, mantissa := 7, exponent := 0 } } := by
    decide
  have hs : (timer_func_scan "Mask 7 ppm".toList).mask = some 7 := by
    simp only [timer_func_scan, h, ScanfResult.matched]
    norm_num [Decimal.value]
  rw [timer_func_fit_test_mode log10 fit_test_state _ fit_test_state_mode, hs]

/-- C14. The code at the failing inputs. The line `Conc. 5` matches none of the patterns of
COUNT mode as the specification writes them (`Conc. <float> #/cc`), yet processing it in
`timer_func` appends log10(5) to the count series and replaces the running min and max;
likewise `Mask 7 ppm` in FIT_TEST mode appends to the sample series. The line
`garbage unrelated text` matches no pattern either and changes nothing. The test the code
applies, `sscanf(...) == 1`, does not see the literal after the float. -/
theorem unmatched_line_appends (log10 : ℚ → ℚ) :
    spec_unmatched ModeType.COUNT_MODE "Conc. 5".toList = true
    ∧ (timer_func log10 State.initial (timer_func_scan "Conc. 5".toList)).series
          Quantity.count
        = State.initial.series Quantity.count ++ [log10 5]
    ∧ timer_func log10 State.initial (timer_func_scan "Conc. 5".toList) ≠ State.initial
    ∧ spec_unmatched ModeType.FIT_TEST_MODE "Mask 7 ppm".toList = true
    ∧ (timer_func log10 fit_test_state (timer_func_scan "Mask 7 ppm".toList)).series
          Quantity.sample
        = fit_test_state.series Quantity.sample ++ [log10 7]
    ∧ timer_func log10 fit_test_state (timer_func_scan "Mask 7 ppm".toList) ≠ fit_test_state
    ∧ spec_unmatched ModeType.FIT_TEST_MODE garbage_line = true
    ∧ timer_func log10 fit_test_state (timer_func_scan garbage_line) = fit_test_state := by
  have hc : (timer_func log10 State.initial (timer_func_scan "Conc. 5".toList)).series
      Quantity.count = State.initial.series Quantity.count ++ [log10 5] := by
    rw [timer_func_conc_5, series_timer_func_append, if_pos rfl]
  have hm : (timer_func log10 fit_test_state (timer_func_scan "Mask 7 ppm".toList)).series
      Quantity.sample = fit_test_state.series Quantity.sample ++ [log10 7] := by
    rw [timer_func_mask_7, series_timer_func_append, if_pos rfl]
  refine ⟨by decide, hc, ?_, by decide, hm, ?_, by decide,
    timer_func_unmatched log10 fit_test_state garbage_line (garbage_line_unmatched _)⟩
  · intro h
    rw [h] at hc
    simp at hc
  · intro h
    rw [h] at hm
    simp at hm

/-! ### C15 -/

/-- C15, as stated, fails. The claim says a line signals a redraw request if and only if it
was parsed and appended to a series, and that `garbage unrelated text` signals none; the
code calls `glutPostRedisplay` for every chunk of `ret > 0` bytes (graph.cpp 779): for
`garbage unrelated text` no series changes and the redraw is signalled. -/
theorem redraw_counterexample :
    (¬ ∀ (log10 : ℚ → ℚ) (write : Nat → Nat → Int) (fuel : Nat) (st : State)
        (outfile chunk : List Char) (effects : TimerEffects),
        chunk ≠ [] →
        timer_func_chunk log10 write fuel st outfile (ReadResult.bytes chunk)
          = Outcome.done effects →
        (effects.redisplay = true ↔ ∃ q : Quantity, effects.st.series q ≠ st.series q))
    ∧ timer_func_chunk log10_sample write_five 22 State.initial []
          (ReadResult.bytes garbage_line)
        = Outcome.done
            { st := State.initial, outfile := garbage_line, redisplay := true } := by
  have h := timer_func_chunk_garbage log10_sample State.initial []
  rw [List.nil_append] at h
  refine ⟨fun hc => ?_, h⟩
  have h2 := (hc log10_sample write_five 22 State.initial [] garbage_line _
    garbage_line_ne_nil h).mp rfl
  obtain ⟨q, hq⟩ := h2
  exact hq rfl

/-- C15, amended. Processing a non-empty chunk read from the source signals a redraw
request whether or not the line was parsed and appended to a series (so every successfully
parsed append signals one); in particular the unmatched line `garbage unrelated text`
signals a redraw. No redraw is signalled when the source is not ready or delivers no
bytes. -/
theorem chunk_signals_redraw (log10 : ℚ → ℚ) (write : Nat → Nat → Int) (fuel : Nat)
    (st : State) (outfile chunk : List Char) (hne : chunk ≠ [])
    (hsize : chunk.length < 2 ^ 64)
    (hw : ∀ call r, 1 ≤ r → 1 ≤ write call r ∧ write call r ≤ r)
    (hfuel : chunk.length ≤ fuel) :
    (∃ effects : TimerEffects,
        timer_func_chunk log10 write fuel st outfile (ReadResult.bytes chunk)
          = Outcome.done effects
        ∧ effects.redisplay = true)
    ∧ (∃ effects : TimerEffects,
        timer_func_chunk log10 write_five 22 st outfile (ReadResult.bytes garbage_line)
          = Outcome.done effects
        ∧ effects.redisplay = true)
    ∧ timer_func_chunk log10 write fuel st outfile ReadResult.not_ready
        = Outcome.done { st := st, outfile := outfile, redisplay := false }
    ∧ timer_func_chunk log10 write fuel st outfile (ReadResult.bytes [])
        = Outcome.done { st := st, outfile := outfile, redisplay := false } :=
  ⟨⟨_, timer_func_chunk_done log10 write fuel st outfile chunk hne hsize hw hfuel, rfl⟩,
   ⟨_, timer_func_chunk_garbage log10 st outfile, rfl⟩, rfl, rfl⟩

/-- Witness of `chunk_signals_redraw`: the line `Conc. 1000 #/cc` at process start, written
five bytes at a time. -/
theorem chunk_signals_redraw_witness :
    ("Conc. 1000 #/cc".toList ≠ [] ∧ "Conc. 1000 #/cc".toList.length < 2 ^ 64
      ∧ (∀ call r, 1 ≤ r → 1 ≤ write_five call r ∧ write_five call r ≤ r)
      ∧ "Conc. 1000 #/cc".toList.length ≤ 15)
    ∧ ((∃ effects : TimerEffects,
          timer_func_chunk log10_sample write_five 15 State.initial []
              (ReadResult.bytes "Conc. 1000 #/cc".toList)
            = Outcome.done effects
          ∧ effects.redisplay = true)
      ∧ (∃ effects : TimerEffects,
          timer_func_chunk log10_sample write_five 22 State.initial []
              (ReadResult.bytes garbage_line)
            = Outcome.done effects
          ∧ effects.redisplay = true)
      ∧ timer_func_chunk log10_sample write_five 15 State.initial [] ReadResult.not_ready
          = Outcome.done { st := State.initial, outfile := [], redisplay := false }
      ∧ timer_func_chunk log10_sample write_five 15 State.initial [] (ReadResult.bytes [])
          = Outcome.done { st := State.initial, outfile := [], redisplay := false }) :=
  ⟨⟨by decide, by decide, write_five_ok, by decide⟩,
   chunk_signals_redraw log10_sample write_five 15 State.initial [] "Conc. 1000 #/cc".toList
     (by decide) (by decide) write_five_ok (by decide)⟩

/-! ### C16 -/

/-- C16. For every non-empty chunk of n bytes read from the source, matched or not and in
either mode, the bytes passed to the capture sink by `writeFully`, concatenated over all its
`write` calls, are exactly those n bytes in order, for every schedule of partial writes in
which each `write` call accepts between 1 and the remaining number of bytes: the sink after
the call is the sink before it followed by the chunk, and `writeFully` returns within n
calls. -/
theorem chunk_mirrored (log10 : ℚ → ℚ) (write : Nat → Nat → Int) (fuel : Nat)
    (st : State) (outfile chunk : List Char) (hne : chunk ≠ [])
    (hsize : chunk.length < 2 ^ 64)
    (hw : ∀ call r, 1 ≤ r → 1 ≤ write call r ∧ write call r ≤ r)
    (hfuel : chunk.length ≤ fuel) :
    writeFully write fuel outfile chunk chunk.length = Outcome.done (outfile ++ chunk)
    ∧ ∃ effects : TimerEffects,
        timer_func_chunk log10 write fuel st outfile (ReadResult.bytes chunk)
          = Outcome.done effects
        ∧ effects.outfile = outfile ++ chunk :=
  ⟨writeFully_eq write hw chunk outfile hne hsize fuel hfuel,
   _, timer_func_chunk_done log10 write fuel st outfile chunk hne hsize hw hfuel, rfl⟩

/-- Witness of `chunk_mirrored`: the line `garbage unrelated text` at process start, written
five bytes at a time. -/
theorem chunk_mirrored_witness :
    (garbage_line ≠ [] ∧ garbage_line.length < 2 ^ 64
      ∧ (∀ call r, 1 ≤ r → 1 ≤ write_five call r ∧ write_five call r ≤ r)
      ∧ garbage_line.length ≤ 22)
    ∧ (writeFully write_five 22 [] garbage_line garbage_line.length
          = Outcome.done ([] ++ garbage_line)
      ∧ ∃ effects : TimerEffects,
          timer_func_chunk log10_sample write_five 22 State.initial []
              (ReadResult.bytes garbage_line)
            = Outcome.done effects
          ∧ effects.outfile = [] ++ garbage_line) :=
  ⟨⟨garbage_line_ne_nil, garbage_line_size, write_five_ok, le_of_eq garbage_line_length⟩,
   chunk_mirrored log10_sample write_five 22 State.initial [] garbage_line
     garbage_line_ne_nil garbage_line_size write_five_ok (le_of_eq garbage_line_length)⟩

/-! ### C17 -/

/-- C17. Switching modes (keys c/C and f/F) never clears existing series: for every state,
the key handler changes only the mode (to COUNT_MODE for c/C, to FIT_TEST_MODE for f/F) and
leaves every series' contents, every running min and max and both horizons unchanged. -/
theorem mode_switch_keeps_series (st : State) (key : Char)
    (hkey : key = 'c' ∨ key = 'C' ∨ key = 'f' ∨ key = 'F') :
    (keyboard_func st key).mode
        = (if key = 'c' ∨ key = 'C' then ModeType.COUNT_MODE else ModeType.FIT_TEST_MODE)
    ∧ (keyboard_func st key).count_mode_data = st.count_mode_data
    ∧ (keyboard_func st key).fit_test_mode_data = st.fit_test_mode_data
    ∧ (∀ q : Quantity,
        (keyboard_func st key).series q = st.series q
        ∧ (keyboard_func st key).series_min q = st.series_min q
        ∧ (keyboard_func st key).series_max q = st.series_max q)
    ∧ (∀ m : ModeType, (keyboard_func st key).horizon m = st.horizon m) := by
  rcases hkey with rfl | rfl | rfl | rfl <;>
    simp [keyboard_func, State.series, State.series_min, State.series_max, State.horizon]

/-- Witness of `mode_switch_keeps_series`: key f at process start. -/
theorem mode_switch_keeps_series_witness :
    (('f' : Char) = 'c' ∨ ('f' : Char) = 'C' ∨ ('f' : Char) = 'f' ∨ ('f' : Char) = 'F')
    ∧ ((keyboard_func State.initial 'f').mode
          = (if ('f' : Char) = 'c' ∨ ('f' : Char) = 'C' then ModeType.COUNT_MODE
             else ModeType.FIT_TEST_MODE)
      ∧ (keyboard_func State.initial 'f').count_mode_data = State.initial.count_mode_data
      ∧ (keyboard_func State.initial 'f').fit_test_mode_data
          = State.initial.fit_test_mode_data
      ∧ (∀ q : Quantity,
          (keyboard_func State.initial 'f').series q = State.initial.series q
          ∧ (keyboard_func State.initial 'f').series_min q = State.initial.series_min q
          ∧ (keyboard_func State.initial 'f').series_max q = State.initial.series_max q)
      ∧ (∀ m : ModeType,
          (keyboard_func State.initial 'f').horizon m = State.initial.horizon m)) :=
  ⟨Or.inr (Or.inr (Or.inl rfl)),
   mode_switch_keeps_series State.initial 'f' (Or.inr (Or.inr (Or.inl rfl)))⟩

/-! ### C18 -/

/-- C18, as stated, fails. The claim says that in initialisation, in the publish step of a
redraw cycle and in teardown each write of the own record occurs between a `sem_wait` and
the matching `sem_post` on the own semaphore. `init_shared_memory` zeroes the own record and
sets `initialized` right after `sem_init`, and `remove_shared_memory` clears the valid flags
and sets `quit`, both without any `sem_wait`: for instance 0 of 2 neither sequence is
guarded. -/
theorem unguarded_store_counterexample :
    (¬ ∀ (st : State) (inst : InstanceData) (polls : Nat → Nat),
        stores_guarded inst.instance_index [] (init_shared_memory_actions inst polls) = true
        ∧ stores_guarded inst.instance_index [] (display_actions st inst) = true
        ∧ stores_guarded inst.instance_index []
            (remove_shared_memory_actions inst polls) = true)
    ∧ stores_guarded instance_0_of_2.instance_index []
        (init_shared_memory_actions instance_0_of_2 (fun _ => 0)) = false
    ∧ stores_guarded instance_0_of_2.instance_index []
        (remove_shared_memory_actions instance_0_of_2 (fun _ => 0)) = false := by
  have h1 : stores_guarded instance_0_of_2.instance_index []
      (init_shared_memory_actions instance_0_of_2 (fun _ => 0)) = false := by decide
  have h2 : stores_guarded instance_0_of_2.instance_index []
      (remove_shared_memory_actions instance_0_of_2 (fun _ => 0)) = false := by decide
  refine ⟨fun hc => ?_, h1, h2⟩
  have h3 := (hc State.initial instance_0_of_2 (fun _ => 0)).1
  rw [h1] at h3
  exact Bool.noConfusion h3

/-- C18, amended. Every mutation of the own record in the publish step of a redraw cycle,
in either mode, is performed while the instance holds the own semaphore: each write occurs
between the `sem_wait` and the matching `sem_post` on the own semaphore. -/
theorem publish_stores_guarded (st : State) (inst : InstanceData) :
    stores_guarded inst.instance_index [] (display_actions st inst) = true :=
  display_actions_guarded st inst

/-! ### C19 -/

/-- C19. No process ever holds two locks simultaneously: for every instance count N, own
index and mode, the semaphore operations of one redraw cycle form the sequence wait(self),
post(self), then wait(i), post(i) for each peer i != self, so at every point of the cycle
at most one semaphore is held and none is held when the cycle ends. -/
theorem display_holds_one_lock (st : State) (inst : InstanceData) :
    sem_ops (display_actions st inst)
        = Action.sem_wait inst.instance_index :: Action.sem_post inst.instance_index
            :: (peers inst).flatMap (fun i => [Action.sem_wait i, Action.sem_post i])
    ∧ (∀ k : Nat, (held_after [] ((display_actions st inst).take k)).length ≤ 1)
    ∧ held_after [] (display_actions st inst) = [] := by
  refine ⟨?_, at_most_one_held_take _ _ (display_actions_at_most_one st inst), ?_⟩
  · unfold display_actions
    rw [sem_ops_append, sem_ops_append, sem_ops_append,
      sem_ops_stores _ _ (display_publish_actions_stores st inst), sem_ops_peer_visits]
    rfl
  · unfold display_actions
    rw [held_after_append, held_after_display_publish, peer_visits_held]

/-! ### C20 -/

theorem init_attempts_create (inst : InstanceData) (polls : Nat → Nat) (j : Nat)
    (hj : j < inst.total_instances) :
    Action.create_data j ∈ init_shared_memory_actions inst polls := by
  unfold init_shared_memory_actions
  apply List.mem_append_left
  apply List.mem_append_left
  exact List.mem_flatMap.mpr ⟨j, List.mem_range.mpr hj, by simp⟩

/-- C20. A record is writable only by its owning instance: no operation of an instance (line
ingestion, key handling, a redraw cycle in either mode) changes any field of any record
`j != own index`; a redraw cycle only reads peer records (no action of the cycle mutates
record `j`). In `init_shared_memory` the record of every peer is mapped read-only, from a
descriptor opened with `O_RDONLY`; the one access to a peer's segment that is not read-only
is the attempt to create it (`O_RDWR | O_CREAT | O_EXCL`, sizing it when it did not exist),
which is made for every index, peers included, and is none of the operations above. -/
theorem peer_records_unchanged (log10 : ℚ → ℚ) (st : State) (inst : InstanceData)
    (shared : Nat → SharedMemoryBuffer) (op : Operation) (polls : Nat → Nat) (j : Nat)
    (hj : j ≠ inst.instance_index) :
    (operate log10 inst (st, shared) op).2 j = shared j
    ∧ (display st inst shared).1 j = shared j
    ∧ (∀ a ∈ display_actions st inst, a.mutates j = false)
    ∧ (∀ w : Bool, Action.open_data j w ∈ init_shared_memory_actions inst polls → w = false)
    ∧ (∀ w : Bool, Action.mmap_data j w ∈ init_shared_memory_actions inst polls →
        w = false)
    ∧ (j < inst.total_instances →
        Action.create_data j ∈ init_shared_memory_actions inst polls) := by
  have hd : (display st inst shared).1 j = shared j := by
    rw [display_shared_eq, Function.update_noteq hj]
  refine ⟨?_, hd, display_actions_not_mutates st inst j hj,
    fun w h => init_maps_peer_read_only inst polls j hj w (Or.inr h),
    fun w h => init_maps_peer_read_only inst polls j hj w (Or.inl h),
    init_attempts_create inst polls j⟩
  cases op with
  | line chunk => rfl
  | key k => rfl
  | redraw => exact hd

/-- Witness of `peer_records_unchanged`: a redraw cycle of instance 0 of 2 at process start
leaves the published record of instance 1 as it is. -/
theorem peer_records_unchanged_witness :
    (1 ≠ instance_0_of_2.instance_index)
    ∧ ((operate log10_sample instance_0_of_2
          (State.initial, fun _ => record_count_2_6) Operation.redraw).2 1 = record_count_2_6
      ∧ (display State.initial instance_0_of_2 (fun _ => record_count_2_6)).1 1
          = record_count_2_6
      ∧ (∀ a ∈ display_actions State.initial instance_0_of_2, a.mutates 1 = false)
      ∧ (∀ w : Bool,
          Action.open_data 1 w ∈ init_shared_memory_actions instance_0_of_2 (fun _ => 0) →
          w = false)
      ∧ (∀ w : Bool,
          Action.mmap_data 1 w ∈ init_shared_memory_actions instance_0_of_2 (fun _ => 0) →
          w = false)
      ∧ (1 < instance_0_of_2.total_instances →
          Action.create_data 1 ∈ init_shared_memory_actions instance_0_of_2 (fun _ => 0))) :=
  ⟨by decide,
   peer_records_unchanged log10_sample State.initial instance_0_of_2
     (fun _ => record_count_2_6) Operation.redraw (fun _ => 0) 1 (by decide)⟩

/-! ### C21 -/

theorem poll_quit_not_releases (i : Nat) (quit_seen : Nat → Bool) (fuel k : Nat) :
    ∀ a ∈ (poll_quit i quit_seen fuel k).1, a.releases = false := by
  induction fuel generalizing k with
  | zero => simp [poll_quit]
  | succ fuel ih =>
    unfold poll_quit
    split_ifs
    · simp [Action.releases]
    · intro a ha
      simp only [List.mem_cons] at ha
      rcases ha with rfl | rfl | ha
      · rfl
      · rfl
      · exact ih _ a ha

theorem poll_quit_observed (i : Nat) (quit_seen : Nat → Bool) (fuel k : Nat)
    (h : (poll_quit i quit_seen fuel k).2 = true) :
    ∃ j, quit_seen (k + j) = true
      ∧ (poll_quit i quit_seen fuel k).1.count (Action.load_quit i) = j + 1 := by
  induction fuel generalizing k with
  | zero => simp [poll_quit] at h
  | succ fuel ih =>
    unfold poll_quit at h ⊢
    by_cases hq : quit_seen k = true
    · rw [if_pos hq]
      exact ⟨0, hq, by simp⟩
    · rw [if_neg hq] at h ⊢
      obtain ⟨j, hj, hc⟩ := ih (k + 1) h
      refine ⟨j + 1, ?_, ?_⟩
      · rw [← hj]
        congr 1
        omega
      · simp only [List.count_cons, hc]
        simp

theorem poll_quit_of_seen (i : Nat) (quit_seen : Nat → Bool) (fuel k j : Nat)
    (hj : quit_seen (k + j) = true) (hfuel : j < fuel) :
    (poll_quit i quit_seen fuel k).2 = true := by
  induction fuel generalizing k j with
  | zero => omega
  | succ fuel ih =>
    unfold poll_quit
    by_cases hq : quit_seen k = true
    · rw [if_pos hq]
    · rw [if_neg hq]
      cases j with
      | zero => exact absurd hj hq
      | succ j =>
        apply ih (k + 1) j
        · rw [← hj]
          congr 1
          omega
        · omega

theorem quit_barrier_not_releases (inst : InstanceData) (quit_seen : Nat → Nat → Bool)
    (fuel : Nat) (l : List Nat) :
    ∀ a ∈ (quit_barrier inst quit_seen fuel l).1, a.releases = false := by
  induction l with
  | nil => simp [quit_barrier]
  | cons i rest ih =>
    unfold quit_barrier
    split_ifs
    · exact ih
    · intro a ha
      rcases List.mem_append.mp ha with ha | ha
      · exact poll_quit_not_releases _ _ _ _ a ha
      · exact ih a ha
    · exact poll_quit_not_releases _ _ _ _

theorem quit_barrier_observed (inst : InstanceData) (quit_seen : Nat → Nat → Bool)
    (fuel : Nat) (l : List Nat)
    (h : (quit_barrier inst quit_seen fuel l).2 = true) :
    ∀ i ∈ l, i ≠ inst.instance_index →
      ∃ k, quit_seen i k = true
        ∧ k < (quit_barrier inst quit_seen fuel l).1.count (Action.load_quit i) := by
  induction l with
  | nil => simp
  | cons x rest ih =>
    unfold quit_barrier at h ⊢
    by_cases hx : inst.instance_index = x
    · rw [if_pos hx] at h ⊢
      intro i hi hne
      rcases List.mem_cons.mp hi with rfl | hi
      · exact absurd hx.symm hne
      · exact ih h i hi hne
    · rw [if_neg hx] at h ⊢
      by_cases hp : (poll_quit x (quit_seen x) fuel 0).2 = true
      · rw [if_pos hp] at h ⊢
        intro i hi hne
        simp only [List.count_append]
        rcases List.mem_cons.mp hi with rfl | hi
        · obtain ⟨j, hj, hc⟩ := poll_quit_observed _ _ _ _ hp
          rw [Nat.zero_add] at hj
          exact ⟨j, hj, by omega⟩
        · obtain ⟨k, hk, hc⟩ := ih h i hi hne
          exact ⟨k, hk, by omega⟩
      · rw [if_neg hp] at h
        cases h

theorem quit_barrier_of_seen (inst : InstanceData) (quit_seen : Nat → Nat → Bool)
    (fuel : Nat) (l : List Nat)
    (h : ∀ i ∈ l, i ≠ inst.instance_index → ∃ k, k < fuel ∧ quit_seen i k = true) :
    (quit_barrier inst quit_seen fuel l).2 = true := by
  induction l with
  | nil => rfl
  | cons x rest ih =>
    have hrest := ih (fun i hi => h i (List.mem_cons_of_mem _ hi))
    unfold quit_barrier
    by_cases hx : inst.instance_index = x
    · rw [if_pos hx]
      exact hrest
    · obtain ⟨k, hk, hq⟩ := h x (List.mem_cons_self _ _) (Ne.symm hx)
      have hp : (poll_quit x (quit_seen x) fuel 0).2 = true :=
        poll_quit_of_seen x (quit_seen x) fuel 0 k (by rw [Nat.zero_add]; exact hq) hk
      rw [if_neg hx, if_pos hp]
      exact hrest

theorem unmap_and_unlink_of_not_failed (unlink_semaphore unlink_data : Nat → UnlinkResult)
    (l : List Nat)
    (h : ∀ i ∈ l, unlink_semaphore i ≠ UnlinkResult.failed
      ∧ unlink_data i ≠ UnlinkResult.failed) :
    unmap_and_unlink unlink_semaphore unlink_data l
      = (l.flatMap (fun i =>
          [Action.munmap_semaphore i, Action.munmap_data i, Action.shm_unlink_semaphore i,
           Action.shm_unlink_data i]), true) := by
  induction l with
  | nil => rfl
  | cons x rest ih =>
    have hrest := ih (fun i hi => h i (List.mem_cons_of_mem _ hi))
    obtain ⟨h1, h2⟩ := h x (List.mem_cons_self _ _)
    unfold unmap_and_unlink
    rw [if_neg h1, if_neg h2, hrest]
    rfl

theorem starts_with_of_not_releases (X Y pre post : List Action) (a : Action)
    (h : X ++ Y = pre ++ a :: post) (hX : ∀ b ∈ X, b.releases = false)
    (ha : a.releases = true) : ∃ rest, pre = X ++ rest := by
  rcases List.append_eq_append_iff.mp h with ⟨a', h1, _⟩ | ⟨c', h1, h2⟩
  · exact ⟨a', h1⟩
  · cases c' with
    | nil => exact ⟨[], by rw [h1, List.append_nil, List.append_nil]⟩
    | cons c cs =>
      rw [List.cons_append] at h2
      have hc : a = c := (List.cons.inj h2).1
      have hmem : a ∈ X := by
        rw [h1, hc]
        simp
      rw [hX a hmem] at ha
      cases ha

theorem poll_quit_eq (i : Nat) (quit_seen : Nat → Bool) (fuel k n : Nat)
    (hfalse : ∀ j, j < n → quit_seen (k + j) = false) (htrue : quit_seen (k + n) = true)
    (hfuel : n < fuel) :
    poll_quit i quit_seen fuel k
      = ((List.replicate n [Action.load_quit i, Action.usleep]).flatten
          ++ [Action.load_quit i], true) := by
  induction n generalizing fuel k with
  | zero =>
    cases fuel with
    | zero => omega
    | succ fuel =>
      have htrue' : quit_seen k = true := by rw [← htrue, Nat.add_zero]
      unfold poll_quit
      rw [if_pos htrue']
      rfl
  | succ n ih =>
    cases fuel with
    | zero => omega
    | succ fuel =>
      have h0 : quit_seen k = false := hfalse 0 (by omega)
      unfold poll_quit
      rw [if_neg (by rw [h0]; decide)]
      rw [ih fuel (k + 1)
        (fun j hj => by
          have := hfalse (j + 1) (by omega)
          rw [← this]
          congr 1
          omega)
        (by
          rw [← htrue]
          congr 1
          omega)
        (by omega)]
      rfl

theorem quit_barrier_eq (inst : InstanceData) (quit_seen : Nat → Nat → Bool) (fuel : Nat)
    (polls : Nat → Nat) (l : List Nat)
    (h : ∀ i ∈ l, i ≠ inst.instance_index →
      polls i < fuel ∧ quit_seen i (polls i) = true
        ∧ ∀ j, j < polls i → quit_seen i j = false) :
    quit_barrier inst quit_seen fuel l
      = (l.flatMap (fun i =>
          if inst.instance_index = i then []
          else
            (List.replicate (polls i) [Action.load_quit i, Action.usleep]).flatten
              ++ [Action.load_quit i]), true) := by
  induction l with
  | nil => rfl
  | cons x rest ih =>
    have hrest := ih (fun i hi => h i (List.mem_cons_of_mem _ hi))
    unfold quit_barrier
    by_cases hx : inst.instance_index = x
    · rw [if_pos hx, hrest, List.flatMap_cons, if_pos hx, List.nil_append]
    · obtain ⟨h1, h2, h3⟩ := h x (List.mem_cons_self _ _) (Ne.symm hx)
      have hp := poll_quit_eq x (quit_seen x) fuel 0 (polls x)
        (fun j hj => by rw [Nat.zero_add]; exact h3 j hj)
        (by rw [Nat.zero_add]; exact h2) h1
      rw [if_neg hx, hp, hrest, List.flatMap_cons, if_neg hx]
      simp

theorem first_not_releases (self : Nat) :
    ∀ b ∈ List.replicate 5 (Action.store self) ++ [Action.exchange_quit self],
      b.releases = false := by
  intro b hb
  simp only [List.mem_append, List.mem_replicate, List.mem_singleton] at hb
  rcases hb with ⟨_, rfl⟩ | rfl <;> rfl

theorem teardown_actions (inst : InstanceData) (own : SharedMemoryBuffer)
    (quit_seen : Nat → Nat → Bool) (unlink_semaphore unlink_data : Nat → UnlinkResult)
    (fuel : Nat) :
    (remove_shared_memory inst own quit_seen unlink_semaphore unlink_data fuel).actions
      = (List.replicate 5 (Action.store inst.instance_index)
          ++ [Action.exchange_quit inst.instance_index])
        ++ (if own.quit = true then []
            else
              (quit_barrier inst quit_seen fuel (List.range inst.total_instances)).1
                ++ (if (quit_barrier inst quit_seen fuel
                        (List.range inst.total_instances)).2 = true then
                    Action.sem_destroy inst.instance_index
                      :: (unmap_and_unlink unlink_semaphore unlink_data
                            (List.range inst.total_instances)).1
                  else [])) := by
  unfold remove_shared_memory
  by_cases hq : own.quit = true
  · simp only [hq, if_true, List.append_nil]
  · by_cases hb : (quit_barrier inst quit_seen fuel (List.range inst.total_instances)).2 = true
    · simp only [hq, hb, if_true, if_false, Bool.false_eq_true, List.append_assoc,
        List.singleton_append, List.cons_append, List.nil_append]
    · simp only [hq, hb, if_false, Bool.false_eq_true, List.append_nil, List.append_assoc]

theorem teardown_ending (inst : InstanceData) (own : SharedMemoryBuffer)
    (quit_seen : Nat → Nat → Bool) (unlink_semaphore unlink_data : Nat → UnlinkResult)
    (fuel : Nat) (hq : own.quit = false)
    (hb : (quit_barrier inst quit_seen fuel (List.range inst.total_instances)).2 = true)
    (hu : (unmap_and_unlink unlink_semaphore unlink_data
            (List.range inst.total_instances)).2 = true) :
    (remove_shared_memory inst own quit_seen unlink_semaphore unlink_data fuel).ending
      = Outcome.done () := by
  unfold remove_shared_memory
  simp only [hq, hb, hu, if_true, Bool.false_eq_true, if_false]

/-- C21. In teardown (`remove_shared_memory`) the owner first clears the overall valid flag
and every per-quantity valid flag of its own record and sets its quit flag (the first six
accesses; the own record then has every valid flag false and quit true). Every action that
destroys the semaphore, unmaps a region or unlinks a named segment comes after those six
accesses and, for every peer `i != self`, after a load of the quit flag of peer `i` that
returned true. When the own quit flag was not set before, every peer shows quit within the
iterations allowed and no `shm_unlink` fails with an error other than "not found", the run
ends normally having destroyed the own semaphore and unmapped and unlinked every index: an
unlink that fails with "not found" does not abort; the calls made are then those of
`remove_shared_memory_actions`. -/
theorem teardown_waits_for_peers (inst : InstanceData) (own : SharedMemoryBuffer)
    (quit_seen : Nat → Nat → Bool) (unlink_semaphore unlink_data : Nat → UnlinkResult)
    (fuel : Nat) :
    (remove_shared_memory inst own quit_seen unlink_semaphore unlink_data fuel).actions.take 6
        = List.replicate 5 (Action.store inst.instance_index)
            ++ [Action.exchange_quit inst.instance_index]
    ∧ ((remove_shared_memory inst own quit_seen unlink_semaphore unlink_data fuel).own.valid
          = false
        ∧ (∀ q : Quantity,
            (remove_shared_memory inst own quit_seen unlink_semaphore
              unlink_data fuel).own.quantity_valid q = false)
        ∧ (remove_shared_memory inst own quit_seen unlink_semaphore unlink_data fuel).own.quit
            = true)
    ∧ (∀ (pre : List Action) (a : Action) (post : List Action),
        (remove_shared_memory inst own quit_seen unlink_semaphore unlink_data fuel).actions
            = pre ++ a :: post →
        a.releases = true →
        (∃ rest, pre = List.replicate 5 (Action.store inst.instance_index)
            ++ [Action.exchange_quit inst.instance_index] ++ rest)
        ∧ ∀ i, i < inst.total_instances → i ≠ inst.instance_index →
            ∃ k, quit_seen i k = true ∧ k < pre.count (Action.load_quit i))
    ∧ (own.quit = false →
        (∀ i, i < inst.total_instances → i ≠ inst.instance_index →
          ∃ k, k < fuel ∧ quit_seen i k = true) →
        (∀ i, i < inst.total_instances →
          unlink_semaphore i ≠ UnlinkResult.failed ∧ unlink_data i ≠ UnlinkResult.failed) →
        (remove_shared_memory inst own quit_seen unlink_semaphore unlink_data fuel).ending
            = Outcome.done ()
        ∧ Action.sem_destroy inst.instance_index
            ∈ (remove_shared_memory inst own quit_seen unlink_semaphore
                unlink_data fuel).actions
        ∧ ∀ i, i < inst.total_instances →
            ∀ a ∈ [Action.munmap_semaphore i, Action.munmap_data i,
                Action.shm_unlink_semaphore i, Action.shm_unlink_data i],
              a ∈ (remove_shared_memory inst own quit_seen unlink_semaphore
                    unlink_data fuel).actions)
    ∧ (∀ polls : Nat → Nat, own.quit = false →
        (∀ i, i < inst.total_instances → i ≠ inst.instance_index →
          polls i < fuel ∧ quit_seen i (polls i) = true
            ∧ ∀ j, j < polls i → quit_seen i j = false) →
        (∀ i, i < inst.total_instances →
          unlink_semaphore i ≠ UnlinkResult.failed ∧ unlink_data i ≠ UnlinkResult.failed) →
        (remove_shared_memory inst own quit_seen unlink_semaphore unlink_data fuel).actions
          = remove_shared_memory_actions inst polls) := by
  have hacts := teardown_actions inst own quit_seen unlink_semaphore unlink_data fuel
  refine ⟨?_, ?_, ?_, ?_, ?_⟩
  · rw [hacts]
    exact List.take_left' (by simp)
  · unfold remove_shared_memory
    simp only
    split_ifs <;> exact ⟨rfl, fun q => by cases q <;> rfl, rfl⟩
  · intro pre a post hact ha
    rw [hacts] at hact
    by_cases hq : own.quit = true
    · exfalso
      rw [if_pos hq, List.append_nil] at hact
      have hmem : a ∈ List.replicate 5 (Action.store inst.instance_index)
          ++ [Action.exchange_quit inst.instance_index] := by
        rw [hact]
        simp
      rw [first_not_releases _ a hmem] at ha
      cases ha
    · rw [if_neg hq] at hact
      by_cases hb : (quit_barrier inst quit_seen fuel
          (List.range inst.total_instances)).2 = true
      · rw [if_pos hb, ← List.append_assoc] at hact
        obtain ⟨rest, hrest⟩ := starts_with_of_not_releases _ _ pre post a hact
          (by
            intro b hb'
            rcases List.mem_append.mp hb' with hb' | hb'
            · exact first_not_releases _ b hb'
            · exact quit_barrier_not_releases _ _ _ _ b hb')
          ha
        refine ⟨⟨(quit_barrier inst quit_seen fuel (List.range inst.total_instances)).1
          ++ rest, by rw [hrest, List.append_assoc]⟩, ?_⟩
        intro i hi hne
        obtain ⟨k, hk, hc⟩ := quit_barrier_observed inst quit_seen fuel _ hb i
          (List.mem_range.mpr hi) hne
        refine ⟨k, hk, ?_⟩
        rw [hrest]
        simp only [List.count_append] at hc ⊢
        omega
      · exfalso
        rw [if_neg hb, List.append_nil] at hact
        have hmem : a ∈ (List.replicate 5 (Action.store inst.instance_index)
            ++ [Action.exchange_quit inst.instance_index])
            ++ (quit_barrier inst quit_seen fuel (List.range inst.total_instances)).1 := by
          rw [hact]
          simp
        have hrel : a.releases = false := by
          rcases List.mem_append.mp hmem with hb' | hb'
          · exact first_not_releases _ a hb'
          · exact quit_barrier_not_releases _ _ _ _ a hb'
        rw [hrel] at ha
        cases ha
  · intro hq hseen hunlink
    have hb := quit_barrier_of_seen inst quit_seen fuel (List.range inst.total_instances)
      (fun i hi hne => hseen i (List.mem_range.mp hi) hne)
    have hu := unmap_and_unlink_of_not_failed unlink_semaphore unlink_data
      (List.range inst.total_instances) (fun i hi => hunlink i (List.mem_range.mp hi))
    refine ⟨teardown_ending inst own quit_seen unlink_semaphore unlink_data fuel hq hb
      (by rw [hu]), ?_, ?_⟩
    · rw [hacts, if_neg (by rw [hq]; decide), if_pos hb]
      simp
    · intro i hi a ha
      rw [hacts, if_neg (by rw [hq]; decide), if_pos hb, hu]
      apply List.mem_append_right
      apply List.mem_append_right
      apply List.mem_cons_of_mem
      exact List.mem_flatMap.mpr ⟨i, List.mem_range.mpr hi, ha⟩
  · intro polls hq hpolls hunlink
    have hb := quit_barrier_eq inst quit_seen fuel polls (List.range inst.total_instances)
      (fun i hi hne => hpolls i (List.mem_range.mp hi) hne)
    have hu := unmap_and_unlink_of_not_failed unlink_semaphore unlink_data
      (List.range inst.total_instances) (fun i hi => hunlink i (List.mem_range.mp hi))
    rw [hacts, if_neg (by rw [hq]; decide), hb, hu]
    unfold remove_shared_memory_actions
    simp only [if_true, List.append_assoc, List.singleton_append, List.cons_append,
      List.nil_append]

/-- Witness of `teardown_waits_for_peers`: instance 0 of two, its peer showing quit at the
third load, every `shm_unlink` failing with "not found": the run ends normally after
unlinking both indices. -/
theorem teardown_waits_for_peers_witness :
    (SharedMemoryBuffer.initial.quit = false
      ∧ (∀ i, i < instance_0_of_2.total_instances → i ≠ instance_0_of_2.instance_index →
          polls_two i < 5 ∧ quit_after_two i (polls_two i) = true
            ∧ ∀ j, j < polls_two i → quit_after_two i j = false)
      ∧ (∀ i, i < instance_0_of_2.total_instances →
          unlink_not_found i ≠ UnlinkResult.failed
            ∧ unlink_not_found i ≠ UnlinkResult.failed))
    ∧ (remove_shared_memory instance_0_of_2 SharedMemoryBuffer.initial quit_after_two
          unlink_not_found unlink_not_found 5).ending = Outcome.done ()
    ∧ (remove_shared_memory instance_0_of_2 SharedMemoryBuffer.initial quit_after_two
          unlink_not_found unlink_not_found 5).actions
        = [Action.store 0, Action.store 0, Action.store 0, Action.store 0, Action.store 0,
           Action.exchange_quit 0,
           Action.load_quit 1, Action.usleep, Action.load_quit 1, Action.usleep,
           Action.load_quit 1,
           Action.sem_destroy 0,
           Action.munmap_semaphore 0, Action.munmap_data 0, Action.shm_unlink_semaphore 0,
           Action.shm_unlink_data 0,
           Action.munmap_semaphore 1, Action.munmap_data 1, Action.shm_unlink_semaphore 1,
           Action.shm_unlink_data 1] := by
  have h1 : SharedMemoryBuffer.initial.quit = false := rfl
  have h2 : ∀ i, i < instance_0_of_2.total_instances → i ≠ instance_0_of_2.instance_index →
      polls_two i < 5 ∧ quit_after_two i (polls_two i) = true
        ∧ ∀ j, j < polls_two i → quit_after_two i j = false := by
    intro i _ _
    refine ⟨by unfold polls_two; omega, by simp [quit_after_two, polls_two], ?_⟩
    intro j hj
    simp only [quit_after_two, decide_eq_false_iff_not, not_le]
    exact hj
  have h3 : ∀ i, i < instance_0_of_2.total_instances →
      unlink_not_found i ≠ UnlinkResult.failed
        ∧ unlink_not_found i ≠ UnlinkResult.failed := by
    intro i _
    exact ⟨by simp [unlink_not_found], by simp [unlink_not_found]⟩
  refine ⟨⟨h1, h2, h3⟩, ?_, ?_⟩
  · exact ((teardown_waits_for_peers instance_0_of_2 SharedMemoryBuffer.initial
      quit_after_two unlink_not_found unlink_not_found 5).2.2.2.1 h1
        (fun i hi hne => ⟨polls_two i, (h2 i hi hne).1, (h2 i hi hne).2.1⟩) h3).1
  · rw [(teardown_waits_for_peers instance_0_of_2 SharedMemoryBuffer.initial
      quit_after_two unlink_not_found unlink_not_found 5).2.2.2.2 polls_two h1 h2 h3]
    decide

/-! ### C22 -/

/-- C22. For every pair of values parsed for total_instances and instance_index, start-up
passes the validation of the identity if and only if 0 < total_instances <= 10000,
0 <= instance_index <= 10000 and instance_index < total_instances, and the record
`instance` then holds the two values; otherwise the process exits with the message of the
failed assertion, and has made no call on a shared segment. -/
theorem identity_validation (total_instances_long instance_index_long : Int)
    (polls : Nat → Nat) :
    ((∃ inst, main_identity total_instances_long instance_index_long = Except.ok inst)
      ↔ (0 < total_instances_long ∧ total_instances_long ≤ 10000
          ∧ 0 ≤ instance_index_long ∧ instance_index_long ≤ 10000
          ∧ instance_index_long < total_instances_long))
    ∧ (∀ inst, main_identity total_instances_long instance_index_long = Except.ok inst →
        (inst.total_instances : Int) = total_instances_long
        ∧ (inst.instance_index : Int) = instance_index_long)
    ∧ (¬ (0 < total_instances_long ∧ total_instances_long ≤ 10000
          ∧ 0 ≤ instance_index_long ∧ instance_index_long ≤ 10000
          ∧ instance_index_long < total_instances_long) →
        (∃ msg, main_identity total_instances_long instance_index_long = Except.error msg
          ∧ msg ∈ ["total_instances out of range", "instance_index out of range",
              "instance_index must be less than total_instances"])
        ∧ main_startup_actions total_instances_long instance_index_long polls = []) := by
  have hcast : ∀ x : Int, 0 ≤ x → x ≤ 10000 → ((static_cast_unsigned_int x : Nat) : Int) = x := by
    intro x h0 h1
    unfold static_cast_unsigned_int
    rw [Int.toNat_of_nonneg (by omega)]
    omega
  by_cases ht : total_instances_long > 0 ∧ total_instances_long ≤ 10000
  · by_cases hi : instance_index_long ≥ 0 ∧ instance_index_long ≤ 10000
    · have h1 := hcast total_instances_long (by omega) ht.2
      have h2 := hcast instance_index_long hi.1 hi.2
      by_cases hlt : static_cast_unsigned_int instance_index_long
          < static_cast_unsigned_int total_instances_long
      · have hres : main_identity total_instances_long instance_index_long
            = Except.ok
                { total_instances := static_cast_unsigned_int total_instances_long
                  instance_index := static_cast_unsigned_int instance_index_long } := by
          simp only [main_identity, ht, hi, hlt, not_true_eq_false, if_false, and_self]
        have hlt' : instance_index_long < total_instances_long := by omega
        refine ⟨⟨fun _ => ⟨ht.1, ht.2, hi.1, hi.2, hlt'⟩, fun _ => ⟨_, hres⟩⟩, ?_, ?_⟩
        · intro inst hinst
          rw [hres] at hinst
          cases hinst
          exact ⟨h1, h2⟩
        · intro hn
          exact absurd ⟨ht.1, ht.2, hi.1, hi.2, hlt'⟩ hn
      · have hres : main_identity total_instances_long instance_index_long
            = Except.error "instance_index must be less than total_instances" := by
          simp only [main_identity, ht, hi, hlt, not_true_eq_false, not_false_eq_true,
            if_false, if_true, and_self]
        have hlt' : ¬ instance_index_long < total_instances_long := by omega
        refine ⟨⟨fun ⟨inst, h⟩ => ?_, fun h => absurd h.2.2.2.2 hlt'⟩, ?_, ?_⟩
        · rw [hres] at h
          cases h
        · intro inst hinst
          rw [hres] at hinst
          cases hinst
        · intro _
          refine ⟨⟨_, hres, by simp⟩, ?_⟩
          simp only [main_startup_actions, hres]
    · have hres : main_identity total_instances_long instance_index_long
          = Except.error "instance_index out of range" := by
        simp only [main_identity, ht, hi, not_true_eq_false, not_false_eq_true,
          if_false, if_true, and_self]
      refine ⟨⟨fun ⟨inst, h⟩ => ?_, fun h => absurd ⟨h.2.2.1, h.2.2.2.1⟩ hi⟩, ?_, ?_⟩
      · rw [hres] at h
        cases h
      · intro inst hinst
        rw [hres] at hinst
        cases hinst
      · intro _
        refine ⟨⟨_, hres, by simp⟩, ?_⟩
        simp only [main_startup_actions, hres]
  · have hres : main_identity total_instances_long instance_index_long
        = Except.error "total_instances out of range" := by
      simp only [main_identity, ht, not_false_eq_true, if_true]
    refine ⟨⟨fun ⟨inst, h⟩ => ?_, fun h => absurd ⟨h.1, h.2.1⟩ ht⟩, ?_, ?_⟩
    · rw [hres] at h
      cases h
    · intro inst hinst
      rw [hres] at hinst
      cases hinst
    · intro _
      refine ⟨⟨_, hres, by simp⟩, ?_⟩
      simp only [main_startup_actions, hres]

/-! ### C23 -/

/-- C23. The code at the failing inputs: the test `sscanf(...) == 1` of `timer_func` does
not depend on the literal that follows the float in the format (on every buffer each call
returns what the call with the format cut after `%lf` returns), so the line `Conc. 5` in
COUNT mode appends log10(5) to the count series, and in FIT_TEST mode `Mask 7 ppm`,
`Ambient 9` and `FF 1 200 MAYBE` append to the sample, ambient and fit-factor series. -/
theorem trailing_literal_not_checked (log10 : ℚ → ℚ) :
    (∀ buf : List Char,
      sscanf buf "Conc. %lf #/cc" = sscanf buf "Conc. %lf"
      ∧ sscanf buf "Mask %lf #/cc" = sscanf buf "Mask %lf"
      ∧ sscanf buf "Ambient %lf #/cc" = sscanf buf "Ambient %lf"
      ∧ sscanf buf "FF %*u %lf PASS" = sscanf buf "FF %*u %lf"
      ∧ sscanf buf "FF %*u %lf FAIL" = sscanf buf "FF %*u %lf")
    ∧ unmatched ModeType.COUNT_MODE "Conc. 5".toList = false
    ∧ (timer_func log10 State.initial (timer_func_scan "Conc. 5".toList)).series
          Quantity.count
        = State.initial.series Quantity.count ++ [log10 5]
    ∧ unmatched ModeType.FIT_TEST_MODE "Mask 7 ppm".toList = false
    ∧ (timer_func log10 fit_test_state (timer_func_scan "Mask 7 ppm".toList)).series
          Quantity.sample
        = fit_test_state.series Quantity.sample ++ [log10 7]
    ∧ unmatched ModeType.FIT_TEST_MODE "Ambient 9".toList = false
    ∧ (timer_func log10 fit_test_state (timer_func_scan "Ambient 9".toList)).series
          Quantity.ambient
        = fit_test_state.series Quantity.ambient ++ [log10 9]
    ∧ unmatched ModeType.FIT_TEST_MODE "FF 1 200 MAYBE".toList = false
    ∧ (timer_func log10 fit_test_state (timer_func_scan "FF 1 200 MAYBE".toList)).series
          Quantity.fit_factor
        = fit_test_state.series Quantity.fit_factor ++ [log10 200] := by
  refine ⟨fun buf => ⟨?_, ?_, ?_, ?_, ?_⟩, by decide, ?_, by decide, ?_, by decide, ?_,
    by decide, ?_⟩
  · unfold sscanf
    have h : parse_format "Conc. %lf #/cc".toList
        = parse_format "Conc. %lf".toList
          ++ [Directive.space, Directive.lit '#', Directive.lit '/', Directive.lit 'c',
            Directive.lit 'c'] := by decide
    rw [h, ← List.append_nil (parse_format "Conc. %lf".toList), List.append_assoc,
      List.nil_append]
    exact sscanf_directives_same_tail _ _ (by decide) (by decide) _ _ _ _
      (Or.inr (Or.inl (by decide)))
  · unfold sscanf
    have h : parse_format "Mask %lf #/cc".toList
        = parse_format "Mask %lf".toList
          ++ [Directive.space, Directive.lit '#', Directive.lit '/', Directive.lit 'c',
            Directive.lit 'c'] := by decide
    rw [h, ← List.append_nil (parse_format "Mask %lf".toList), List.append_assoc,
      List.nil_append]
    exact sscanf_directives_same_tail _ _ (by decide) (by decide) _ _ _ _
      (Or.inr (Or.inl (by decide)))
  · unfold sscanf
    have h : parse_format "Ambient %lf #/cc".toList
        = parse_format "Ambient %lf".toList
          ++ [Directive.space, Directive.lit '#', Directive.lit '/', Directive.lit 'c',
            Directive.lit 'c'] := by decide
    rw [h, ← List.append_nil (parse_format "Ambient %lf".toList), List.append_assoc,
      List.nil_append]
    exact sscanf_directives_same_tail _ _ (by decide) (by decide) _ _ _ _
      (Or.inr (Or.inl (by decide)))
  · unfold sscanf
    have h : parse_format "FF %*u %lf PASS".toList
        = parse_format "FF %*u %lf".toList
          ++ [Directive.space, Directive.lit 'P', Directive.lit 'A', Directive.lit 'S',
            Directive.lit 'S'] := by decide
    rw [h, ← List.append_nil (parse_format "FF %*u %lf".toList), List.append_assoc,
      List.nil_append]
    exact sscanf_directives_same_tail _ _ (by decide) (by decide) _ _ _ _
      (Or.inr (Or.inl (by decide)))
  · unfold sscanf
    have h : parse_format "FF %*u %lf FAIL".toList
        = parse_format "FF %*u %lf".toList
          ++ [Directive.space, Directive.lit 'F', Directive.lit 'A', Directive.lit 'I',
            Directive.lit 'L'] := by decide
    rw [h, ← List.append_nil (parse_format "FF %*u %lf".toList), List.append_assoc,
      List.nil_append]
    exact sscanf_directives_same_tail _ _ (by decide) (by decide) _ _ _ _
      (Or.inr (Or.inl (by decide)))
  · have h : sscanf (c_str "Conc. 5".toList) "Conc. %lf #/cc"
        = { ret := 1, val := some { negative := false, mantissa := 5, exponent := 0 } } := by
      decide
    have hs : (timer_func_scan "Conc. 5".toList).conc = some 5 := by
      simp only [timer_func_scan, h, ScanfResult.matched]
      norm_num [Decimal.value]
    rw [timer_func_count_mode log10 State.initial _ rfl, hs]
    simp only [series_timer_func_append, if_true]
    rw [if_neg (by norm_num)]
  · have h : sscanf (c_str "Mask 7 ppm".toList) "Mask %lf #/cc"
        = { ret := 1, val := some { negative := false, mantissa := 7, exponent := 0 } } := by
      decide
    have hs : (timer_func_scan "Mask 7 ppm".toList).mask = some 7 := by
      simp only [timer_func_scan, h, ScanfResult.matched]
      norm_num [Decimal.value]
    rw [timer_func_fit_test_mode log10 fit_test_state _ fit_test_state_mode, hs]
    simp only [series_timer_func_append, if_true]
  · have h : sscanf (c_str "Ambient 9".toList) "Ambient %lf #/cc"
        = { ret := 1, val := some { negative := false, mantissa := 9, exponent := 0 } } := by
      decide
    have hs : (timer_func_scan "Ambient 9".toList).ambient = some 9 := by
      simp only [timer_func_scan, h, ScanfResult.matched]
      norm_num [Decimal.value]
    rw [timer_func_fit_test_mode log10 fit_test_state _ fit_test_state_mode,
      mask_eq_none _ (by decide), hs]
    simp only [series_timer_func_append, if_true]
  · have h : sscanf (c_str "FF 1 200 MAYBE".toList) "FF %*u %lf PASS"
        = { ret := 1, val := some { negative := false, mantissa := 200, exponent := 0 } } := by
      decide
    have hs : (timer_func_scan "FF 1 200 MAYBE".toList).ff_pass = some 200 := by
      simp only [timer_func_scan, h, ScanfResult.matched]
      norm_num [Decimal.value]
    rw [timer_func_fit_test_mode log10 fit_test_state _ fit_test_state_mode,
      mask_eq_none _ (by decide), ambient_eq_none _ (by decide), hs]
    simp only [series_timer_func_append, if_true]

/-! ### C24 -/

theorem horizonInv_initial (m : ModeType) : HorizonInv State.initial m := by
  refine ⟨0, ?_, ?_, Or.inl rfl⟩
  · have h : State.initial.horizon m = 18 := by cases m <;> rfl
    rw [h]
    norm_num
  · intro q _
    have h : State.initial.series q = [] := by cases q <;> rfl
    rw [h]
    simp

theorem horizonInv_timer_func_append (st : State) (q : Quantity) (val : ℚ) (m : ModeType)
    (h : HorizonInv st m) : HorizonInv (timer_func_append st q val) m := by
  obtain ⟨k, hk, hle, hlow⟩ := h
  have hlen : ∀ q', ((timer_func_append st q val).series q').length
      = if q = q' then (st.series q').length + 1 else (st.series q').length := by
    intro q'
    rw [series_timer_func_append]
    split_ifs <;> simp
  by_cases hq : q.mode = m
  · have hq_le := hle q hq
    by_cases hgt : (((timer_func_append st q val).series q).length : ℚ) > st.horizon m
    · have hgt' : 18 * 2 ^ k < (st.series q).length + 1 := by
        rw [hk, hlen, if_pos rfl] at hgt
        exact_mod_cast hgt
      refine ⟨k + 1, ?_, ?_, Or.inr ⟨q, hq, ?_⟩⟩
      · rw [horizon_timer_func_append, if_pos hq, if_pos hgt, hk]
        push_cast
        ring
      · intro q' hq'
        have := hle q' hq'
        have hp : 0 < 2 ^ k := pow_pos (by norm_num) k
        rw [hlen, pow_succ]
        split_ifs <;> omega
      · rw [hlen, if_pos rfl, Nat.add_sub_cancel]
        exact hgt'
    · have hgt' : (st.series q).length + 1 ≤ 18 * 2 ^ k := by
        rw [hk, hlen, if_pos rfl] at hgt
        have := not_lt.mp hgt
        exact_mod_cast this
      refine ⟨k, ?_, ?_, ?_⟩
      · rw [horizon_timer_func_append, if_pos hq, if_neg hgt, hk]
      · intro q' hq'
        have := hle q' hq'
        rw [hlen]
        split_ifs with hqq
        · subst hqq
          exact hgt'
        · exact this
      · rcases hlow with h0 | ⟨q', hq', hlt⟩
        · exact Or.inl h0
        · refine Or.inr ⟨q', hq', ?_⟩
          rw [hlen]
          split_ifs <;> omega
  · have hne : ∀ q', q'.mode = m → q ≠ q' := by
      intro q' hq' heq
      exact hq (heq ▸ hq')
    refine ⟨k, ?_, ?_, ?_⟩
    · rw [horizon_timer_func_append, if_neg hq, hk]
    · intro q' hq'
      rw [hlen, if_neg (hne q' hq')]
      exact hle q' hq'
    · rcases hlow with h0 | ⟨q', hq', hlt⟩
      · exact Or.inl h0
      · refine Or.inr ⟨q', hq', ?_⟩
        rw [hlen, if_neg (hne q' hq')]
        exact hlt

theorem timer_func_cases (log10 : ℚ → ℚ) (st : State) (scan : Scan) :
    timer_func log10 st scan = st
      ∨ ∃ q val, timer_func log10 st scan = timer_func_append st q val := by
  cases hm : st.mode with
  | COUNT_MODE =>
    rw [timer_func_count_mode log10 st scan hm]
    cases scan.conc with
    | none => exact Or.inl rfl
    | some v => exact Or.inr ⟨_, _, rfl⟩
  | FIT_TEST_MODE =>
    rw [timer_func_fit_test_mode log10 st scan hm]
    cases scan.mask with
    | some v => exact Or.inr ⟨_, _, rfl⟩
    | none =>
      cases scan.ambient with
      | some v => exact Or.inr ⟨_, _, rfl⟩
      | none =>
        cases scan.ff_pass with
        | some v => exact Or.inr ⟨_, _, rfl⟩
        | none =>
          cases scan.ff_fail with
          | some v => exact Or.inr ⟨_, _, rfl⟩
          | none => exact Or.inl rfl

theorem horizonInv_set_mode (st : State) (mode m : ModeType) (h : HorizonInv st m) :
    HorizonInv { st with mode := mode } m := by
  obtain ⟨k, hk, hle, hlow⟩ := h
  have hh : ({ st with mode := mode } : State).horizon m = st.horizon m := by
    cases m <;> rfl
  have hs : ∀ q, ({ st with mode := mode } : State).series q = st.series q := by
    intro q
    cases q <;> rfl
  refine ⟨k, by rw [hh, hk], ?_, ?_⟩
  · intro q hq
    rw [hs]
    exact hle q hq
  · rcases hlow with h0 | ⟨q, hq, hlt⟩
    · exact Or.inl h0
    · exact Or.inr ⟨q, hq, by rw [hs]; exact hlt⟩

theorem horizonInv_count_reset (st : State) (m : ModeType) (h : HorizonInv st m) :
    HorizonInv
      { st with count_mode_data := keyboard_func_count_reset st.count_mode_data } m := by
  cases m with
  | COUNT_MODE =>
    refine ⟨0, ?_, ?_, Or.inl rfl⟩
    · show (18 : ℚ) = _
      norm_num
    · intro q hq
      cases q with
      | count => show ([] : List ℚ).length ≤ _; simp
      | ambient => cases hq
      | sample => cases hq
      | fit_factor => cases hq
  | FIT_TEST_MODE =>
    obtain ⟨k, hk, hle, hlow⟩ := h
    refine ⟨k, hk, ?_, ?_⟩
    · intro q hq
      cases q with
      | count => cases hq
      | ambient => exact hle _ hq
      | sample => exact hle _ hq
      | fit_factor => exact hle _ hq
    · rcases hlow with h0 | ⟨q, hq, hlt⟩
      · exact Or.inl h0
      · refine Or.inr ⟨q, hq, ?_⟩
        cases q with
        | count => cases hq
        | ambient => exact hlt
        | sample => exact hlt
        | fit_factor => exact hlt

theorem horizonInv_fit_test_reset (st : State) (m : ModeType) (h : HorizonInv st m) :
    HorizonInv
      { st with fit_test_mode_data := keyboard_func_fit_test_reset st.fit_test_mode_data }
      m := by
  cases m with
  | FIT_TEST_MODE =>
    refine ⟨0, ?_, ?_, Or.inl rfl⟩
    · show (18 : ℚ) = _
      norm_num
    · intro q hq
      cases q with
      | count => cases hq
      | ambient => show ([] : List ℚ).length ≤ _; simp
      | sample => show ([] : List ℚ).length ≤ _; simp
      | fit_factor => show ([] : List ℚ).length ≤ _; simp
  | COUNT_MODE =>
    obtain ⟨k, hk, hle, hlow⟩ := h
    refine ⟨k, hk, ?_, ?_⟩
    · intro q hq
      cases q with
      | count => exact hle _ hq
      | ambient => cases hq
      | sample => cases hq
      | fit_factor => cases hq
    · rcases hlow with h0 | ⟨q, hq, hlt⟩
      · exact Or.inl h0
      · refine Or.inr ⟨q, hq, ?_⟩
        cases q with
        | count => exact hlt
        | ambient => cases hq
        | sample => cases hq
        | fit_factor => cases hq

theorem horizonInv_keyboard_func (st : State) (key : Char) (m : ModeType)
    (h : HorizonInv st m) : HorizonInv (keyboard_func st key) m := by
  unfold keyboard_func
  split_ifs
  · exact h
  · exact horizonInv_set_mode st _ m h
  · exact horizonInv_set_mode st _ m h
  · cases st.mode with
    | COUNT_MODE => exact horizonInv_count_reset st m h
    | FIT_TEST_MODE => exact horizonInv_fit_test_reset st m h
  · exact h

theorem horizonInv_step (log10 : ℚ → ℚ) (inst : InstanceData) (m : ModeType)
    (c : State × SharedMemoryBuffer) (e : Event) (h : HorizonInv c.1 m) :
    HorizonInv (step log10 inst c e).1 m := by
  cases e with
  | line scan =>
    show HorizonInv (timer_func log10 c.1 scan) m
    rcases timer_func_cases log10 c.1 scan with h1 | ⟨q, val, h1⟩
    · rw [h1]
      exact h
    · rw [h1]
      exact horizonInv_timer_func_append c.1 q val m h
  | key key => exact horizonInv_keyboard_func c.1 key m h
  | redraw shared => exact h

theorem horizonInv_foldl_step (log10 : ℚ → ℚ) (inst : InstanceData) (m : ModeType)
    (events : List Event) (c : State × SharedMemoryBuffer) (h : HorizonInv c.1 m) :
    HorizonInv (events.foldl (step log10 inst) c).1 m := by
  induction events generalizing c with
  | nil => exact h
  | cons e rest ih =>
    rw [List.foldl_cons]
    exact ih _ (horizonInv_step log10 inst m c e h)

theorem horizonInv_isLeast (st : State) (m : ModeType) (h : HorizonInv st m) :
    IsLeast
      {h : ℚ | (∃ k : ℕ, h = 18 * 2 ^ k)
        ∧ ∀ q : Quantity, q.mode = m → ((st.series q).length : ℚ) ≤ h}
      (st.horizon m) := by
  obtain ⟨k, hk, hle, hlow⟩ := h
  constructor
  · refine ⟨⟨k, by rw [hk]; push_cast; ring⟩, ?_⟩
    intro q hq
    rw [hk]
    exact_mod_cast hle q hq
  · rintro h' ⟨⟨k', rfl⟩, hle'⟩
    rw [hk]
    have hkk : k ≤ k' := by
      rcases hlow with h0 | ⟨q, hq, hlt⟩
      · omega
      · have h1 : ((st.series q).length : ℚ) ≤ 18 * 2 ^ k' := hle' q hq
        have h2 : (st.series q).length ≤ 18 * 2 ^ k' := by exact_mod_cast h1
        have h3 : 2 ^ (k - 1) < 2 ^ k' := by omega
        have h4 : k - 1 < k' := (Nat.pow_lt_pow_iff_right (by norm_num)).mp h3
        omega
    have h5 : 2 ^ k ≤ 2 ^ k' := Nat.pow_le_pow_right (by norm_num) hkk
    have h6 : 18 * 2 ^ k ≤ 18 * 2 ^ k' := by omega
    exact_mod_cast h6

/-- C24. In every state reached from process start by lines (appends), keys (resets and
mode switches) and redraw cycles, the horizon of each mode is 18 * 2^k for some k >= 0 and
is the least such value that is at least the length of every series of that mode (in
FIT_TEST mode the one horizon is shared by the sample, ambient and fit-factor series); in
particular no series is longer than the horizon of its mode. -/
theorem horizon_least_power (log10 : ℚ → ℚ) (inst : InstanceData) (events : List Event)
    (m : ModeType) :
    (∃ k : ℕ, (run log10 inst events).1.horizon m = 18 * 2 ^ k)
    ∧ IsLeast
        {h : ℚ | (∃ k : ℕ, h = 18 * 2 ^ k)
          ∧ ∀ q : Quantity, q.mode = m →
              ((((run log10 inst events).1).series q).length : ℚ) ≤ h}
        ((run log10 inst events).1.horizon m)
    ∧ ∀ q : Quantity,
        ((((run log10 inst events).1).series q).length : ℚ)
          ≤ (run log10 inst events).1.horizon q.mode := by
  have hinv : ∀ m, HorizonInv (run log10 inst events).1 m := fun m =>
    horizonInv_foldl_step log10 inst m events _ (horizonInv_initial m)
  refine ⟨?_, horizonInv_isLeast _ m (hinv m), ?_⟩
  · exact (horizonInv_isLeast _ m (hinv m)).1.1
  · intro q
    exact (horizonInv_isLeast _ q.mode (hinv q.mode)).1.2 q rfl

/-! ### C25 -/

theorem display_sample_local_double_mask_zero :
    compute_y_axis_double Double.neg_inf (Double.finite (-DBL_MAX)) (Double.finite (-1))
        (Double.finite 3)
      = (Double.neg_inf, Double.finite (-DBL_MAX), false) := by
  simp only [compute_y_axis_double, Double.floor, Double.ceil, Double.lt, Double.sub,
    Bool.false_eq_true, if_false, ceil_neg_DBL_MAX]

/-- C25. The code at the failing input. In FIT_TEST mode, after the one line `Mask 0 #/cc`
(the sample series is [-inf], its running min -inf and its running max the sentinel
-DBL_MAX; this is the defect of C9, the zero that the FIT_TEST branches do not replace
before `log10`), `compute_y_axis` returns the sample bounds (-inf, -DBL_MAX) as not
default. No peer is needed: the merge only lowers the min and raises the max, and without a
valid peer the merged bounds are these. Their span is plus infinity, `rint` leaves it, and
its conversion to `unsigned int` is outside the range of the type; the build gives the tick
count `sample_y_axis_range = 0`, so `2.8 / sample_y_axis_range` divides by zero. -/
theorem mask_zero_tick_count (log10 : ℚ → ℚ) :
    display_sample_local_double
        (timer_func_mask_double log10 SampleSeries.initial
          (timer_func_scan "Mask 0 #/cc".toList))
      = (Double.neg_inf, Double.finite (-DBL_MAX), false)
    ∧ Double.rint (Double.sub (Double.finite (-DBL_MAX)) Double.neg_inf) = Double.pos_inf
    ∧ sample_y_axis_range Double.neg_inf (Double.finite (-DBL_MAX)) = 0 := by
  refine ⟨?_, rfl, rfl⟩
  unfold display_sample_local_double
  rw [timer_func_mask_double_zero]
  exact display_sample_local_double_mask_zero

end Portacount
